import Mathlib

/-!
The packed, append-only heterogeneous vector `varvec`: a shallow embedding of `varvec.hpp`.

Conventions of the embedding.

* A declared type `T` is a `type_info`: its identity, `sizeof(T)`, `alignof(T)` and the
  traits the code branches on.  The pack `Types...` is a `List type_info`.
* A byte buffer is a `List Nat`; an object of type `T` is its object representation, a list
  of `sizeof(T)` bytes, and stands for the value it holds.  Placement construction, `memcpy`
  and typed reads all move whole object representations; a copy-constructed object is an
  independent object with the representation of its source, and the state a moved-from
  object is left in is not tracked.  Freshly allocated storage reads as zero bytes.
* A pointer into a buffer is the byte distance from the buffer's first byte.  Both backends
  allocate the buffer with `max_alignment`, so the low bits of an address tested by
  `aligned_for_type` and `realign_for_type` are the low bits of that distance.
* A `size_t` count or capacity is a `Nat`; the 16-bit fields of the fixed-capacity backend,
  the 8-bit tag and the index arithmetic of the iterator wrap explicitly.  Allocation with
  `new` is taken to succeed.
* Code that can fail returns `Except fault _`: undefined behaviour (out-of-bounds access,
  `__builtin_unreachable`), a failed `assert`, a construct that does not compile, or the step
  budget of an unbounded `while` loop running out.
-/

namespace varvec

/-- Ways an operation of the embedding fails to produce a value. -/
inductive fault
  /-- undefined behaviour: access outside a buffer or array, `__builtin_unreachable()` -/
  | undefined
  /-- an `assert` does not hold -/
  | assertion
  /-- the construct is rejected at compile time -/
  | ill_formed
  /-- the step budget given to a `while` loop ran out before the loop finished -/
  | exhausted
  deriving DecidableEq, Repr

deriving instance DecidableEq for Except

/-- What the code knows statically about one declared type. -/
structure type_info where
  /-- identity of the type: two declared types are the same type iff all fields agree -/
  tid : Nat
  /-- size of the type, `sizeof(T)` -/
  size : Nat
  /-- alignment of the type, `alignof(T)` -/
  align : Nat
  /-- trait `std::is_trivially_copyable_v<T>` -/
  trivially_copyable : Bool
  /-- concept `std::copyable<T>` -/
  copyable : Bool
  /-- trait `std::is_trivially_destructible_v<T>` -/
  trivially_destructible : Bool
  deriving DecidableEq, Repr

/-! ## Raw memory -/

/-- Read `n` bytes at distance `off`; outside the buffer the read is undefined. -/
def read_at (buf : List Nat) (off n : Nat) : Except fault (List Nat) :=
  if off + n ≤ buf.length then .ok ((buf.drop off).take n) else .error .undefined

/-- Write the bytes `bs` at distance `off`; outside the buffer the write is undefined. -/
def write_at (buf : List Nat) (off : Nat) (bs : List Nat) : Except fault (List Nat) :=
  if off + bs.length ≤ buf.length then
    .ok (buf.take off ++ bs ++ buf.drop (off + bs.length))
  else .error .undefined

namespace meta

/-- Source `meta::max_alignment_of`: `std::max({alignof(Ts)...})`. -/
def max_alignment_of (Ts : List type_info) : Nat :=
  (Ts.map type_info.align).foldl max 0

/-- Source `meta::max_size_of`: `std::max({sizeof(Ts)...})`. -/
def max_size_of (Ts : List type_info) : Nat :=
  (Ts.map type_info.size).foldl max 0

/-- Source `meta::min_size_of`: `std::min({sizeof(Ts)...})`. -/
def min_size_of : List type_info → Nat
  | [] => 0
  | T :: Ts => (Ts.map type_info.size).foldl min T.size

/-- Source `meta::index_of_impl<count, Needle, Haystack...>`: the success case fires when the needle
stands first in the haystack, the recursive case discards a miss and increments the index,
and the base case is intentionally left unimplemented. -/
def index_of_impl (count : Nat) (Needle : type_info) : List type_info → Option Nat
  | [] => none
  | Other :: Haystack =>
    if Needle = Other then some count else index_of_impl (count + 1) Needle Haystack

/-- Source `meta::index_of_v<T, Ts...>`. -/
def index_of_v (T : type_info) (Ts : List type_info) : Option Nat :=
  index_of_impl 0 T Ts

end meta

namespace storage

/-- Width of `std::uintptr_t`. -/
def uintptr_bits : Nat := 64

/-- Source `aligned_for_type<T>(ptr)`: `!(addr & (alignof(T) - 1))`. -/
def aligned_for_type (T : type_info) (ptr : Nat) : Bool :=
  (ptr &&& (T.align - 1)) == 0

/-- Source `realign_for_type<T>(ptr)`: `(addr + (alignment - 1)) & ~(alignment - 1)` in
`std::uintptr_t` arithmetic. -/
def realign_for_type (T : type_info) (ptr : Nat) : Nat :=
  ((ptr + (T.align - 1)) % 2 ^ uintptr_bits) &&&
    ((2 ^ uintptr_bits - 1) ^^^ ((T.align - 1) % 2 ^ uintptr_bits))

/-- Arithmetic of a `uint8_t` value: the tag of a record and the parameter `curr_type` of the
dispatch functions. -/
def uint8 (n : Nat) : Nat := n % 256

/-- The lambda `recurse` of `get_typed_ptr_for`, walking `Types...` together with its index
sequence: the arm whose index equals `curr_type` calls the callback with the pointer typed
as that arm's type; running off the end of the pack is `__builtin_unreachable()`. -/
def get_typed_ptr_for.recurse {β : Type} (curr_type : Nat) (curr_data : Nat)
    (callback : type_info → Nat → Except fault β) : Nat → List type_info → Except fault β
  | _, [] => .error .undefined
  | idx, T :: Ts =>
    if idx = curr_type then callback T curr_data
    else get_typed_ptr_for.recurse curr_type curr_data callback (idx + 1) Ts

/-- Source `get_typed_ptr_for(curr_type, curr_data, identity<Variant<Types...>>, callback)`.  The
parameter is `uint8_t curr_type`: the argument is held in 8 bits. -/
def get_typed_ptr_for {β : Type} (curr_type : Nat) (curr_data : Nat)
    (Types : List type_info) (callback : type_info → Nat → Except fault β) : Except fault β :=
  let curr_type := uint8 curr_type
  get_typed_ptr_for.recurse curr_type curr_data callback 0 Types

/-- Where the pointer handed to a callback of `get_aligned_ptr_for` points. -/
inductive object_ptr
  /-- into the packed buffer, at this distance from its start -/
  | in_place (addr : Nat)
  /-- at the correctly aligned local `tmp` -/
  | aligned_tmp
  deriving DecidableEq, Repr

/-- A generic callback receiving a typed pointer `T*`: from the type, the pointer and the
pointee's object representation it yields the pointee's representation when it returns,
and its result. -/
abbrev typed_callback (ρ : Type) : Type :=
  type_info → object_ptr → List Nat → List Nat × ρ

/-- Source `get_aligned_ptr_for(curr_type, curr_data, variant, callback)` over the buffer `buf`
that `curr_data` points into.  For a copyable type at a misaligned address the object is
copied into the aligned `tmp`, the callback runs on `tmp`, and the `change_forwarder`
destructor copies `tmp` back when `memcmp(orig, tmp, sizeof(T))` is nonzero; only trivially
copyable types may be misaligned (`assert`).  A non-copyable type must be aligned
(`assert`).  Otherwise the callback runs on the object in place. -/
def get_aligned_ptr_for {ρ : Type} (curr_type : Nat) (buf : List Nat) (curr_data : Nat)
    (Types : List type_info) (callback : typed_callback ρ) : Except fault (List Nat × ρ) :=
  let curr_type := uint8 curr_type
  get_typed_ptr_for curr_type curr_data Types fun T ptr =>
    if T.copyable && !aligned_for_type T ptr then
      if !T.trivially_copyable then .error .assertion
      else do
        let tmp ← read_at buf ptr T.size
        let r := callback T .aligned_tmp tmp
        let orig ← read_at buf ptr T.size
        if orig ≠ r.1 then
          let buf' ← write_at buf ptr r.1
          pure (buf', r.2)
        else pure (buf, r.2)
    else if !T.copyable && !aligned_for_type T ptr then .error .assertion
    else do
      let obj ← read_at buf ptr T.size
      let r := callback T (.in_place ptr) obj
      let buf' ← write_at buf ptr r.1
      pure (buf', r.2)

/-- Source `storage_metadata<OffsetType>`: the element record. -/
structure storage_metadata where
  /-- field `uint8_t type` -/
  type : Nat
  /-- field `OffsetType offset` -/
  offset : Nat
  deriving DecidableEq, Repr

/-- Source `move_storage<Variant>(count, meta, dest, src)`: for `i` in `0 .. count`, dispatch on
`meta[i].type` for `src + offset` and again for `dest + offset`, and move-construct the
destination object from the source object.  The moved-from source bytes are left out of the
result. -/
def move_storage (Types : List type_info) (count : Nat) (meta : List storage_metadata)
    (dest src : List Nat) : Except fault (List Nat) :=
  (List.range count).foldlM (fun dest i =>
    match meta[i]? with
    | none => .error .undefined
    | some m =>
      get_typed_ptr_for m.type m.offset Types fun S srcptr =>
        get_typed_ptr_for m.type m.offset Types fun D destptr =>
          if S = D then do
            let obj ← read_at src srcptr S.size
            write_at dest destptr obj
          else .error .undefined) dest

/-- Source `copy_storage<Variant>(count, meta, dest, src)`: as `move_storage`, with `memcpy` for a
trivially copyable type and placement copy construction otherwise. -/
def copy_storage (Types : List type_info) (count : Nat) (meta : List storage_metadata)
    (dest src : List Nat) : Except fault (List Nat) :=
  (List.range count).foldlM (fun dest i =>
    match meta[i]? with
    | none => .error .undefined
    | some m =>
      get_typed_ptr_for m.type m.offset Types fun S srcptr =>
        get_typed_ptr_for m.type m.offset Types fun D destptr =>
          if S = D && D.trivially_copyable then do
            let obj ← read_at src srcptr D.size
            write_at dest destptr obj
          else if S = D then do
            let obj ← read_at src srcptr S.size
            write_at dest destptr obj
          else .error .undefined) dest

/-! ### Fixed-capacity backend -/

/-- Arithmetic of a `uint16_t` field. -/
def uint16 (n : Nat) : Nat := n % 65536

/-- Source `static_storage_base<Variant, bytes, memcount>`; the template arguments `bytes` and
`memcount` are passed to each member function. -/
structure static_storage_base where
  /-- field `uint16_t count` -/
  count : Nat
  /-- field `uint16_t offset` -/
  offset : Nat
  /-- field `std::array<storage_metadata<uint16_t>, memcount> meta` -/
  meta : List storage_metadata
  /-- field `storage_type<Variant, bytes> data`, as its bytes -/
  data : List Nat
  deriving DecidableEq, Repr

/-- How a call that may throw `std::bad_alloc` ends, with the state it leaves the object in. -/
inductive completion (σ : Type)
  /-- the call returned normally -/
  | returned (s : σ)
  /-- the call was left by `std::bad_alloc` -/
  | bad_alloc (s : σ)
  deriving DecidableEq, Repr

namespace static_storage_base

/-- Default constructor: `count(0), offset(0), meta({0}), data({0})`. -/
def ctor (bytes memcount : Nat) : static_storage_base :=
  { count := 0, offset := 0,
    meta := List.replicate memcount ⟨0, 0⟩,
    data := List.replicate bytes 0 }

/-- Copy constructor, `requires std::copyable<Variant>`: copies `count`, `offset`, `meta`, then
`copy_storage<Variant>(count, meta, get_data(), other.get_data())`. -/
def copy_ctor (Types : List type_info) (bytes : Nat) (other : static_storage_base) :
    Except fault static_storage_base :=
  if Types.all (fun T => T.copyable) then do
    let data ← copy_storage Types other.count other.meta (List.replicate bytes 0) other.data
    pure { count := other.count, offset := other.offset, meta := other.meta, data := data }
  else .error .ill_formed

/-- Member `incr_offset`: `offset += count` on the 16-bit field. -/
def incr_offset (self : static_storage_base) (count : Nat) : static_storage_base :=
  { self with offset := uint16 (self.offset + count) }

/-- Member `resize`: `throw std::bad_alloc()`. -/
def resize (self : static_storage_base) (_newsize : Nat) : completion static_storage_base :=
  .bad_alloc self

/-- Member `size`: `return bytes`. -/
def size (bytes : Nat) (_self : static_storage_base) : Nat := bytes

/-- Member `has_space`: `if (count < memcount) return offset + more < bytes; else return false`. -/
def has_space (bytes memcount : Nat) (self : static_storage_base) (more : Nat) : Bool :=
  if self.count < memcount then decide (self.offset + more < bytes) else false

end static_storage_base

/-! ### Growable backend -/

/-- Source `dynamic_storage<Variant>`.  The owning pointer `data` is the buffer it owns; the null
pointer is the empty buffer, through which every access is out of bounds. -/
structure dynamic_storage where
  /-- field `size_t bytes` -/
  bytes : Nat
  /-- field `size_t count` -/
  count : Nat
  /-- field `size_t offset` -/
  offset : Nat
  /-- field `std::vector<storage_metadata<size_t>> meta` -/
  meta : List storage_metadata
  /-- field `std::unique_ptr<uint8_t[]> data` -/
  data : List Nat
  deriving DecidableEq, Repr

namespace dynamic_storage

/-- Constant `start_size = 8 * meta::max_size_of(...)`. -/
def start_size (Types : List type_info) : Nat := 8 * meta.max_size_of Types

/-- The expression `std::ceil(n / (double) meta::min_size_of(...))` used to size `meta`. -/
def meta_length (Types : List type_info) (n : Nat) : Nat :=
  (n + meta.min_size_of Types - 1) / meta.min_size_of Types

/-- Default constructor: `meta` sized for the smallest type, `data` of `start_size` bytes, and
the default member initializers `bytes {start_size}`, `count {0}`, `offset {0}`. -/
def ctor (Types : List type_info) : dynamic_storage :=
  { bytes := start_size Types, count := 0, offset := 0,
    meta := List.replicate (meta_length Types (start_size Types)) ⟨0, 0⟩,
    data := List.replicate (start_size Types) 0 }

/-- Copy constructor, `requires std::copyable<Variant>`: copies `bytes`, `count`, `offset`,
`meta`, allocates `bytes` bytes and runs
`copy_storage<Variant>(count, meta, get_data(), other.get_data())`. -/
def copy_ctor (Types : List type_info) (other : dynamic_storage) :
    Except fault dynamic_storage :=
  if Types.all (fun T => T.copyable) then do
    let data ← copy_storage Types other.count other.meta (List.replicate other.bytes 0) other.data
    pure { bytes := other.bytes, count := other.count, offset := other.offset,
           meta := other.meta, data := data }
  else .error .ill_formed

/-- Move constructor.  The member initializers take `bytes`, `count`, `offset` from `other`
and move `meta` and `data` out of it; the body then assigns `bytes = 0; count = 0;
offset = 0;`, which names the members of the object under construction.  Returns the new
object and the state `other` is left in. -/
def move_ctor (other : dynamic_storage) : dynamic_storage × dynamic_storage :=
  let self : dynamic_storage :=
    { bytes := other.bytes, count := other.count, offset := other.offset,
      meta := other.meta, data := other.data }
  let self := { self with bytes := 0 }
  let self := { self with count := 0 }
  let self := { self with offset := 0 }
  (self, { other with meta := [], data := [] })

/-- Member `incr_offset`: `offset += count`. -/
def incr_offset (self : dynamic_storage) (count : Nat) : dynamic_storage :=
  { self with offset := self.offset + count }

/-- Member `resize(newsize)`: allocate `newsize` bytes, `move_storage` every element into them,
adopt the new buffer, set `bytes`, resize `meta`, and return `get_data() + offset`. -/
def resize (Types : List type_info) (self : dynamic_storage) (newsize : Nat) :
    Except fault (dynamic_storage × Nat) := do
  let newdata ← move_storage Types self.count self.meta (List.replicate newsize 0) self.data
  let n := meta_length Types newsize
  let self := { self with data := newdata, bytes := newsize,
                          meta := self.meta.take n ++ List.replicate (n - self.meta.length) ⟨0, 0⟩ }
  pure (self, self.offset)

/-- Member `size`: `return bytes`. -/
def size (self : dynamic_storage) : Nat := self.bytes

/-- Member `has_space`: `return offset + more < bytes`. -/
def has_space (self : dynamic_storage) (more : Nat) : Bool :=
  decide (self.offset + more < self.bytes)

end dynamic_storage

end storage

open storage

/-! ## Vector facade -/

/-- The argument `val` of `push_back(ValueType&& val)` as the code uses it. -/
structure push_arg where
  /-- the type `meta::fuzzy_type_match_t<ValueType, Types...>` -/
  stored_type : type_info
  /-- object representation of `val`; its length is `sizeof(val)` -/
  val : List Nat
  /-- object representation of `stored_type(std::forward<ValueType>(val))` -/
  converted : List Nat
  deriving DecidableEq, Repr

/-- The public `value_type = Variant<meta::copyable_type_for_t<Types>...>`: for a copyable `T`
the alternative `T` holding a copy of the object, otherwise the alternative `T*`. -/
inductive value_type
  /-- alternative `T`, with the object representation of the copy -/
  | value (T : type_info) (repr : List Nat)
  /-- alternative `T*` -/
  | pointer (T : type_info) (ptr : object_ptr)
  deriving DecidableEq, Repr

/-- A handler set passed to `visit_at`, invocable on `T&` for every declared type: from the
type and the referenced object it yields the object as the handler leaves it, and the
handler's result. -/
abbrev visitor (ρ : Type) : Type := type_info → List Nat → List Nat × ρ

namespace basic_variable_vector

/-- The bytes `push_back` stores at `data_ptr`: `memcpy(data_ptr, &val, sizeof(stored_type))`
for a trivially copyable stored type, which reads `sizeof(stored_type)` bytes of `val`, and
`new(data_ptr) stored_type(std::forward<ValueType>(val))` otherwise. -/
def stored_bytes (val : push_arg) : Except fault (List Nat) :=
  if val.stored_type.trivially_copyable then
    if val.stored_type.size ≤ val.val.length then .ok (val.val.take val.stored_type.size)
    else .error .undefined
  else .ok val.converted

/-- The pointer `data_ptr` before the growth loop: `base_ptr`, realigned for the stored type
unless that type is trivially copyable. -/
def initial_data_ptr (val : push_arg) (base_ptr : Nat) : Nat :=
  if !val.stored_type.trivially_copyable then realign_for_type val.stored_type base_ptr
  else base_ptr

/-- Body of `operator[]` over the members `count`, `meta`, `get_data()` of `impl`. -/
def operator_index (Types : List type_info) (count : Nat) (meta : List storage_metadata)
    (data : List Nat) (index : Nat) : Except fault value_type :=
  if index < count then
    match meta[index]? with
    | none => .error .undefined
    | some m => do
      let r ← get_aligned_ptr_for m.type data m.offset Types
        (fun T ptr obj => (obj, if T.copyable then value_type.value T obj else .pointer T ptr))
      pure r.2
  else .error .assertion

/-- Body of `visit_at` over the members `count`, `meta`, `get_data()` of `impl`; yields the
buffer as the call leaves it and the handler's result. -/
def visit_at {ρ : Type} (Types : List type_info) (count : Nat) (meta : List storage_metadata)
    (data : List Nat) (index : Nat) (callback : visitor ρ) : Except fault (List Nat × ρ) :=
  if index < count then
    match meta[index]? with
    | none => .error .undefined
    | some m =>
      get_aligned_ptr_for m.type data m.offset Types (fun T _ obj => callback T obj)
  else .error .assertion

end basic_variable_vector

/-! ### The growable vector `varvec::vector<Types...>` -/

namespace vector

/-- The loop `while (!impl.has_space(n)) data_ptr = impl.resize(impl.size() * 2);` run for at
most `fuel` iterations. -/
def push_back.grow (Types : List type_info) (n : Nat) :
    Nat → dynamic_storage → Nat → Except fault (dynamic_storage × Nat)
  | 0, impl, data_ptr =>
    if impl.has_space n then .ok (impl, data_ptr) else .error .exhausted
  | fuel + 1, impl, data_ptr =>
    if impl.has_space n then .ok (impl, data_ptr)
    else do
      let r ← impl.resize Types (impl.size * 2)
      push_back.grow Types n fuel r.1 r.2

/-- Member `push_back(ValueType&& val)` of `basic_variable_vector<dynamic_storage, ...>`. -/
def push_back (Types : List type_info) (impl : dynamic_storage) (val : push_arg)
    (fuel : Nat) : Except fault dynamic_storage :=
  match meta.index_of_v val.stored_type Types with
  | none => .error .ill_formed
  | some tag => do
    let base_ptr := impl.offset
    let data_ptr := basic_variable_vector.initial_data_ptr val base_ptr
    let required_bytes := val.val.length
    let alignment_bytes := data_ptr - base_ptr
    let r ← push_back.grow Types (required_bytes + alignment_bytes) fuel impl data_ptr
    let impl := r.1
    let data_ptr := r.2
    let impl := impl.incr_offset alignment_bytes
    let curr_count := impl.count
    let impl := { impl with count := impl.count + 1 }
    let bs ← basic_variable_vector.stored_bytes val
    let data ← write_at impl.data data_ptr bs
    let impl := { impl with data := data }
    if curr_count < impl.meta.length then
      let impl := { impl with meta := impl.meta.set curr_count ⟨uint8 tag, impl.offset⟩ }
      pure (impl.incr_offset required_bytes)
    else .error .undefined

/-- Copy constructor `basic_variable_vector(basic_variable_vector const& other)`:
`impl(other.impl)`. -/
def copy_ctor (Types : List type_info) (other : dynamic_storage) :
    Except fault dynamic_storage :=
  dynamic_storage.copy_ctor Types other

/-- Move constructor `basic_variable_vector(basic_variable_vector&& other)`:
`impl(std::move(other.impl))`.  Returns the new container and the state of `other`. -/
def move_ctor (other : dynamic_storage) : dynamic_storage × dynamic_storage :=
  dynamic_storage.move_ctor other

/-- Member `operator[]`. -/
def operator_index (Types : List type_info) (self : dynamic_storage) (index : Nat) :
    Except fault value_type :=
  basic_variable_vector.operator_index Types self.count self.meta self.data index

/-- Member `visit_at`. -/
def visit_at {ρ : Type} (Types : List type_info) (self : dynamic_storage) (index : Nat)
    (callback : visitor ρ) : Except fault (dynamic_storage × ρ) := do
  let r ← basic_variable_vector.visit_at Types self.count self.meta self.data index callback
  pure ({ self with data := r.1 }, r.2)

/-- Member `size`: `return impl.count`. -/
def size (self : dynamic_storage) : Nat := self.count

/-- Member `empty`: `return size() == 0`. -/
def empty (self : dynamic_storage) : Bool := size self == 0

/-- Member `used_bytes`: `return impl.size()`. -/
def used_bytes (self : dynamic_storage) : Nat := self.size

end vector

/-! ### The fixed-capacity vector `varvec::static_vector<max_bytes, memcount, Types...>` -/

namespace static_vector

/-- Member `push_back(ValueType&& val)` of `basic_variable_vector<static_storage, ...>`.  The loop
`while (!impl.has_space(n)) data_ptr = impl.resize(...)` leaves by `std::bad_alloc` in its
first iteration. -/
def push_back (Types : List type_info) (bytes memcount : Nat) (impl : static_storage_base)
    (val : push_arg) : Except fault (completion static_storage_base) :=
  match meta.index_of_v val.stored_type Types with
  | none => .error .ill_formed
  | some tag =>
    let base_ptr := impl.offset
    let data_ptr := basic_variable_vector.initial_data_ptr val base_ptr
    let required_bytes := val.val.length
    let alignment_bytes := data_ptr - base_ptr
    if !impl.has_space bytes memcount (required_bytes + alignment_bytes) then
      .ok (impl.resize (impl.size bytes * 2))
    else do
      let impl := impl.incr_offset alignment_bytes
      let curr_count := impl.count
      let impl := { impl with count := uint16 (impl.count + 1) }
      let bs ← basic_variable_vector.stored_bytes val
      let data ← write_at impl.data data_ptr bs
      let impl := { impl with data := data }
      if curr_count < impl.meta.length then
        let impl := { impl with meta := impl.meta.set curr_count ⟨uint8 tag, impl.offset⟩ }
        pure (.returned (impl.incr_offset required_bytes))
      else .error .undefined

/-- Copy constructor `basic_variable_vector(basic_variable_vector const& other)`:
`impl(other.impl)`. -/
def copy_ctor (Types : List type_info) (bytes : Nat) (other : static_storage_base) :
    Except fault static_storage_base :=
  static_storage_base.copy_ctor Types bytes other

/-- Member `operator[]`. -/
def operator_index (Types : List type_info) (self : static_storage_base) (index : Nat) :
    Except fault value_type :=
  basic_variable_vector.operator_index Types self.count self.meta self.data index

/-- Member `visit_at`. -/
def visit_at {ρ : Type} (Types : List type_info) (self : static_storage_base) (index : Nat)
    (callback : visitor ρ) : Except fault (static_storage_base × ρ) := do
  let r ← basic_variable_vector.visit_at Types self.count self.meta self.data index callback
  pure ({ self with data := r.1 }, r.2)

/-- Member `size`: `return impl.count`. -/
def size (self : static_storage_base) : Nat := self.count

/-- Member `empty`: `return size() == 0`. -/
def empty (self : static_storage_base) : Bool := size self == 0

/-- Member `used_bytes`: `return impl.size()`. -/
def used_bytes (bytes : Nat) (self : static_storage_base) : Nat := self.size bytes

end static_vector

/-! ## Iterator -/

/-- What an iterator reaches through its member `container_type const* storage`: the
address of the container, its `size()` and its `operator[]`. -/
structure container_view where
  /-- address of the container -/
  this : Nat
  /-- result of `size()` -/
  size : Nat
  /-- result of `operator[](index)` -/
  operator_index : Nat → Except fault value_type

/-- View of a growable vector that lives at address `this`. -/
def vector.view (Types : List type_info) (this : Nat) (self : dynamic_storage) :
    container_view :=
  ⟨this, vector.size self, vector.operator_index Types self⟩

/-- View of a fixed-capacity vector that lives at address `this`. -/
def static_vector.view (Types : List type_info) (this : Nat) (self : static_storage_base) :
    container_view :=
  ⟨this, static_vector.size self, static_vector.operator_index Types self⟩

/-- Arithmetic of a `size_t` iterator index. -/
def size_type (n : Int) : Nat := (n % 2 ^ 64).toNat

/-- Source `basic_variable_iterator`: `{idx, storage}`; a null `storage` is `none`. -/
structure basic_variable_iterator where
  /-- field `size_type idx` -/
  idx : Nat
  /-- field `container_type const* storage` -/
  storage : Option Nat
  deriving DecidableEq, Repr

namespace basic_variable_iterator

/-- Default constructor: `idx(0), storage(nullptr)`. -/
def ctor : basic_variable_iterator := ⟨0, none⟩

/-- Member `operator *() const`: `assert(storage); return (*storage)[idx];`, with the
container `storage` points to passed as `pointee`. -/
def operator_deref (self : basic_variable_iterator) (pointee : container_view) :
    Except fault value_type :=
  match self.storage with
  | none => .error .assertion
  | some _ => pointee.operator_index self.idx

/-- Member `operator ++()`: `++idx; return *this;`, as the state of `*this` afterwards. -/
def operator_incr (self : basic_variable_iterator) : basic_variable_iterator :=
  { self with idx := size_type (self.idx + 1) }

/-- Member `operator --()`: `--idx; return *this;`, as the state of `*this` afterwards. -/
def operator_decr (self : basic_variable_iterator) : basic_variable_iterator :=
  { self with idx := size_type (self.idx - 1) }

/-- Member `operator ++(int) const`: `auto tmp {*this}; ++tmp; return tmp;`.  The member is
`const`: the result is the returned iterator and `*this` keeps its state. -/
def operator_incr_int (self : basic_variable_iterator) : basic_variable_iterator :=
  let tmp := self
  let tmp := tmp.operator_incr
  tmp

/-- Member `operator --(int) const`: `auto tmp {*this}; --tmp; return tmp;`. -/
def operator_decr_int (self : basic_variable_iterator) : basic_variable_iterator :=
  let tmp := self
  let tmp := tmp.operator_decr
  tmp

/-- Friend `operator ==`: `lhs.idx == rhs.idx && lhs.storage == rhs.storage`. -/
def operator_eq (lhs rhs : basic_variable_iterator) : Bool :=
  lhs.idx == rhs.idx && lhs.storage == rhs.storage

/-- Friend `operator !=`: `!(lhs == rhs)`. -/
def operator_ne (lhs rhs : basic_variable_iterator) : Bool :=
  !operator_eq lhs rhs

/-- The expression statement `x = *it++` on an iterator variable `it`: the value of `x` and
the state of `it` afterwards. -/
def deref_post_incr (it : basic_variable_iterator) (pointee : container_view) :
    Except fault value_type × basic_variable_iterator :=
  ((it.operator_incr_int).operator_deref pointee, it)

end basic_variable_iterator

namespace basic_variable_vector

/-- Member `begin`: `iterator {0, this}`. -/
def begin (self : container_view) : basic_variable_iterator := ⟨0, some self.this⟩

/-- Member `end`: `iterator {size(), this}`. -/
def end_ (self : container_view) : basic_variable_iterator := ⟨self.size, some self.this⟩

/-- The loop of `operator ==` from the iterator states `lhs_it`, `rhs_it`, run for at most
`fuel` iterations, followed by the final `return`. -/
def operator_eq.loop (lhs rhs : container_view) :
    Nat → basic_variable_iterator → basic_variable_iterator → Except fault Bool
  | 0, lhs_it, rhs_it =>
    if lhs_it.operator_ne (end_ lhs) && rhs_it.operator_ne (end_ rhs) then .error .exhausted
    else .ok (lhs_it.operator_eq (end_ lhs) && rhs_it.operator_eq (end_ rhs))
  | fuel + 1, lhs_it, rhs_it =>
    if lhs_it.operator_ne (end_ lhs) && rhs_it.operator_ne (end_ rhs) then
      let l := lhs_it.deref_post_incr lhs
      let r := rhs_it.deref_post_incr rhs
      match l.1, r.1 with
      | .ok a, .ok b =>
        if a ≠ b then .ok false else operator_eq.loop lhs rhs fuel l.2 r.2
      | .error e, _ => .error e
      | _, .error e => .error e
    else .ok (lhs_it.operator_eq (end_ lhs) && rhs_it.operator_eq (end_ rhs))

/-- Friend `operator ==(lhs, rhs)` of two containers. -/
def operator_eq (lhs rhs : container_view) (fuel : Nat) : Except fault Bool :=
  operator_eq.loop lhs rhs fuel (begin lhs) (begin rhs)

end basic_variable_vector

/-! ## Containers with identity

To speak about two growable containers at once, the buffer a `dynamic_storage` owns is kept
in a free store and the member `data` holds its address. -/

/-- The free store: the buffers obtained from
`new (std::align_val_t(max_alignment)) uint8_t[n]`, by address. -/
abbrev free_store : Type := List (List Nat)

/-- A `dynamic_storage` object with the member `data` as the address it holds. -/
structure dynamic_storage_ref where
  /-- field `size_t bytes` -/
  bytes : Nat
  /-- field `size_t count` -/
  count : Nat
  /-- field `size_t offset` -/
  offset : Nat
  /-- field `std::vector<storage_metadata<size_t>> meta` -/
  meta : List storage_metadata
  /-- address held by `std::unique_ptr<uint8_t[]> data` -/
  data : Nat
  deriving DecidableEq, Repr

namespace dynamic_storage_ref

/-- The object together with the buffer its `data` points to. -/
def load (store : free_store) (self : dynamic_storage_ref) : Except fault dynamic_storage :=
  match store[self.data]? with
  | none => .error .undefined
  | some buf =>
    .ok { bytes := self.bytes, count := self.count, offset := self.offset,
          meta := self.meta, data := buf }

/-- Copy constructor of the container, in the free store: the buffer built by
`dynamic_storage::copy_ctor` is a new allocation. -/
def copy_ctor (Types : List type_info) (store : free_store) (other : dynamic_storage_ref) :
    Except fault (free_store × dynamic_storage_ref) := do
  let o ← other.load store
  let c ← dynamic_storage.copy_ctor Types o
  pure (store ++ [c.data],
        { bytes := c.bytes, count := c.count, offset := c.offset, meta := c.meta,
          data := store.length })

/-- Member `visit_at` of the container, in the free store: the handler works on the buffer
`data` points to. -/
def visit_at {ρ : Type} (Types : List type_info) (store : free_store)
    (self : dynamic_storage_ref) (index : Nat) (callback : visitor ρ) :
    Except fault (free_store × ρ) := do
  let s ← self.load store
  let r ← vector.visit_at Types s index callback
  pure (store.set self.data r.1.data, r.2)

/-- Member `operator[]` of the container, in the free store. -/
def operator_index (Types : List type_info) (store : free_store)
    (self : dynamic_storage_ref) (index : Nat) : Except fault value_type := do
  let s ← self.load store
  vector.operator_index Types s index

end dynamic_storage_ref

/-! ## Appending a sequence -/

/-- Calls `push_back` for each value in order on a growable vector, every growth loop with
step budget `fuel`. -/
def vector.push_back_all (Types : List type_info) (fuel : Nat) :
    dynamic_storage → List push_arg → Except fault dynamic_storage
  | impl, [] => .ok impl
  | impl, val :: vals => do
    let impl ← vector.push_back Types impl val fuel
    vector.push_back_all Types fuel impl vals

/-! ## The type sets and values of the test suite

Sizes and alignments are those of an LP64 platform with the libstdc++ string. -/

namespace sample

/-- Type `bool`. -/
def bool_t : type_info := ⟨0, 1, 1, true, true, true⟩

/-- Type `int`. -/
def int_t : type_info := ⟨1, 4, 4, true, true, true⟩

/-- Type `float`. -/
def float_t : type_info := ⟨2, 4, 4, true, true, true⟩

/-- Type `std::string`. -/
def string_t : type_info := ⟨3, 32, 8, false, true, false⟩

/-- Type `std::unique_ptr<double>`. -/
def unique_ptr_t : type_info := ⟨4, 8, 8, false, false, false⟩

/-- The pack of `dynamic_vector` and `copyable_vector`. -/
def copyable_types : List type_info := [bool_t, int_t, float_t, string_t]

/-- The pack of `dynamic_movable_vector` and `movable_vector`. -/
def movable_types : List type_info := [bool_t, int_t, float_t, string_t, unique_ptr_t]

/-- The value `true`. -/
def true_v : push_arg := ⟨bool_t, [1], [1]⟩

/-- The value `5`. -/
def int_5 : push_arg := ⟨int_t, [5, 0, 0, 0], [5, 0, 0, 0]⟩

/-- The value `1337`. -/
def int_1337 : push_arg := ⟨int_t, [57, 5, 0, 0], [57, 5, 0, 0]⟩

/-- The value `(float) 3.5`. -/
def float_3_5 : push_arg := ⟨float_t, [0, 0, 96, 64], [0, 0, 96, 64]⟩

/-- Object representation of the `std::string` holding `hello world`: data pointer, length,
and the characters in the local buffer. -/
def hello_world_string : List Nat :=
  [24, 0, 0, 0, 0, 0, 0, 0, 11, 0, 0, 0, 0, 0, 0, 0,
   104, 101, 108, 108, 111, 32, 119, 111, 114, 108, 100, 0, 0, 0, 0, 0]

/-- The string literal `"hello world"`, a `const char[12]`, stored as `std::string`. -/
def hello_world : push_arg :=
  ⟨string_t, [104, 101, 108, 108, 111, 32, 119, 111, 114, 108, 100, 0], hello_world_string⟩

/-- The value `std::make_unique<double>(3.14159)`: a pointer of eight bytes. -/
def owned_double : push_arg :=
  ⟨unique_ptr_t, [64, 32, 16, 8, 4, 2, 1, 0], [64, 32, 16, 8, 4, 2, 1, 0]⟩

/-- A handler set that assigns `false` to a `bool` and leaves every other type alone. -/
def clear_bool : visitor Unit :=
  fun T obj => if T = bool_t then ([0], ()) else (obj, ())

/-- A handler set that assigns `7` to an `int` and leaves every other type alone. -/
def assign_int_7 : visitor Unit :=
  fun T obj => if T = int_t then ([7, 0, 0, 0], ()) else (obj, ())

end sample

namespace sample

/-- The growable vector after `push_back` of each value in order onto a fresh one (the fresh
vector itself should an append fail). -/
def built (Types : List type_info) (vals : List push_arg) : dynamic_storage :=
  match vector.push_back_all Types 0 (dynamic_storage.ctor Types) vals with
  | .ok s => s
  | .error _ => dynamic_storage.ctor Types

/-- The vector of the test case `move-only properties`. -/
def movable_vector : dynamic_storage :=
  built movable_types [true_v, int_1337, hello_world, owned_double]

/-- The vector of the test case `container properties`. -/
def copyable_vector : dynamic_storage :=
  built copyable_types [true_v, int_5, float_3_5, hello_world]

/-- The copy of `copyable_vector` (that vector itself should the copy fail). -/
def copied_vector : dynamic_storage :=
  match vector.copy_ctor copyable_types copyable_vector with
  | .ok c => c
  | .error _ => copyable_vector

/-- The vector after `push_back("hello world")` and `push_back(5)`. -/
def overlapping_vector : dynamic_storage :=
  built copyable_types [hello_world, int_5]

/-- The vector `overlapping_vector` after `visit_at(1, assign_int_7)`. -/
def overlapping_vector_visited : dynamic_storage :=
  match vector.visit_at copyable_types overlapping_vector 1 assign_int_7 with
  | .ok r => r.1
  | .error _ => overlapping_vector

end sample

/-- The fixed-capacity containers of a program, by address: each holds its bytes inline. -/
abbrev static_objects : Type := List static_storage_base

namespace static_objects

/-- Copy-constructs a new container from the one at address `other`; returns the objects and
the address of the new container. -/
def copy_ctor (Types : List type_info) (bytes : Nat) (objs : static_objects) (other : Nat) :
    Except fault (static_objects × Nat) :=
  match objs[other]? with
  | none => .error .undefined
  | some o => do
    let c ← static_vector.copy_ctor Types bytes o
    pure (objs ++ [c], objs.length)

/-- Member `visit_at` called on the container at address `self`. -/
def visit_at {ρ : Type} (Types : List type_info) (objs : static_objects) (self : Nat)
    (index : Nat) (callback : visitor ρ) : Except fault (static_objects × ρ) :=
  match objs[self]? with
  | none => .error .undefined
  | some s => do
    let r ← static_vector.visit_at Types s index callback
    pure (objs.set self r.1, r.2)

end static_objects

namespace sample

/-- A free store holding the buffer of `copyable_vector` at address 0. -/
def store : free_store := [copyable_vector.data]

/-- The container `copyable_vector` with its buffer at address 0 of `store`. -/
def copyable_ref : dynamic_storage_ref :=
  { bytes := copyable_vector.bytes, count := copyable_vector.count,
    offset := copyable_vector.offset, meta := copyable_vector.meta, data := 0 }

/-- The free store after copy-constructing from `copyable_ref`. -/
def store_after_copy : free_store := store ++ [copied_vector.data]

/-- The copy of `copyable_ref`, its buffer at address 1. -/
def copied_ref : dynamic_storage_ref :=
  { bytes := copied_vector.bytes, count := copied_vector.count,
    offset := copied_vector.offset, meta := copied_vector.meta, data := 1 }

/-- The free store after `visit_at(0, clear_bool)` on `copied_ref`. -/
def store_after_visit : free_store :=
  match copied_ref.visit_at copyable_types store_after_copy 0 clear_bool with
  | .ok r => r.1
  | .error _ => store_after_copy

end sample

/-- Calls `push_back` for each value in order on a fixed-capacity vector; an append left by
`std::bad_alloc` ends the sequence. -/
def static_vector.push_back_all (Types : List type_info) (bytes memcount : Nat) :
    static_storage_base → List push_arg → Except fault (completion static_storage_base)
  | impl, [] => .ok (.returned impl)
  | impl, val :: vals =>
    match static_vector.push_back Types bytes memcount impl val with
    | .ok (.returned s) => static_vector.push_back_all Types bytes memcount s vals
    | other => other

namespace sample

/-- The pack of `trivial_vector`. -/
def trivial_types : List type_info := [bool_t, int_t, float_t]

/-- The fixed-capacity vector `static_vector<bytes, memcount, Types...>` after `push_back` of
each value in order onto a fresh one (the fresh vector itself should an append not return). -/
def static_built (Types : List type_info) (bytes memcount : Nat) (vals : List push_arg) :
    static_storage_base :=
  match static_vector.push_back_all Types bytes memcount
      (static_storage_base.ctor bytes memcount) vals with
  | .ok (.returned s) => s
  | _ => static_storage_base.ctor bytes memcount

/-- A `trivial_vector`, that is `static_vector<32, 8, bool, int, float>`, holding eight
`bool`. -/
def static_eight_bools : static_storage_base :=
  static_built trivial_types 32 8 (List.replicate 8 true_v)

/-- A `trivial_vector` holding one `int`. -/
def static_one_int : static_storage_base :=
  static_built trivial_types 32 8 [int_5]

/-- A `static_vector<70000, 65536, bool>` holding `n` elements `true`. -/
def bools (n : Nat) : static_storage_base :=
  { count := n, offset := n,
    meta := (List.range n).map (fun i => ⟨0, i⟩) ++ List.replicate (65536 - n) ⟨0, 0⟩,
    data := List.replicate n 1 ++ List.replicate (70000 - n) 0 }

/-- A `vector<bool, int, float>` holding seven `int`. -/
def seven_ints : dynamic_storage :=
  built trivial_types (List.replicate 7 int_5)

/-- The vector `seven_ints` after one more `push_back(5)`. -/
def eight_ints : dynamic_storage :=
  match vector.push_back trivial_types seven_ints int_5 1 with
  | .ok s => s
  | .error _ => seven_ints

/-- A `vector<bool, int, float>` holding six `int`. -/
def six_ints : dynamic_storage :=
  built trivial_types (List.replicate 6 int_5)

end sample

/-! ## Iterator arithmetic and ordering -/

/-- Conversion of a `size_t` value to `std::ptrdiff_t`, as when `size()` is passed for a
`std::ptrdiff_t` parameter. -/
def to_ptrdiff (n : Nat) : Int :=
  if n % 2 ^ 64 < 2 ^ 63 then (n % 2 ^ 64 : Nat) else (n % 2 ^ 64 : Nat) - 2 ^ 64

namespace basic_variable_iterator

/-- Friend `operator <=>`: `lhs.idx <=> rhs.idx`. -/
def operator_cmp (lhs rhs : basic_variable_iterator) : Ordering :=
  compare lhs.idx rhs.idx

/-- The expression `lhs < rhs`, rewritten as `(lhs <=> rhs) < 0`. -/
def operator_lt (lhs rhs : basic_variable_iterator) : Bool :=
  operator_cmp lhs rhs == .lt

/-- The expression `lhs <= rhs`, rewritten as `(lhs <=> rhs) <= 0`. -/
def operator_le (lhs rhs : basic_variable_iterator) : Bool :=
  operator_cmp lhs rhs != .gt

/-- The expression `lhs > rhs`, rewritten as `(lhs <=> rhs) > 0`. -/
def operator_gt (lhs rhs : basic_variable_iterator) : Bool :=
  operator_cmp lhs rhs == .gt

/-- The expression `lhs >= rhs`, rewritten as `(lhs <=> rhs) >= 0`. -/
def operator_ge (lhs rhs : basic_variable_iterator) : Bool :=
  operator_cmp lhs rhs != .lt

/-- Friend `operator -(lhs, std::ptrdiff_t rhs)`: `tmp.idx = lhs.idx - rhs`. -/
def operator_sub (lhs : basic_variable_iterator) (rhs : Int) : basic_variable_iterator :=
  let tmp := lhs
  let tmpidx := size_type (lhs.idx - rhs)
  { tmp with idx := tmpidx }

/-- Friend `operator +(lhs, std::ptrdiff_t rhs)`: `tmp.idx = lhs.idx + rhs`. -/
def operator_add (lhs : basic_variable_iterator) (rhs : Int) : basic_variable_iterator :=
  let tmp := lhs
  let tmpidx := size_type (lhs.idx + rhs)
  { tmp with idx := tmpidx }

/-- Friend `operator +(std::ptrdiff_t lhs, rhs)`: `return rhs + lhs`. -/
def operator_add_left (lhs : Int) (rhs : basic_variable_iterator) : basic_variable_iterator :=
  operator_add rhs lhs

end basic_variable_iterator

/-! ## Further types and containers of the examples -/

namespace sample

/-- A move-only type that is trivially copyable, such as
`struct token { int fd; token(token&&) = default; token& operator =(token&&) = default; };`. -/
def token_t : type_info := ⟨5, 4, 4, true, false, true⟩

/-- The pack of `vector<bool, token>`. -/
def token_types : List type_info := [bool_t, token_t]

/-- The value `token {9}`. -/
def token_9 : push_arg := ⟨token_t, [9, 0, 0, 0], [9, 0, 0, 0]⟩

/-- The `vector<bool, token>` after `push_back(true)` and `push_back(token {9})`. -/
def token_vector : dynamic_storage :=
  built token_types [true_v, token_9]

end sample

namespace sample

/-- The `vector<bool, int, float, std::string>` after `push_back("hello world")`. -/
def one_string : dynamic_storage :=
  built copyable_types [hello_world]

/-- The pack of `vector<bool, std::unique_ptr<double>>`. -/
def owner_types : List type_info := [bool_t, unique_ptr_t]

/-- The `vector<bool, std::unique_ptr<double>>` holding 57 elements `true`. -/
def fifty_seven_bools : dynamic_storage :=
  built owner_types (List.replicate 57 true_v)

/-- The vector `fifty_seven_bools` after `push_back(std::make_unique<double>(3.14159))`. -/
def grown_with_owner : dynamic_storage :=
  match vector.push_back owner_types fifty_seven_bools owned_double 1 with
  | .ok s => s
  | .error _ => fifty_seven_bools

/-- A handler set that returns the bytes of the object it is called on. -/
def observe : visitor (List Nat) :=
  fun _ obj => (obj, obj)

end sample

namespace sample

/-- A trivially copyable struct of 22000 bytes, such as `std::array<char, 22000>`. -/
def block_t : type_info := ⟨6, 22000, 1, true, true, true⟩

/-- A value-initialised `block`. -/
def zero_block : push_arg := ⟨block_t, List.replicate 22000 0, List.replicate 22000 0⟩

/-- A `static_vector<70000, 8, block>` whose records lie at `offs`, with member `offset` as
given and every byte of the buffer zero. -/
def blocks (offs : List Nat) (offset : Nat) : static_storage_base :=
  { count := offs.length, offset := offset,
    meta := offs.map (fun o => ⟨0, o⟩) ++ List.replicate (8 - offs.length) ⟨0, 0⟩,
    data := List.replicate 70000 0 }

end sample

/-! ## Order of the element records -/

/-- The state a call leaves the object in, however the call ended. -/
def storage.completion.state {σ : Type} : storage.completion σ → σ
  | .returned s => s
  | .bad_alloc s => s

/-- The first `count` records lie at strictly increasing offsets, all below `offset`. -/
def records_increase (count offset : Nat) (meta : List storage_metadata) : Prop :=
  (∀ i m, i < count → meta[i]? = some m → m.offset < offset) ∧
  ∀ i j mi mj, i < j → j < count → meta[i]? = some mi → meta[j]? = some mj →
    mi.offset < mj.offset

/-! ## A pack of more than 256 types -/

namespace sample

/-- The pack `slot<0>, ..., slot<256>` of 257 one-byte trivially copyable structs
`template <int I> struct slot { char c; };`. -/
def wide_types : List type_info :=
  (List.range 257).map fun i => ⟨10 + i, 1, 1, true, true, true⟩

/-- The value `slot<256> {1}`. -/
def last_slot : push_arg := ⟨⟨266, 1, 1, true, true, true⟩, [1], [1]⟩

/-- A `vector<slot<0>, ..., slot<256>>` after `push_back(slot<256> {1})`. -/
def wide_vector : dynamic_storage :=
  built wide_types [last_slot]

end sample

/-! ## Destruction -/

namespace storage

/-- One evaluation of `value->~T()` in a destructor loop: the type the pointer was given and
the position it points to. -/
structure destructor_call where
  /-- the type `T` of `T* value` -/
  type : type_info
  /-- the pointer `value`, as a distance from the start of the buffer -/
  value : Nat
  deriving DecidableEq, Repr

/-- The loop `while (this->count) { auto const curr_count = --this->count; ... }` that is
the body of both `~dynamic_storage` and `~destructible_static_storage_base`, from the value
of `count` it starts with: each iteration reads `meta[curr_count]`, dispatches on its tag
with `get_data() + curr_offset`, and evaluates `value->~T()`.  Yields the calls in the order
they are made; the loop leaves `count` at 0. -/
def destructor_loop (Types : List type_info) (meta : List storage_metadata) :
    Nat → Except fault (List destructor_call)
  | 0 => .ok []
  | curr_count + 1 =>
    match meta[curr_count]? with
    | none => .error .undefined
    | some m => do
      let call ← get_typed_ptr_for m.type m.offset Types
        (fun T value => .ok (⟨T, value⟩ : destructor_call))
      let rest ← destructor_loop Types meta curr_count
      pure (call :: rest)

/-- Destructor `~dynamic_storage()`: the object after the body has run, and the destructor
calls made. -/
def dynamic_storage.dtor (Types : List type_info) (self : dynamic_storage) :
    Except fault (dynamic_storage × List destructor_call) := do
  let calls ← destructor_loop Types self.meta self.count
  pure ({ self with count := 0 }, calls)

/-- Destructor `~destructible_static_storage_base()`. -/
def destructible_static_storage_base.dtor (Types : List type_info)
    (self : static_storage_base) :
    Except fault (static_storage_base × List destructor_call) := do
  let calls ← destructor_loop Types self.meta self.count
  pure ({ self with count := 0 }, calls)

/-- Destructor of `autotrivial_static_storage_base_t<Variant, bytes, memcount>`: that of
`static_storage_base` (`= default`, no statement runs) when
`std::is_trivially_destructible_v<Variant>`, which holds exactly when every declared type is
trivially destructible, and that of `destructible_static_storage_base` otherwise. -/
def autotrivial_static_storage_base_t.dtor (Types : List type_info)
    (self : static_storage_base) :
    Except fault (static_storage_base × List destructor_call) :=
  if Types.all (fun T => T.trivially_destructible) then .ok (self, [])
  else destructible_static_storage_base.dtor Types self

end storage

/-- The destructor calls the claim describes for the first `count` records: one per record,
last record first, each with the declared type at the record's tag and the record's
offset. -/
def expected_destructor_calls (Types : List type_info) (meta : List storage_metadata)
    (count : Nat) : List (Option destructor_call) :=
  ((List.range count).map fun i =>
    match meta[i]? with
    | none => none
    | some m =>
      match Types[m.type]? with
      | none => none
      | some T => some ⟨T, m.offset⟩).reverse

/-! ## Inputs near the bounds of the buffer and of the metadata array -/

namespace sample

/-- The argument of `push_back(s)` for `std::string s {"hello world"}`: the value is itself
a `std::string`. -/
def hello_world_object : push_arg := ⟨string_t, hello_world_string, hello_world_string⟩

/-- A `vector<bool, int, float, std::string>` after seven `push_back(s)` with
`std::string s {"hello world"}` and one `push_back(true)`. -/
def nearly_full : dynamic_storage :=
  built copyable_types (List.replicate 7 hello_world_object ++ [true_v])

/-- The value `"a"` pushed into a vector of `std::string`: a `const char[2]` of two bytes,
converted to a `std::string` of 32 bytes (pointer to the local buffer at 16, length 1, the
characters). -/
def letter_a : push_arg :=
  ⟨string_t, [97, 0],
    [16, 0, 0, 0, 0, 0, 0, 0, 1, 0, 0, 0, 0, 0, 0, 0,
     97, 0, 0, 0, 0, 0, 0, 0, 0, 0, 0, 0, 0, 0, 0, 0]⟩

/-- A `vector<std::string>` after eight `push_back("a")`. -/
def eight_strings : dynamic_storage :=
  built [string_t] (List.replicate 8 letter_a)

end sample

/-! ## Inputs for the space test of `push_back` and for `resize` -/

namespace sample

/-- A string literal of 299 characters `x`, a `const char[300]`, stored as `std::string`
(pointer to the heap buffer, length 299, capacity 299). -/
def long_literal : push_arg :=
  ⟨string_t, List.replicate 299 120 ++ [0],
    [0, 32, 64, 0, 0, 0, 0, 0, 43, 1, 0, 0, 0, 0, 0, 0,
     43, 1, 0, 0, 0, 0, 0, 0, 0, 0, 0, 0, 0, 0, 0, 0]⟩

/-- A fresh `vector<bool, int, float, std::string>` after `push_back` of the long literal
(the fresh vector itself should the append fail). -/
def grown_for_literal : dynamic_storage :=
  match vector.push_back copyable_types (dynamic_storage.ctor copyable_types)
      long_literal 1 with
  | .ok s => s
  | .error _ => dynamic_storage.ctor copyable_types

/-- A `static_vector<128, 8, bool, int, float, std::string>` after three `push_back(s)` with
`std::string s {"hello world"}` and one `push_back(true)`. -/
def static_nearly_full : static_storage_base :=
  static_built copyable_types 128 8 (List.replicate 3 hello_world_object ++ [true_v])

/-- The container of the test case `container properties` after `resize(512)` (the
container itself should the call fail). -/
def copyable_vector_resized : dynamic_storage :=
  match dynamic_storage.resize copyable_types copyable_vector 512 with
  | .ok r => r.1
  | .error _ => copyable_vector

end sample

/-- A computation that does not end by running out of its step budget. -/
def within_budget {α : Type} (x : Except fault α) : Prop := x ≠ .error .exhausted

/-! ## Theorems -/

open sample

set_option maxRecDepth 100000

/-- C1, failing input.  The move-only test sequence `true, 1337, "hello world",
std::make_unique<double>(3.14159)` pushed onto a fresh growable vector: all four appends
return and `size()` is 4, the string literal advances `offset` by `sizeof(val) = 12` although
32 bytes were constructed, the pointer appended next is written into those bytes, and
`operator[](2)` no longer returns the string that was appended. -/
theorem push_back_advances_by_source_size :
    ∃ s, vector.push_back_all movable_types 0 (dynamic_storage.ctor movable_types)
          [true_v, int_1337, hello_world, owned_double] = .ok s ∧
      vector.size s = 4 ∧
      s.meta.take 4 = [⟨0, 0⟩, ⟨1, 1⟩, ⟨3, 8⟩, ⟨4, 24⟩] ∧
      s.offset = 32 ∧
      vector.operator_index movable_types s 2 =
        .ok (.value string_t
          [24, 0, 0, 0, 0, 0, 0, 0, 11, 0, 0, 0, 0, 0, 0, 0,
           64, 32, 16, 8, 4, 2, 1, 0, 114, 108, 100, 0, 0, 0, 0, 0]) ∧
      vector.operator_index movable_types s 2 ≠ .ok (.value string_t hello_world.converted) := by
  refine ⟨movable_vector, ?_, ?_, ?_, ?_, ?_, ?_⟩ <;> decide

/-- C2, failing input.  Move-constructing from the growable vector holding the four values
of the move-only test: the new container has `size() == 0` and `operator[](0)` fails its
assertion, while the source still reports four elements. -/
theorem move_ctor_empties_destination :
    ∃ s, vector.push_back_all movable_types 0 (dynamic_storage.ctor movable_types)
          [true_v, int_1337, hello_world, owned_double] = .ok s ∧
      vector.size s = 4 ∧
      vector.size (vector.move_ctor s).1 = 0 ∧
      vector.operator_index movable_types (vector.move_ctor s).1 0 = .error .assertion ∧
      vector.size (vector.move_ctor s).2 = 4 := by
  refine ⟨movable_vector, ?_, ?_, ?_, ?_, ?_⟩ <;> decide

/-- C3, failing input.  On the growable vector holding `true, 5, (float) 3.5,
"hello world"`, with `it = begin()`: `*it++` yields element 1 (the `int` 5), not element 0,
and leaves `it` where it was, so after any number of evaluations `it == end()` is false. -/
theorem post_increment_returns_advanced_copy :
    ∃ s, vector.push_back_all copyable_types 0 (dynamic_storage.ctor copyable_types)
          [true_v, int_5, float_3_5, hello_world] = .ok s ∧
      ∀ this : Nat,
        let v := vector.view copyable_types this s
        let it := basic_variable_vector.begin v
        it.deref_post_incr v = (.ok (.value int_t [5, 0, 0, 0]), it) ∧
        vector.operator_index copyable_types s 0 = .ok (.value bool_t [1]) ∧
        vector.operator_index copyable_types s 1 = .ok (.value int_t [5, 0, 0, 0]) ∧
        it.operator_eq (basic_variable_vector.end_ v) = false := by
  refine ⟨copyable_vector, by decide, ?_⟩
  intro this
  refine ⟨?_, by decide, by decide, ?_⟩
  · show (vector.operator_index copyable_types copyable_vector (size_type (0 + 1)), _) = _
    congr 1
  · show (decide (0 = vector.size copyable_vector) && _) = false
    have : decide (0 = vector.size copyable_vector) = false := by decide
    rw [this]; rfl

/-- From `begin()` on both sides the loop of `operator ==` never moves: when both containers
are non-empty and their elements at index 1 read the same value, every step budget runs
out. -/
theorem operator_eq_never_advances (lhs rhs : container_view) (a : value_type)
    (hl : lhs.operator_index (size_type (0 + 1)) = .ok a)
    (hr : rhs.operator_index (size_type (0 + 1)) = .ok a)
    (hls : lhs.size ≠ 0) (hrs : rhs.size ≠ 0) (fuel : Nat) :
    basic_variable_vector.operator_eq lhs rhs fuel = .error .exhausted := by
  have hne : ((basic_variable_vector.begin lhs).operator_ne (basic_variable_vector.end_ lhs) &&
      (basic_variable_vector.begin rhs).operator_ne (basic_variable_vector.end_ rhs)) = true := by
    simp [basic_variable_iterator.operator_ne, basic_variable_iterator.operator_eq,
      basic_variable_vector.begin, basic_variable_vector.end_]
    exact ⟨fun h => hls h.symm, fun h => hrs h.symm⟩
  have hdl : ((basic_variable_vector.begin lhs).deref_post_incr lhs) =
      (.ok a, basic_variable_vector.begin lhs) := by
    simp only [basic_variable_iterator.deref_post_incr, basic_variable_iterator.operator_incr_int,
      basic_variable_iterator.operator_incr, basic_variable_iterator.operator_deref,
      basic_variable_vector.begin]
    rw [← hl]; rfl
  have hdr : ((basic_variable_vector.begin rhs).deref_post_incr rhs) =
      (.ok a, basic_variable_vector.begin rhs) := by
    simp only [basic_variable_iterator.deref_post_incr, basic_variable_iterator.operator_incr_int,
      basic_variable_iterator.operator_incr, basic_variable_iterator.operator_deref,
      basic_variable_vector.begin]
    rw [← hr]; rfl
  unfold basic_variable_vector.operator_eq
  induction fuel with
  | zero => simp [basic_variable_vector.operator_eq.loop, hne]
  | succ n ih =>
    rw [basic_variable_vector.operator_eq.loop]
    simp only [hne, if_true, hdl, hdr]
    simpa using ih

/-- C4, failing input.  For the growable vector `v` holding `true, 5, (float) 3.5,
"hello world"`, the evaluation of `v == v` never returns: both iterators stay at `begin()`
and element 1 is compared with itself in every iteration, whatever the step budget. -/
theorem operator_eq_reflexive_diverges :
    vector.push_back_all copyable_types 0 (dynamic_storage.ctor copyable_types)
        [true_v, int_5, float_3_5, hello_world] = .ok copyable_vector ∧
      ∀ this fuel : Nat,
        basic_variable_vector.operator_eq (vector.view copyable_types this copyable_vector)
          (vector.view copyable_types this copyable_vector) fuel = .error .exhausted :=
  ⟨by decide, fun _ fuel =>
    operator_eq_never_advances _ _ (.value int_t [5, 0, 0, 0])
      (show vector.operator_index copyable_types copyable_vector (size_type (0 + 1)) = _
        by decide)
      (show vector.operator_index copyable_types copyable_vector (size_type (0 + 1)) = _
        by decide)
      (show vector.size copyable_vector ≠ 0 by decide)
      (show vector.size copyable_vector ≠ 0 by decide) fuel⟩

/-- C5, failing input.  The copy `c` of the growable vector `v` holding `true, 5,
(float) 3.5, "hello world"` has the size and the elements of `v`, yet the evaluation of
`c == v` never returns. -/
theorem copy_compares_without_result :
    vector.push_back_all copyable_types 0 (dynamic_storage.ctor copyable_types)
        [true_v, int_5, float_3_5, hello_world] = .ok copyable_vector ∧
    ∃ c, vector.copy_ctor copyable_types copyable_vector = .ok c ∧
      vector.size c = vector.size copyable_vector ∧
      (∀ i, i < 4 → vector.operator_index copyable_types c i =
        vector.operator_index copyable_types copyable_vector i) ∧
      ∀ this_c this_v fuel : Nat,
        basic_variable_vector.operator_eq (vector.view copyable_types this_c c)
          (vector.view copyable_types this_v copyable_vector) fuel = .error .exhausted := by
  refine ⟨by decide, copied_vector, by decide, by decide, by decide, ?_⟩
  intro this_c this_v fuel
  exact operator_eq_never_advances _ _ (.value int_t [5, 0, 0, 0])
    (show vector.operator_index copyable_types copied_vector (size_type (0 + 1)) = _ by decide)
    (show vector.operator_index copyable_types copyable_vector (size_type (0 + 1)) = _ by decide)
    (show vector.size copied_vector ≠ 0 by decide)
    (show vector.size copyable_vector ≠ 0 by decide) fuel

/-- C7, failing input.  After `push_back("hello world")` and `push_back(5)` on a fresh
growable vector the `int` lies at offset 12, inside the 32 bytes of the string at offset 0.
Assigning `7` to element 1 through `visit_at` changes what `operator[](0)` returns. -/
theorem visit_at_changes_overlapped_neighbour :
    ∃ s s1, vector.push_back_all copyable_types 0 (dynamic_storage.ctor copyable_types)
          [hello_world, int_5] = .ok s ∧
      s.meta.take 2 = [⟨3, 0⟩, ⟨1, 12⟩] ∧
      vector.visit_at copyable_types s 1 assign_int_7 = .ok (s1, ()) ∧
      vector.size s1 = vector.size s ∧ s1.meta = s.meta ∧
      vector.operator_index copyable_types s1 1 = .ok (.value int_t [7, 0, 0, 0]) ∧
      vector.operator_index copyable_types s 0 =
        .ok (.value string_t
          [24, 0, 0, 0, 0, 0, 0, 0, 11, 0, 0, 0, 5, 0, 0, 0,
           104, 101, 108, 108, 111, 32, 119, 111, 114, 108, 100, 0, 0, 0, 0, 0]) ∧
      vector.operator_index copyable_types s1 0 =
        .ok (.value string_t
          [24, 0, 0, 0, 0, 0, 0, 0, 11, 0, 0, 0, 7, 0, 0, 0,
           104, 101, 108, 108, 111, 32, 119, 111, 114, 108, 100, 0, 0, 0, 0, 0]) := by
  refine ⟨overlapping_vector, overlapping_vector_visited, ?_, ?_, ?_, ?_, ?_, ?_, ?_, ?_⟩ <;>
    decide

/-- C10, failing input.  The move constructor of the growable backend zeroes the members of
the object under construction: for every source the source keeps its `count` and `offset`
while the new object gets `count = offset = 0`; the moved-from test vector still has
`size() == 4` and is not `empty()`. -/
theorem move_ctor_leaves_source_counted :
    (∀ other : dynamic_storage,
        (vector.move_ctor other).2.count = other.count ∧
        (vector.move_ctor other).2.offset = other.offset ∧
        (vector.move_ctor other).1.count = 0 ∧
        (vector.move_ctor other).1.offset = 0) ∧
      vector.push_back_all movable_types 0 (dynamic_storage.ctor movable_types)
        [true_v, int_1337, hello_world, owned_double] = .ok movable_vector ∧
      vector.size (vector.move_ctor movable_vector).2 = 4 ∧
      (vector.move_ctor movable_vector).2.offset = 32 ∧
      vector.empty (vector.move_ctor movable_vector).2 = false := by
  refine ⟨fun other => ⟨rfl, rfl, rfl, rfl⟩, ?_, ?_, ?_, ?_⟩ <;> decide

/-- Any value a computation in `Except` returns through `bind` comes from a value of its
first part. -/
theorem except_bind_ok {ε α β : Type} {x : Except ε α} {f : α → Except ε β} {b : β}
    (h : x >>= f = .ok b) : ∃ a, x = .ok a ∧ f a = .ok b := by
  cases x with
  | error e => cases h
  | ok a => exact ⟨a, rfl, h⟩

/-- A successful `load` finds the buffer in the store. -/
theorem dynamic_storage_ref.load_ok {store : free_store} {self : dynamic_storage_ref}
    {s : dynamic_storage} (h : self.load store = .ok s) : self.data < store.length := by
  unfold dynamic_storage_ref.load at h
  by_contra hlt
  rw [List.getElem?_eq_none (Nat.le_of_not_lt hlt)] at h
  cases h

/-- A `load` depends on the store only through the buffer at `data`. -/
theorem dynamic_storage_ref.load_congr {store store1 : free_store}
    {self : dynamic_storage_ref} (h : store1[self.data]? = store[self.data]?) :
    self.load store1 = self.load store := by
  unfold dynamic_storage_ref.load
  rw [h]

/-- C6.  A copy shares no storage with its source.  Growable backend, with buffers in the
free store: after copy-constructing `c` from `v`, a `visit_at` on `c` that returns leaves
the object `v` with its buffer, hence `size()` and every `v[j]`, as they were, and a
`visit_at` on `v` leaves `c` and every `c[j]` as they were.  Fixed-capacity backend, with
containers by address: the same for the container copy-constructed from the one at `v`. -/
theorem copy_shares_no_storage (Types : List type_info) (ρ : Type) :
    (∀ (store store1 store2 : free_store) (v c : dynamic_storage_ref) (i : Nat)
        (cb : visitor ρ) (r : ρ),
        dynamic_storage_ref.copy_ctor Types store v = .ok (store1, c) →
        (c.visit_at Types store1 i cb = .ok (store2, r) →
          v.load store2 = v.load store1 ∧
          ∀ j, v.operator_index Types store2 j = v.operator_index Types store1 j) ∧
        (v.visit_at Types store1 i cb = .ok (store2, r) →
          c.load store2 = c.load store1 ∧
          ∀ j, c.operator_index Types store2 j = c.operator_index Types store1 j)) ∧
    (∀ (bytes : Nat) (objs objs1 objs2 : static_objects) (v c : Nat) (i : Nat)
        (cb : visitor ρ) (r : ρ),
        static_objects.copy_ctor Types bytes objs v = .ok (objs1, c) →
        (static_objects.visit_at Types objs1 c i cb = .ok (objs2, r) →
          objs2[v]? = objs1[v]?) ∧
        (static_objects.visit_at Types objs1 v i cb = .ok (objs2, r) →
          objs2[c]? = objs1[c]?)) := by
  constructor
  · intro store store1 store2 v c i cb r hcopy
    unfold dynamic_storage_ref.copy_ctor at hcopy
    obtain ⟨o, ho, hcopy⟩ := except_bind_ok hcopy
    obtain ⟨c0, _, hcopy⟩ := except_bind_ok hcopy
    have hv : v.data < store.length := dynamic_storage_ref.load_ok ho
    injection hcopy with hcopy
    injection hcopy with hstore hc
    subst hstore
    have hcd : c.data = store.length := by rw [← hc]
    have key : ∀ store2 : free_store, store2[v.data]? = (store ++ [c0.data])[v.data]? →
        v.load store2 = v.load (store ++ [c0.data]) ∧
        ∀ j, v.operator_index Types store2 j =
          v.operator_index Types (store ++ [c0.data]) j := by
      intro s2 h
      have := dynamic_storage_ref.load_congr h
      exact ⟨this, fun j => by unfold dynamic_storage_ref.operator_index; rw [this]⟩
    have keyc : ∀ store2 : free_store, store2[c.data]? = (store ++ [c0.data])[c.data]? →
        c.load store2 = c.load (store ++ [c0.data]) ∧
        ∀ j, c.operator_index Types store2 j =
          c.operator_index Types (store ++ [c0.data]) j := by
      intro s2 h
      have := dynamic_storage_ref.load_congr h
      exact ⟨this, fun j => by unfold dynamic_storage_ref.operator_index; rw [this]⟩
    constructor
    · intro hvis
      unfold dynamic_storage_ref.visit_at at hvis
      obtain ⟨s, _, hvis⟩ := except_bind_ok hvis
      obtain ⟨r1, _, hvis⟩ := except_bind_ok hvis
      injection hvis with hvis
      injection hvis with hs2 _
      subst hs2
      apply key
      rw [hcd, List.getElem?_set_ne (by omega)]
    · intro hvis
      unfold dynamic_storage_ref.visit_at at hvis
      obtain ⟨s, _, hvis⟩ := except_bind_ok hvis
      obtain ⟨r1, _, hvis⟩ := except_bind_ok hvis
      injection hvis with hvis
      injection hvis with hs2 _
      subst hs2
      apply keyc
      rw [hcd, List.getElem?_set_ne (by omega)]
  · intro bytes objs objs1 objs2 v c i cb r hcopy
    unfold static_objects.copy_ctor at hcopy
    cases hov : objs[v]? with
    | none => rw [hov] at hcopy; cases hcopy
    | some o =>
      rw [hov] at hcopy
      have hv : v < objs.length := by
        by_contra hlt
        rw [List.getElem?_eq_none (Nat.le_of_not_lt hlt)] at hov
        cases hov
      obtain ⟨c0, _, hcopy⟩ := except_bind_ok hcopy
      injection hcopy with hcopy
      injection hcopy with hobjs hc
      subst hobjs
      subst hc
      constructor
      · intro hvis
        unfold static_objects.visit_at at hvis
        cases hs : (objs ++ [c0])[objs.length]? with
        | none => rw [hs] at hvis; cases hvis
        | some s =>
          rw [hs] at hvis
          obtain ⟨r1, _, hvis⟩ := except_bind_ok hvis
          injection hvis with hvis
          injection hvis with hs2 _
          subst hs2
          rw [List.getElem?_set_ne (by omega)]
      · intro hvis
        unfold static_objects.visit_at at hvis
        cases hs : (objs ++ [c0])[v]? with
        | none => rw [hs] at hvis; cases hvis
        | some s =>
          rw [hs] at hvis
          obtain ⟨r1, _, hvis⟩ := except_bind_ok hvis
          injection hvis with hvis
          injection hvis with hs2 _
          subst hs2
          rw [List.getElem?_set_ne (by omega)]

/-- C6, witness.  The test vector `v` with its buffer at address 0 is copied to `c` at
address 1; `visit_at(0, ...)` assigns `false` to the first element of `c`, after which
`c[0]` is `false` while `v` and `v[0]` are as before. -/
theorem copy_shares_no_storage_witness :
    dynamic_storage_ref.copy_ctor copyable_types store copyable_ref =
      .ok (store_after_copy, copied_ref) ∧
    copied_ref.visit_at copyable_types store_after_copy 0 clear_bool =
      .ok (store_after_visit, ()) ∧
    copied_ref.operator_index copyable_types store_after_copy 0 = .ok (.value bool_t [1]) ∧
    copied_ref.operator_index copyable_types store_after_visit 0 = .ok (.value bool_t [0]) ∧
    copyable_ref.operator_index copyable_types store_after_visit 0 = .ok (.value bool_t [1]) ∧
    (copyable_ref.load store_after_visit = copyable_ref.load store_after_copy ∧
      ∀ j, copyable_ref.operator_index copyable_types store_after_visit j =
        copyable_ref.operator_index copyable_types store_after_copy j) :=
  ⟨by decide, by decide, by decide, by decide, by decide,
    ((copy_shares_no_storage copyable_types Unit).1 store store_after_copy store_after_visit
      copyable_ref copied_ref 0 clear_bool () (by decide)).1 (by decide)⟩

/-- How `push_back` on the fixed-capacity backend ends, in terms of the test the code makes,
`has_space(sizeof(val) + padding)` with the size of the source value `val` and not of the
stored type: when the element count has reached `memcount` or
`offset + sizeof(val) + padding` is not below `bytes`, `push_back` is left by
`std::bad_alloc` with the object as it was; `std::bad_alloc` never leaves any other state;
an append that returns normally passed that test and, from a state with `count < 65535`,
leaves `size()` one larger. -/
theorem static_push_back_fails_whole_or_counts (Types : List type_info)
    (bytes memcount : Nat) (impl : static_storage_base) (val : push_arg) (tag : Nat)
    (htag : meta.index_of_v val.stored_type Types = some tag) :
    ((memcount ≤ impl.count ∨
        bytes ≤ impl.offset + (val.val.length +
          (basic_variable_vector.initial_data_ptr val impl.offset - impl.offset))) →
      static_vector.push_back Types bytes memcount impl val = .ok (.bad_alloc impl)) ∧
    (∀ s, static_vector.push_back Types bytes memcount impl val = .ok (.bad_alloc s) →
      s = impl) ∧
    (∀ s, static_vector.push_back Types bytes memcount impl val = .ok (.returned s) →
      (impl.count < memcount ∧
        impl.offset + (val.val.length +
          (basic_variable_vector.initial_data_ptr val impl.offset - impl.offset)) < bytes) ∧
      (impl.count < 65535 → static_vector.size s = static_vector.size impl + 1)) := by
  refine ⟨?_, ?_, ?_⟩
  · intro h
    have hs : impl.has_space bytes memcount (val.val.length +
        (basic_variable_vector.initial_data_ptr val impl.offset - impl.offset)) = false := by
      unfold static_storage_base.has_space
      rcases h with h | h
      · rw [if_neg (by omega)]
      · split
        · simp; omega
        · rfl
    simp only [static_vector.push_back, htag, hs, static_storage_base.resize]
    rfl
  · intro s h
    simp only [static_vector.push_back, htag] at h
    split at h
    · simp only [static_storage_base.resize] at h
      injection h with h
      injection h with h
      exact h.symm
    · obtain ⟨bs, _, h⟩ := except_bind_ok h
      obtain ⟨data, _, h⟩ := except_bind_ok h
      split at h
      · injection h with h
        cases h
      · cases h
  · intro s h
    simp only [static_vector.push_back, htag] at h
    split at h
    · simp only [static_storage_base.resize] at h
      injection h with h
      cases h
    · rename_i hs
      obtain ⟨bs, _, h⟩ := except_bind_ok h
      obtain ⟨data, _, h⟩ := except_bind_ok h
      split at h
      · injection h with h
        injection h with h
        subst h
        constructor
        · simp only [static_storage_base.has_space, Bool.not_eq_true, Bool.not_eq_false] at hs
          split at hs
          · rename_i hc
            simp at hs
            exact ⟨hc, hs⟩
          · simp at hs
        · intro hc
          simp only [static_vector.size, static_storage_base.incr_offset, uint16]
          omega
      · cases h

/-- Sequencing keeps a computation within its step budget. -/
theorem within_budget_bind {α β : Type} {x : Except fault α} {f : α → Except fault β}
    (hx : within_budget x) (hf : ∀ a, x = .ok a → within_budget (f a)) :
    within_budget (x >>= f) := by
  cases x with
  | error e =>
    intro h
    apply hx
    cases e <;> first | rfl | cases h
  | ok a => exact hf a rfl

/-- A read fails only as undefined behaviour. -/
theorem within_budget_read_at (buf : List Nat) (off n : Nat) :
    within_budget (read_at buf off n) := by
  unfold read_at within_budget
  split <;> simp

/-- A write fails only as undefined behaviour. -/
theorem within_budget_write_at (buf : List Nat) (off : Nat) (bs : List Nat) :
    within_budget (write_at buf off bs) := by
  unfold write_at within_budget
  split <;> simp

/-- The dispatch walk stays within budget when the callback does. -/
theorem within_budget_recurse {β : Type} (curr_type curr_data : Nat)
    (callback : type_info → Nat → Except fault β)
    (hc : ∀ T p, within_budget (callback T p)) (Types : List type_info) :
    ∀ idx, within_budget (get_typed_ptr_for.recurse curr_type curr_data callback idx Types) := by
  induction Types with
  | nil => intro idx; simp [get_typed_ptr_for.recurse, within_budget]
  | cons T Ts ih =>
    intro idx
    unfold get_typed_ptr_for.recurse
    split
    · exact hc _ _
    · exact ih _

/-- Dispatch stays within budget when the callback does. -/
theorem within_budget_get_typed_ptr_for {β : Type} (curr_type curr_data : Nat)
    (Types : List type_info) (callback : type_info → Nat → Except fault β)
    (hc : ∀ T p, within_budget (callback T p)) :
    within_budget (get_typed_ptr_for curr_type curr_data Types callback) :=
  within_budget_recurse (uint8 curr_type) curr_data callback hc Types 0

/-- A bounded `for` loop stays within budget when its body does. -/
theorem within_budget_foldlM {α : Type} (f : α → Nat → Except fault α)
    (hf : ∀ a i, within_budget (f a i)) (l : List Nat) :
    ∀ init, within_budget (l.foldlM f init) := by
  induction l with
  | nil => intro init; simp [within_budget, pure, Except.pure]
  | cons i l ih =>
    intro init
    rw [List.foldlM_cons]
    exact within_budget_bind (hf _ _) (fun a _ => ih a)

/-- Relocating the elements needs no step budget. -/
theorem within_budget_move_storage (Types : List type_info) (count : Nat)
    (meta : List storage_metadata) (dest src : List Nat) :
    within_budget (move_storage Types count meta dest src) := by
  unfold move_storage
  apply within_budget_foldlM
  intro a i
  split
  · simp [within_budget]
  · apply within_budget_get_typed_ptr_for
    intro S srcptr
    apply within_budget_get_typed_ptr_for
    intro D destptr
    split
    · exact within_budget_bind (within_budget_read_at _ _ _)
        (fun _ _ => within_budget_write_at _ _ _)
    · simp [within_budget]

/-- One call of `resize` needs no step budget. -/
theorem within_budget_resize (Types : List type_info) (impl : dynamic_storage)
    (newsize : Nat) : within_budget (impl.resize Types newsize) := by
  unfold dynamic_storage.resize
  exact within_budget_bind (within_budget_move_storage _ _ _ _ _)
    (fun _ _ => by simp [within_budget, pure, Except.pure])

/-- What `resize` leaves of the bookkeeping. -/
theorem resize_fields {Types : List type_info} {impl : dynamic_storage} {newsize : Nat}
    {r : dynamic_storage × Nat} (h : impl.resize Types newsize = .ok r) :
    r.1.bytes = newsize ∧ r.1.offset = impl.offset ∧ r.1.count = impl.count := by
  unfold dynamic_storage.resize at h
  obtain ⟨d, _, h⟩ := except_bind_ok h
  injection h with h
  subst h
  exact ⟨rfl, rfl, rfl⟩

/-- The growth loop, when it ends, has doubled the capacity the least number of times that
makes `offset + n < bytes` hold, and has left `offset` and `count` alone. -/
theorem grow_ok (Types : List type_info) (n : Nat) :
    ∀ (fuel : Nat) (impl : dynamic_storage) (p : Nat) (r : dynamic_storage × Nat),
      vector.push_back.grow Types n fuel impl p = .ok r →
      ∃ k, r.1.bytes = impl.bytes * 2 ^ k ∧ r.1.offset = impl.offset ∧
        r.1.count = impl.count ∧ impl.offset + n < impl.bytes * 2 ^ k ∧
        ∀ j, j < k → ¬ impl.offset + n < impl.bytes * 2 ^ j := by
  intro fuel
  induction fuel with
  | zero =>
    intro impl p r h
    unfold vector.push_back.grow at h
    split at h
    · rename_i hs
      injection h with h
      subst h
      refine ⟨0, by simp, rfl, rfl, ?_, fun j hj => absurd hj (Nat.not_lt_zero j)⟩
      simpa [dynamic_storage.has_space] using hs
    · cases h
  | succ fuel ih =>
    intro impl p r h
    unfold vector.push_back.grow at h
    split at h
    · rename_i hs
      injection h with h
      subst h
      refine ⟨0, by simp, rfl, rfl, ?_, fun j hj => absurd hj (Nat.not_lt_zero j)⟩
      simpa [dynamic_storage.has_space] using hs
    · rename_i hs
      obtain ⟨r1, hr1, h⟩ := except_bind_ok h
      obtain ⟨hb, ho, hc⟩ := resize_fields hr1
      obtain ⟨k, hk1, hk2, hk3, hk4, hk5⟩ := ih _ _ _ h
      rw [hb, ho] at hk4 hk5
      have e : ∀ j, impl.size * 2 * 2 ^ j = impl.bytes * 2 ^ (j + 1) := by
        intro j
        rw [dynamic_storage.size, Nat.pow_succ, Nat.mul_assoc, Nat.mul_comm 2]
      refine ⟨k + 1, ?_, ?_, ?_, ?_, ?_⟩
      · rw [hk1, hb, e]
      · rw [hk2, ho]
      · rw [hk3, hc]
      · rw [← e]; exact hk4
      · intro j hj
        cases j with
        | zero => simpa [dynamic_storage.has_space] using hs
        | succ j => rw [← e]; exact hk5 j (by omega)

/-- The growth loop ends within `fuel` iterations once `fuel` doublings make room. -/
theorem grow_within_budget (Types : List type_info) (n : Nat) :
    ∀ (fuel : Nat) (impl : dynamic_storage) (p : Nat),
      impl.offset + n < impl.bytes * 2 ^ fuel →
      within_budget (vector.push_back.grow Types n fuel impl p) := by
  intro fuel
  induction fuel with
  | zero =>
    intro impl p h
    unfold vector.push_back.grow
    rw [if_pos (by simpa [dynamic_storage.has_space] using h)]
    simp [within_budget]
  | succ fuel ih =>
    intro impl p h
    unfold vector.push_back.grow
    split
    · simp [within_budget]
    · apply within_budget_bind (within_budget_resize _ _ _)
      intro r1 hr1
      obtain ⟨hb, ho, _⟩ := resize_fields hr1
      apply ih
      rw [hb, ho, dynamic_storage.size, Nat.mul_assoc, ← Nat.pow_succ']
      exact h

/-- The growth loop of `push_back` in terms of the test the code makes,
`has_space(sizeof(val) + padding)` with the size of the source value `val` and not of the
stored type.  With `need` that sum: whenever `push_back` returns, the capacity is the
previous capacity times `2 ^ k` for the least `k` with `offset + need < capacity * 2 ^ k`.
A step budget of `fuel` iterations suffices for the loop as soon as `fuel` doublings pass
the test, and such a budget exists when the capacity is not zero. -/
theorem growth_doubles_until_strictly_below (Types : List type_info)
    (impl : dynamic_storage) (val : push_arg) :
    (∀ fuel s, vector.push_back Types impl val fuel = .ok s →
      ∃ k, s.bytes = impl.bytes * 2 ^ k ∧
        (k = 0 ↔ impl.offset + (val.val.length +
          (basic_variable_vector.initial_data_ptr val impl.offset - impl.offset)) <
            impl.bytes) ∧
        impl.offset + (val.val.length +
          (basic_variable_vector.initial_data_ptr val impl.offset - impl.offset)) <
            impl.bytes * 2 ^ k ∧
        ∀ j, j < k → ¬ impl.offset + (val.val.length +
          (basic_variable_vector.initial_data_ptr val impl.offset - impl.offset)) <
            impl.bytes * 2 ^ j) ∧
    (∀ fuel, impl.offset + (val.val.length +
          (basic_variable_vector.initial_data_ptr val impl.offset - impl.offset)) <
            impl.bytes * 2 ^ fuel →
      vector.push_back Types impl val fuel ≠ .error .exhausted) ∧
    (0 < impl.bytes →
      ∃ fuel, impl.offset + (val.val.length +
          (basic_variable_vector.initial_data_ptr val impl.offset - impl.offset)) <
            impl.bytes * 2 ^ fuel) := by
  refine ⟨?_, ?_, ?_⟩
  · intro fuel s h
    unfold vector.push_back at h
    split at h
    · cases h
    · obtain ⟨r, hr, h⟩ := except_bind_ok h
      obtain ⟨k, hk1, _, _, hk4, hk5⟩ := grow_ok _ _ _ _ _ _ hr
      obtain ⟨bs, _, h⟩ := except_bind_ok h
      obtain ⟨data, _, h⟩ := except_bind_ok h
      dsimp only at h
      split at h
      · injection h with h
        subst h
        refine ⟨k, hk1, ?_, hk4, hk5⟩
        constructor
        · intro hk
          subst hk
          simpa using hk4
        · intro hfit
          by_contra hk
          exact hk5 0 (Nat.pos_of_ne_zero hk) (by simpa using hfit)
      · cases h
  · intro fuel hfuel
    unfold vector.push_back
    split
    · simp
    · apply within_budget_bind (grow_within_budget _ _ _ _ _ hfuel)
      intro r _
      apply within_budget_bind
      · unfold basic_variable_vector.stored_bytes within_budget
        split
        · split <;> simp
        · simp
      · intro bs _
        apply within_budget_bind (within_budget_write_at _ _ _)
        intro data _
        dsimp only
        split <;> simp [within_budget, pure, Except.pure]
  · intro hb
    refine ⟨impl.offset + (val.val.length +
      (basic_variable_vector.initial_data_ptr val impl.offset - impl.offset)), ?_⟩
    calc _ < 2 ^ _ := Nat.lt_two_pow _
      _ ≤ impl.bytes * 2 ^ _ := Nat.le_mul_of_pos_left _ hb

/-- An instance on `static_vector<32, 8, bool, int, float>`: with eight `bool` stored the
element count has reached the maximum, and `push_back(5)` is left by `std::bad_alloc` with
the container as it was; on the fresh container `push_back(5)` returns with `size() == 1`. -/
theorem static_push_back_fails_whole_or_counts_witness :
    static_vector.push_back_all trivial_types 32 8 (static_storage_base.ctor 32 8)
      (List.replicate 8 true_v) = .ok (.returned static_eight_bools) ∧
    static_eight_bools.count = 8 ∧
    static_vector.push_back trivial_types 32 8 static_eight_bools int_5 =
      .ok (.bad_alloc static_eight_bools) ∧
    static_vector.push_back trivial_types 32 8 (static_storage_base.ctor 32 8) int_5 =
      .ok (.returned static_one_int) ∧
    static_vector.size static_one_int = static_vector.size (static_storage_base.ctor 32 8) + 1 :=
  ⟨by decide, by decide,
    (static_push_back_fails_whole_or_counts trivial_types 32 8 static_eight_bools int_5 1
      (by decide)).1 (by decide),
    by decide,
    ((static_push_back_fails_whole_or_counts trivial_types 32 8 (static_storage_base.ctor 32 8)
      int_5 1 (by decide)).2.2 static_one_int (by decide)).2 (by decide)⟩

/-- The test of the growth loop is strict.  A `vector<bool, int, float>` holding seven `int`
has capacity 32 and offset 28; the next `int` needs 4 bytes, exactly the remaining
capacity, and yet `push_back` doubles the capacity to 64. -/
theorem exact_fit_still_grows :
    vector.push_back_all trivial_types 0 (dynamic_storage.ctor trivial_types)
        (List.replicate 7 int_5) = .ok seven_ints ∧
      seven_ints.bytes = 32 ∧ seven_ints.offset = 28 ∧
      int_5.val.length +
        (basic_variable_vector.initial_data_ptr int_5 seven_ints.offset -
          seven_ints.offset) = 4 ∧
      vector.push_back trivial_types seven_ints int_5 1 = .ok eight_ints ∧
      eight_ints.bytes = 64 := by
  refine ⟨?_, ?_, ?_, ?_, ?_, ?_⟩ <;> decide

/-- An instance on a `vector<bool, int, float>` holding six `int` (capacity 32, offset
24) the next `push_back(5)` returns within a step budget of 0 and leaves the capacity at
`32 * 2 ^ 0`. -/
theorem growth_doubles_until_strictly_below_witness :
    vector.push_back trivial_types six_ints int_5 0 = .ok seven_ints ∧
    vector.push_back trivial_types six_ints int_5 0 ≠ .error .exhausted ∧
    ∃ k, seven_ints.bytes = six_ints.bytes * 2 ^ k ∧
      (k = 0 ↔ six_ints.offset + (int_5.val.length +
        (basic_variable_vector.initial_data_ptr int_5 six_ints.offset - six_ints.offset)) <
          six_ints.bytes) ∧
      six_ints.offset + (int_5.val.length +
        (basic_variable_vector.initial_data_ptr int_5 six_ints.offset - six_ints.offset)) <
          six_ints.bytes * 2 ^ k ∧
      ∀ j, j < k → ¬ six_ints.offset + (int_5.val.length +
        (basic_variable_vector.initial_data_ptr int_5 six_ints.offset - six_ints.offset)) <
          six_ints.bytes * 2 ^ j :=
  ⟨by decide,
    (growth_doubles_until_strictly_below trivial_types six_ints int_5).2.1 0 (by decide),
    (growth_doubles_until_strictly_below trivial_types six_ints int_5).1 0 seven_ints
      (by decide)⟩

/-- Storing one `true` after `n` of them in a buffer of `m` bytes. -/
theorem write_at_replicate (n m : Nat) (h : n < m) :
    write_at (List.replicate n 1 ++ List.replicate (m - n) 0) n [1] =
      .ok (List.replicate (n + 1) 1 ++ List.replicate (m - (n + 1)) 0) := by
  unfold write_at
  rw [if_pos (by simp; omega)]
  congr 1
  rw [List.take_left' (by simp), List.drop_append_eq_append_drop]
  simp
  rw [List.replicate_succ', List.append_assoc]
  simp [Nat.sub_sub]

/-- Recording element `n` of type `bool` at offset `n` after `n` such records. -/
theorem set_meta_range (n m : Nat) (h : n < m) :
    ((List.range n).map (fun i => (⟨0, i⟩ : storage_metadata)) ++
        List.replicate (m - n) (⟨0, 0⟩ : storage_metadata)).set n (⟨0, n⟩ : storage_metadata) =
      (List.range (n + 1)).map (fun i => (⟨0, i⟩ : storage_metadata)) ++
        List.replicate (m - (n + 1)) ⟨0, 0⟩ := by
  rw [List.set_append_right _ _ (by simp)]
  simp only [List.length_map, List.length_range, Nat.sub_self]
  obtain ⟨k, hk⟩ : ∃ k, m - n = k + 1 := ⟨m - n - 1, by omega⟩
  rw [hk, List.replicate_succ, List.set_cons_zero, List.range_succ, List.map_append]
  simp
  omega

/-- One `push_back(true)` on `static_vector<70000, 65536, bool>` holding `n` elements `true`:
it returns, with `count` and `offset` incremented in 16-bit arithmetic. -/
theorem push_back_bools (n : Nat) (h : n < 65536) :
    static_vector.push_back [bool_t] 70000 65536 (bools n) true_v =
      .ok (.returned { bools (n + 1) with count := uint16 (n + 1), offset := uint16 (n + 1) }) := by
  have htag : meta.index_of_v true_v.stored_type [bool_t] = some 0 := by decide
  have hp : basic_variable_vector.initial_data_ptr true_v n = n := rfl
  have hs : (bools n).has_space 70000 65536 (true_v.val.length + (n - n)) = true := by
    simp [static_storage_base.has_space, bools, true_v]
    omega
  have hb : basic_variable_vector.stored_bytes true_v = .ok [1] := by decide
  simp only [static_vector.push_back, htag]
  simp only [show (bools n).offset = n from rfl, hp, hs]
  simp only [static_storage_base.incr_offset, hb, bools, Nat.sub_self, Nat.add_zero]
  have hu : uint16 n = n := by unfold uint16; omega
  simp only [hu]
  have hw := write_at_replicate n 70000 (by omega)
  simp only [Bool.not_true, Bool.false_eq_true, if_false, bind, Except.bind, hw]
  simp only [List.length_append, List.length_map, List.length_range, List.length_replicate]
  have h8 : uint8 0 = 0 := rfl
  rw [if_pos (by omega), h8, set_meta_range n 65536 h]
  rfl


/-- Appending `k` more `true` to `bools n` reaches `bools (n + k)` while `n + k ≤ 65535`. -/
theorem push_back_all_bools (k : Nat) : ∀ n, n + k ≤ 65535 →
    static_vector.push_back_all [bool_t] 70000 65536 (bools n) (List.replicate k true_v) =
      .ok (.returned (bools (n + k)))
  | n, h => by
    induction k generalizing n with
    | zero => rfl
    | succ k ih =>
      have hu : uint16 (n + 1) = n + 1 := by unfold uint16; omega
      have hstep : static_vector.push_back [bool_t] 70000 65536 (bools n) true_v =
          .ok (.returned (bools (n + 1))) := by
        rw [push_back_bools n (by omega), hu]
        rfl
      rw [List.replicate_succ, static_vector.push_back_all, hstep]
      show static_vector.push_back_all [bool_t] 70000 65536 (bools (n + 1)) _ = _
      have hk : n + 1 + k = n + (k + 1) := by omega
      rw [ih (n + 1) (by omega), hk]

/-- The 16-bit `count` wraps.  A `static_vector<70000, 65536, bool>` reaches 65535 elements
by 65535 appends of `true`; the next `push_back(true)` passes `has_space`, returns
normally, and leaves `size() == 0`: `size()` did not grow by one. -/
theorem static_count_wraps :
    static_vector.push_back_all [bool_t] 70000 65536 (static_storage_base.ctor 70000 65536)
        (List.replicate 65535 true_v) = .ok (.returned (bools 65535)) ∧
      static_vector.size (bools 65535) = 65535 ∧
      ∃ s, static_vector.push_back [bool_t] 70000 65536 (bools 65535) true_v =
          .ok (.returned s) ∧
        static_vector.size s = 0 := by
  refine ⟨?_, rfl, _, push_back_bools 65535 (by omega), ?_⟩
  · have h := push_back_all_bools 65535 0 (by omega)
    rw [Nat.zero_add] at h
    rw [← h]
    congr 1
  · rfl

/-! ### Dispatch, reads and in-place visits -/

/-- Dispatch on a tag below the pack size calls the callback with the type at that index. -/
theorem get_typed_ptr_for_recurse_eq {β : Type} (curr_type curr_data : Nat)
    (callback : type_info → Nat → Except fault β) :
    ∀ (Types : List type_info) (idx : Nat) (T : type_info), idx ≤ curr_type →
      Types[curr_type - idx]? = some T →
      get_typed_ptr_for.recurse curr_type curr_data callback idx Types =
        callback T curr_data := by
  intro Types
  induction Types with
  | nil => intro idx T _ h; simp at h
  | cons T0 Ts ih =>
    intro idx T hle h
    unfold get_typed_ptr_for.recurse
    by_cases he : idx = curr_type
    · subst he
      simp at h
      rw [if_pos rfl, h]
    · rw [if_neg he]
      have hk : curr_type - idx = (curr_type - (idx + 1)) + 1 := by omega
      rw [hk, List.getElem?_cons_succ] at h
      exact ih (idx + 1) T (by omega) h

/-- Holding a value in 8 bits twice is holding it once. -/
theorem uint8_uint8 (n : Nat) : uint8 (uint8 n) = uint8 n := by
  unfold uint8
  exact Nat.mod_mod _ _

/-- A value below 256 is held in 8 bits as it is. -/
theorem uint8_of_lt {n : Nat} (h : n < 256) : uint8 n = n := by
  unfold uint8
  exact Nat.mod_eq_of_lt h

/-- Dispatch on the tag `tag` selects the declared type at the index the 8-bit parameter
holds. -/
theorem get_typed_ptr_for_eq {β : Type} (tag curr_data : Nat) (Types : List type_info)
    (callback : type_info → Nat → Except fault β) (T : type_info)
    (h : Types[uint8 tag]? = some T) :
    get_typed_ptr_for tag curr_data Types callback = callback T curr_data :=
  get_typed_ptr_for_recurse_eq (uint8 tag) curr_data callback Types 0 T (Nat.zero_le _) h

/-- A write keeps the length of the buffer. -/
theorem write_at_length {buf buf1 : List Nat} {off : Nat} {bs : List Nat}
    (h : write_at buf off bs = .ok buf1) : buf1.length = buf.length := by
  unfold write_at at h
  split at h
  · injection h with h
    subst h
    simp
    omega
  · cases h

/-- Reading back the bytes just written. -/
theorem read_at_write_at_same {buf buf1 : List Nat} {off : Nat} {bs : List Nat}
    (h : write_at buf off bs = .ok buf1) : read_at buf1 off bs.length = .ok bs := by
  have hl := write_at_length h
  unfold write_at at h
  split at h
  · rename_i hb
    injection h with h
    subst h
    unfold read_at
    rw [if_pos (by rw [hl]; exact hb)]
    congr 1
    rw [List.append_assoc, List.drop_left' (by simp; omega), List.take_left' rfl]
  · cases h

/-- A write leaves every disjoint range as it was. -/
theorem read_at_write_at_disjoint {buf buf1 : List Nat} {off : Nat} {bs : List Nat}
    (h : write_at buf off bs = .ok buf1) (off1 n : Nat)
    (hd : off1 + n ≤ off ∨ off + bs.length ≤ off1) :
    read_at buf1 off1 n = read_at buf off1 n := by
  have hl := write_at_length h
  unfold write_at at h
  split at h
  · rename_i hb
    injection h with h
    subst h
    unfold read_at
    rw [hl]
    split
    · rename_i hr
      congr 1
      apply List.ext_getElem?
      intro i
      simp only [List.getElem?_take, List.getElem?_drop]
      split
      · rename_i hi
        rcases hd with hd | hd
        · rw [List.append_assoc, List.getElem?_append_left (by simp; omega)]
          simp [List.getElem?_take]
          omega
        · rw [List.getElem?_append_right (by simp; omega)]
          simp [List.getElem?_drop]
          congr 1
          omega
      · rfl
    · rfl
  · cases h

/-- A read within the buffer yields the bytes at that distance. -/
theorem read_at_ok {buf : List Nat} {off n : Nat} (h : off + n ≤ buf.length) :
    read_at buf off n = .ok ((buf.drop off).take n) := by
  unfold read_at
  rw [if_pos h]

/-- A read that succeeds lies within the buffer and yields `n` bytes. -/
theorem read_at_length {buf obj : List Nat} {off n : Nat} (h : read_at buf off n = .ok obj) :
    obj.length = n ∧ off + n ≤ buf.length := by
  unfold read_at at h
  split at h
  · injection h with h
    subst h
    simp
    omega
  · cases h

/-- Writing back the bytes just read changes nothing. -/
theorem write_at_read_back {buf obj : List Nat} {off n : Nat}
    (h : read_at buf off n = .ok obj) : write_at buf off obj = .ok buf := by
  obtain ⟨hl, hb⟩ := read_at_length h
  unfold read_at at h
  rw [if_pos hb] at h
  injection h with h
  unfold write_at
  rw [if_pos (by omega), hl]
  congr 1
  rw [← h, List.append_assoc, ← List.drop_drop, List.take_append_drop, List.take_append_drop]

/-- What `operator[]` reads: for an element whose record selects the declared type `T`, it
depends on the buffer only through the bytes of the element. -/
theorem operator_index_of_read (Types : List type_info) (count : Nat)
    (meta : List storage_metadata) (data : List Nat) (index : Nat) (m : storage_metadata)
    (T : type_info) (hi : index < count) (hm : meta[index]? = some m)
    (hT : Types[uint8 m.type]? = some T) :
    basic_variable_vector.operator_index Types count meta data index =
      if T.copyable && !aligned_for_type T m.offset then
        if !T.trivially_copyable then .error .assertion
        else (read_at data m.offset T.size).map (fun obj => value_type.value T obj)
      else if !T.copyable && !aligned_for_type T m.offset then .error .assertion
      else (read_at data m.offset T.size).map
        (fun obj => if T.copyable then value_type.value T obj
          else value_type.pointer T (.in_place m.offset)) := by
  unfold basic_variable_vector.operator_index
  rw [if_pos hi, hm]
  simp only [get_aligned_ptr_for]
  rw [get_typed_ptr_for_eq _ _ _ _ T (by rw [uint8_uint8]; exact hT)]
  by_cases h1 : (T.copyable && !aligned_for_type T m.offset) = true
  · rw [if_pos h1, if_pos h1]
    have hc : T.copyable = true := by
      simp only [Bool.and_eq_true] at h1
      exact h1.1
    by_cases h2 : (!T.trivially_copyable) = true
    · rw [if_pos h2, if_pos h2]; rfl
    · rw [if_neg h2, if_neg h2]
      cases hr : read_at data m.offset T.size with
      | error e => rfl
      | ok obj => simp [bind, Except.bind, Except.map, pure, Except.pure, hc]
  · rw [if_neg h1, if_neg h1]
    by_cases h3 : (!T.copyable && !aligned_for_type T m.offset) = true
    · rw [if_pos h3, if_pos h3]; rfl
    · rw [if_neg h3, if_neg h3]
      cases hr : read_at data m.offset T.size with
      | error e => rfl
      | ok obj =>
        simp only [bind, Except.bind, Except.map, pure, Except.pure, write_at_read_back hr]

/-- What `visit_at` does for an element whose record selects the declared type `T`, lies
within the buffer, and is aligned or trivially copyable: the handler for `T` runs on the
element's bytes and the bytes it leaves are stored at the element's offset. -/
theorem visit_at_of_write {ρ : Type} (Types : List type_info) (count : Nat)
    (meta : List storage_metadata) (data : List Nat) (index : Nat) (callback : visitor ρ)
    (m : storage_metadata) (T : type_info) (hi : index < count)
    (hm : meta[index]? = some m) (hT : Types[uint8 m.type]? = some T)
    (hal : aligned_for_type T m.offset = true ∨
      (T.copyable = true ∧ T.trivially_copyable = true))
    (hb : m.offset + T.size ≤ data.length)
    (hlen : (callback T ((data.drop m.offset).take T.size)).1.length = T.size) :
    ∃ data1, write_at data m.offset (callback T ((data.drop m.offset).take T.size)).1 =
        .ok data1 ∧
      basic_variable_vector.visit_at Types count meta data index callback =
        .ok (data1, (callback T ((data.drop m.offset).take T.size)).2) := by
  have hr := read_at_ok hb
  have hw : ∃ data1, write_at data m.offset
      (callback T ((data.drop m.offset).take T.size)).1 = .ok data1 := by
    unfold write_at
    rw [if_pos (by omega)]
    exact ⟨_, rfl⟩
  obtain ⟨data1, hw⟩ := hw
  refine ⟨data1, hw, ?_⟩
  unfold basic_variable_vector.visit_at
  rw [if_pos hi, hm]
  simp only [get_aligned_ptr_for]
  rw [get_typed_ptr_for_eq _ _ _ _ T (by rw [uint8_uint8]; exact hT)]
  by_cases h1 : (T.copyable && !aligned_for_type T m.offset) = true
  · rw [if_pos h1]
    have htc : T.trivially_copyable = true := by
      rcases hal with hal | hal
      · simp [hal] at h1
      · exact hal.2
    rw [if_neg (by simp [htc])]
    simp only [hr, bind, Except.bind]
    by_cases hsame : (data.drop m.offset).take T.size =
        (callback T ((data.drop m.offset).take T.size)).1
    · rw [if_neg (by simpa using hsame)]
      have := write_at_read_back hr
      rw [hsame, hw] at this
      injection this with this
      rw [this]
      rfl
    · rw [if_pos (by simpa using hsame)]
      simp only [hw]
      rfl
  · rw [if_neg h1]
    have h3 : ¬ (!T.copyable && !aligned_for_type T m.offset) = true := by
      rcases hal with hal | hal
      · simp [hal]
      · simp [hal.1]
    rw [if_neg h3]
    simp only [hr, hw, bind, Except.bind]
    rfl

/-- On a container whose element `index` selects the declared type `T`, lies within the
buffer, and is aligned or trivially copyable, `visit_at` runs the handler for `T` on the
element's bytes; afterwards `operator[](index)` reads what the handler left, and
`operator[](j)` is unchanged for every element `j` whose bytes do not overlap those of
element `index`. -/
theorem visit_at_updates_one_element {ρ : Type} (Types : List type_info) (count : Nat)
    (meta : List storage_metadata) (data : List Nat) (index : Nat) (callback : visitor ρ)
    (m : storage_metadata) (T : type_info) (hi : index < count)
    (hm : meta[index]? = some m) (hT : Types[uint8 m.type]? = some T)
    (hal : aligned_for_type T m.offset = true ∨
      (T.copyable = true ∧ T.trivially_copyable = true))
    (hb : m.offset + T.size ≤ data.length)
    (hlen : (callback T ((data.drop m.offset).take T.size)).1.length = T.size) :
    ∃ data1,
      basic_variable_vector.visit_at Types count meta data index callback =
        .ok (data1, (callback T ((data.drop m.offset).take T.size)).2) ∧
      basic_variable_vector.operator_index Types count meta data1 index =
        .ok (if T.copyable then
            value_type.value T (callback T ((data.drop m.offset).take T.size)).1
          else value_type.pointer T (.in_place m.offset)) ∧
      ∀ j mj Tj, j < count → meta[j]? = some mj → Types[uint8 mj.type]? = some Tj →
        (mj.offset + Tj.size ≤ m.offset ∨ m.offset + T.size ≤ mj.offset) →
        basic_variable_vector.operator_index Types count meta data1 j =
          basic_variable_vector.operator_index Types count meta data j := by
  obtain ⟨data1, hw, hv⟩ :=
    visit_at_of_write Types count meta data index callback m T hi hm hT hal hb hlen
  refine ⟨data1, hv, ?_, ?_⟩
  · have hrd := read_at_write_at_same hw
    rw [hlen] at hrd
    rw [operator_index_of_read Types count meta data1 index m T hi hm hT, hrd]
    rcases hal with hal | hal
    · simp [hal, Except.map]
    · by_cases ha : aligned_for_type T m.offset = true
      · simp [ha, Except.map]
      · simp [ha, hal.1, hal.2, Except.map]
  · intro j mj Tj hj hmj hTj hd
    rw [operator_index_of_read Types count meta data1 j mj Tj hj hmj hTj,
      operator_index_of_read Types count meta data j mj Tj hj hmj hTj,
      read_at_write_at_disjoint hw mj.offset Tj.size (by rw [hlen]; exact hd)]

/-- The iterators of `operator ==` never leave `begin()`: on two non-empty containers the
evaluation of `lhs == rhs` never yields `true`, whatever the step budget. -/
theorem operator_eq_never_true (lhs rhs : container_view) (hls : lhs.size ≠ 0)
    (hrs : rhs.size ≠ 0) (fuel : Nat) :
    basic_variable_vector.operator_eq lhs rhs fuel ≠ .ok true := by
  have hne : ((basic_variable_vector.begin lhs).operator_ne (basic_variable_vector.end_ lhs) &&
      (basic_variable_vector.begin rhs).operator_ne (basic_variable_vector.end_ rhs)) = true := by
    simp [basic_variable_iterator.operator_ne, basic_variable_iterator.operator_eq,
      basic_variable_vector.begin, basic_variable_vector.end_]
    exact ⟨fun h => hls h.symm, fun h => hrs h.symm⟩
  unfold basic_variable_vector.operator_eq
  induction fuel with
  | zero => simp [basic_variable_vector.operator_eq.loop, hne]
  | succ n ih =>
    rw [basic_variable_vector.operator_eq.loop]
    simp only [hne, if_true]
    split
    · split
      · simp
      · exact ih
    · simp
    · simp

/-! ### Iterators -/

/-- A `size_t` value passed as `std::ptrdiff_t` and added to or subtracted from a `size_t`
comes back as itself. -/
theorem size_type_to_ptrdiff (n : Nat) (h : n < 2 ^ 64) :
    size_type ((0 : Nat) + to_ptrdiff n) = n ∧ size_type ((n : Nat) - to_ptrdiff n) = 0 := by
  unfold size_type to_ptrdiff
  rw [Nat.mod_eq_of_lt h]
  split <;> constructor <;> omega

/-! ### The shape of a returning append -/

/-- What a returning `push_back` on the growable backend has done: the growth loop ended in a
state `r` with cursor `r.2`, the bytes of the value were stored at that cursor, the record
was written at index `count`, and `offset` advanced by the padding and by `sizeof(val)`. -/
theorem vector.push_back_ok {Types : List type_info} {impl s : dynamic_storage}
    {val : push_arg} {fuel : Nat} (h : vector.push_back Types impl val fuel = .ok s) :
    ∃ tag r bs data, meta.index_of_v val.stored_type Types = some tag ∧
      vector.push_back.grow Types
        (val.val.length +
          (basic_variable_vector.initial_data_ptr val impl.offset - impl.offset))
        fuel impl (basic_variable_vector.initial_data_ptr val impl.offset) = .ok r ∧
      basic_variable_vector.stored_bytes val = .ok bs ∧
      write_at r.1.data r.2 bs = .ok data ∧
      r.1.count < r.1.meta.length ∧
      s = { bytes := r.1.bytes, count := r.1.count + 1,
            offset := r.1.offset +
              (basic_variable_vector.initial_data_ptr val impl.offset - impl.offset) +
              val.val.length,
            meta := r.1.meta.set r.1.count
              ⟨uint8 tag, r.1.offset +
                (basic_variable_vector.initial_data_ptr val impl.offset - impl.offset)⟩,
            data := data } := by
  unfold vector.push_back at h
  split at h
  · cases h
  · rename_i tag htag
    obtain ⟨r, hr, h⟩ := except_bind_ok h
    obtain ⟨bs, hbs, h⟩ := except_bind_ok h
    obtain ⟨data, hdata, h⟩ := except_bind_ok h
    dsimp only at h
    split at h
    · rename_i hlt
      injection h with h
      exact ⟨tag, r, bs, data, htag, hr, hbs, hdata, hlt, h.symm⟩
    · cases h

/-- What a returning `push_back` on the fixed-capacity backend has done. -/
theorem static_vector.push_back_returned {Types : List type_info} {bytes memcount : Nat}
    {impl s : static_storage_base} {val : push_arg}
    (h : static_vector.push_back Types bytes memcount impl val = .ok (.returned s)) :
    ∃ tag bs data, meta.index_of_v val.stored_type Types = some tag ∧
      impl.has_space bytes memcount
        (val.val.length +
          (basic_variable_vector.initial_data_ptr val impl.offset - impl.offset)) = true ∧
      basic_variable_vector.stored_bytes val = .ok bs ∧
      write_at impl.data (basic_variable_vector.initial_data_ptr val impl.offset) bs =
        .ok data ∧
      impl.count < impl.meta.length ∧
      s = { count := uint16 (impl.count + 1),
            offset := uint16 (uint16 (impl.offset +
              (basic_variable_vector.initial_data_ptr val impl.offset - impl.offset)) +
              val.val.length),
            meta := impl.meta.set impl.count
              ⟨uint8 tag, uint16 (impl.offset +
                (basic_variable_vector.initial_data_ptr val impl.offset - impl.offset))⟩,
            data := data } := by
  unfold static_vector.push_back at h
  split at h
  · cases h
  · rename_i tag htag
    dsimp only at h
    split at h
    · simp only [static_storage_base.resize] at h
      injection h with h
      cases h
    · rename_i hs
      obtain ⟨bs, hbs, h⟩ := except_bind_ok h
      obtain ⟨data, hdata, h⟩ := except_bind_ok h
      split at h
      · rename_i hlt
        injection h with h
        injection h with h
        refine ⟨tag, bs, data, htag, ?_, hbs, hdata, hlt, h.symm⟩
        simpa using hs
      · cases h

/-! ### Iterator positions of a container -/

/-- The ordering operators of two iterators compare their indices. -/
theorem iterator_order_by_index (a b : basic_variable_iterator) :
    (a.operator_lt b = true ↔ a.idx < b.idx) ∧
    (a.operator_le b = true ↔ a.idx ≤ b.idx) ∧
    (a.operator_gt b = true ↔ b.idx < a.idx) ∧
    (a.operator_ge b = true ↔ b.idx ≤ a.idx) := by
  have hcmp : ∀ x y : Nat, ((compare x y == .lt) = true ↔ x < y) ∧
      ((compare x y != .gt) = true ↔ x ≤ y) ∧ ((compare x y == .gt) = true ↔ y < x) ∧
      ((compare x y != .lt) = true ↔ y ≤ x) := by
    intro x y
    rcases Nat.lt_trichotomy x y with hlt | heq | hgt
    · rw [Nat.compare_eq_lt.mpr hlt]
      refine ⟨?_, ?_, ?_, ?_⟩ <;> constructor <;> intro h1 <;>
        first | rfl | omega | exact absurd h1 (by decide)
    · rw [Nat.compare_eq_eq.mpr heq]
      refine ⟨?_, ?_, ?_, ?_⟩ <;> constructor <;> intro h1 <;>
        first | rfl | omega | exact absurd h1 (by decide)
    · rw [Nat.compare_eq_gt.mpr hgt]
      refine ⟨?_, ?_, ?_, ?_⟩ <;> constructor <;> intro h1 <;>
        first | rfl | omega | exact absurd h1 (by decide)
  exact hcmp a.idx b.idx

/-- C13.  For every container `v` and `N == v.size()` (a `size_t`, passed as
`std::ptrdiff_t`): `v.begin() + N == v.end()`, `N + v.begin() == v.end()` and
`v.end() - N == v.begin()`. -/
theorem begin_plus_size_is_end (v : container_view) (h : v.size < 2 ^ 64) :
    ((basic_variable_vector.begin v).operator_add (to_ptrdiff v.size)).operator_eq
        (basic_variable_vector.end_ v) = true ∧
      (basic_variable_iterator.operator_add_left (to_ptrdiff v.size)
        (basic_variable_vector.begin v)).operator_eq (basic_variable_vector.end_ v) = true ∧
      ((basic_variable_vector.end_ v).operator_sub (to_ptrdiff v.size)).operator_eq
        (basic_variable_vector.begin v) = true := by
  obtain ⟨h1, h2⟩ := size_type_to_ptrdiff v.size h
  simp only [basic_variable_iterator.operator_add_left, basic_variable_iterator.operator_add,
    basic_variable_iterator.operator_sub, basic_variable_iterator.operator_eq,
    basic_variable_vector.begin, basic_variable_vector.end_, h1, h2]
  simp

/-- C13, witness.  The container of the test case `container properties`, at any address:
`begin() + 4 == end()`, `4 + begin() == end()`, `end() - 4 == begin()`. -/
theorem begin_plus_size_is_end_witness :
    vector.size copyable_vector = 4 ∧ to_ptrdiff 4 = 4 ∧
    ((basic_variable_vector.begin (vector.view copyable_types 4096 copyable_vector)).operator_add
        4).operator_eq
        (basic_variable_vector.end_ (vector.view copyable_types 4096 copyable_vector)) = true ∧
      (basic_variable_iterator.operator_add_left 4
        (basic_variable_vector.begin
          (vector.view copyable_types 4096 copyable_vector))).operator_eq
        (basic_variable_vector.end_ (vector.view copyable_types 4096 copyable_vector)) = true ∧
      ((basic_variable_vector.end_ (vector.view copyable_types 4096 copyable_vector)).operator_sub
        4).operator_eq
        (basic_variable_vector.begin (vector.view copyable_types 4096 copyable_vector)) = true :=
  ⟨by decide, by decide,
    begin_plus_size_is_end (vector.view copyable_types 4096 copyable_vector)
      (show vector.size copyable_vector < 2 ^ 64 by decide)⟩

/-- C15.  Two iterators are equal exactly when they hold the same index and the same
container pointer, so iterators over different containers are never equal; `<`, `<=`, `>`,
`>=` are decided by the two indices, whatever the container pointers. -/
theorem iterator_equality_and_order (a b : basic_variable_iterator) :
    (a.operator_eq b = true ↔ a.idx = b.idx ∧ a.storage = b.storage) ∧
    (a.storage ≠ b.storage → a.operator_eq b = false ∧ a.operator_ne b = true) ∧
    (a.operator_lt b = true ↔ a.idx < b.idx) ∧
    (a.operator_le b = true ↔ a.idx ≤ b.idx) ∧
    (a.operator_gt b = true ↔ b.idx < a.idx) ∧
    (a.operator_ge b = true ↔ b.idx ≤ a.idx) ∧
    (∀ s t : Option Nat,
      basic_variable_iterator.operator_lt ⟨a.idx, s⟩ ⟨b.idx, t⟩ = a.operator_lt b ∧
      basic_variable_iterator.operator_le ⟨a.idx, s⟩ ⟨b.idx, t⟩ = a.operator_le b ∧
      basic_variable_iterator.operator_gt ⟨a.idx, s⟩ ⟨b.idx, t⟩ = a.operator_gt b ∧
      basic_variable_iterator.operator_ge ⟨a.idx, s⟩ ⟨b.idx, t⟩ = a.operator_ge b) := by
  refine ⟨?_, ?_, (iterator_order_by_index a b).1, (iterator_order_by_index a b).2.1,
    (iterator_order_by_index a b).2.2.1, (iterator_order_by_index a b).2.2.2, ?_⟩
  · simp [basic_variable_iterator.operator_eq]
  · intro hne
    simp [basic_variable_iterator.operator_ne, basic_variable_iterator.operator_eq, hne]
  · intro s t
    exact ⟨rfl, rfl, rfl, rfl⟩

/-- C15, witness.  Iterators at index 1 of two containers at addresses 4096 and 8192 are
unequal, and neither is less than the other. -/
theorem iterator_equality_and_order_witness :
    basic_variable_iterator.operator_eq ⟨1, some 4096⟩ ⟨1, some 8192⟩ = false ∧
    basic_variable_iterator.operator_ne ⟨1, some 4096⟩ ⟨1, some 8192⟩ = true ∧
    basic_variable_iterator.operator_lt ⟨1, some 4096⟩ ⟨1, some 8192⟩ = false ∧
    basic_variable_iterator.operator_le ⟨1, some 4096⟩ ⟨1, some 8192⟩ = true :=
  ⟨((iterator_equality_and_order ⟨1, some 4096⟩ ⟨1, some 8192⟩).2.1 (by decide)).1,
    ((iterator_equality_and_order ⟨1, some 4096⟩ ⟨1, some 8192⟩).2.1 (by decide)).2,
    by decide, by decide⟩

/-- C14, amended.  For every container `v`: `v.begin() < v.end()` exactly when `size()` is
not 0, and `v.begin() == v.end()` exactly when it is 0; `empty()` is `size() == 0` on both
backends and holds for a freshly constructed container; it does not hold after an append
that returns on the growable backend, nor after one that returns on the fixed-capacity
backend from a state with `count < 65535`. -/
theorem begin_end_order_and_empty :
    (∀ v : container_view,
      ((basic_variable_vector.begin v).operator_lt (basic_variable_vector.end_ v) = true ↔
        v.size ≠ 0) ∧
      ((basic_variable_vector.begin v).operator_eq (basic_variable_vector.end_ v) = true ↔
        v.size = 0)) ∧
    (∀ self : dynamic_storage, vector.empty self = true ↔ vector.size self = 0) ∧
    (∀ self : static_storage_base,
      static_vector.empty self = true ↔ static_vector.size self = 0) ∧
    (∀ Types : List type_info, vector.empty (dynamic_storage.ctor Types) = true) ∧
    (∀ bytes memcount : Nat,
      static_vector.empty (static_storage_base.ctor bytes memcount) = true) ∧
    (∀ (Types : List type_info) (impl s : dynamic_storage) (val : push_arg) (fuel : Nat),
      vector.push_back Types impl val fuel = .ok s → vector.empty s = false) ∧
    (∀ (Types : List type_info) (bytes memcount : Nat) (impl s : static_storage_base)
      (val : push_arg),
      static_vector.push_back Types bytes memcount impl val = .ok (.returned s) →
      impl.count < 65535 → static_vector.empty s = false) := by
  refine ⟨?_, ?_, ?_, ?_, ?_, ?_, ?_⟩
  · intro v
    constructor
    · rw [(iterator_order_by_index _ _).1]
      simp [basic_variable_vector.begin, basic_variable_vector.end_]
      omega
    · simp [basic_variable_iterator.operator_eq, basic_variable_vector.begin,
        basic_variable_vector.end_]
      exact ⟨fun h => h.symm, fun h => h.symm⟩
  · intro self
    simp [vector.empty]
  · intro self
    simp [static_vector.empty]
  · intro Types
    rfl
  · intro bytes memcount
    rfl
  · intro Types impl s val fuel h
    obtain ⟨tag, r, bs, data, _, _, _, _, _, hs⟩ := vector.push_back_ok h
    subst hs
    simp [vector.empty, vector.size]
  · intro Types bytes memcount impl s val h hc
    obtain ⟨tag, bs, data, _, _, _, _, _, hs⟩ := static_vector.push_back_returned h
    subst hs
    simp only [static_vector.empty, static_vector.size, uint16]
    rw [Nat.mod_eq_of_lt (by omega)]
    simp

/-- C14, witness.  The test container is not empty, `begin() < end()` holds for it, and
the first append to a fresh `static_vector<32, 8, bool, int, float>` leaves it non-empty. -/
theorem begin_end_order_and_empty_witness :
    (basic_variable_vector.begin (vector.view copyable_types 4096 copyable_vector)).operator_lt
      (basic_variable_vector.end_ (vector.view copyable_types 4096 copyable_vector)) = true ∧
    vector.push_back copyable_types (dynamic_storage.ctor copyable_types) true_v 0 =
      .ok (built copyable_types [true_v]) ∧
    vector.empty (built copyable_types [true_v]) = false ∧
    static_vector.push_back trivial_types 32 8 (static_storage_base.ctor 32 8) int_5 =
      .ok (.returned static_one_int) ∧
    static_vector.empty static_one_int = false :=
  ⟨((begin_end_order_and_empty.1 (vector.view copyable_types 4096 copyable_vector)).1).mpr
      (show vector.size copyable_vector ≠ 0 by decide),
    by decide,
    begin_end_order_and_empty.2.2.2.2.2.1 copyable_types (dynamic_storage.ctor copyable_types)
      (built copyable_types [true_v]) true_v 0 (by decide),
    by decide,
    begin_end_order_and_empty.2.2.2.2.2.2 trivial_types 32 8 (static_storage_base.ctor 32 8)
      static_one_int int_5 (by decide) (by decide)⟩

/-- C14, counterexample.  A `static_vector<70000, 65536, bool>` holding 65535 elements,
reached by 65535 appends: `push_back(true)` returns normally and `empty()` holds
afterwards. -/
theorem static_append_leaves_empty :
    static_vector.push_back_all [bool_t] 70000 65536 (static_storage_base.ctor 70000 65536)
        (List.replicate 65535 true_v) = .ok (.returned (bools 65535)) ∧
      static_vector.empty (bools 65535) = false ∧
      ∃ s, static_vector.push_back [bool_t] 70000 65536 (bools 65535) true_v =
          .ok (.returned s) ∧
        static_vector.empty s = true := by
  refine ⟨?_, rfl, _, push_back_bools 65535 (by omega), rfl⟩
  have h := push_back_all_bools 65535 0 (by omega)
  rw [Nat.zero_add] at h
  rw [← h]
  congr 1

/-! ### What `used_bytes()` reports -/

/-- The capacity after a returning `push_back` on the growable backend is the previous
capacity times a power of two. -/
theorem vector.push_back_bytes {Types : List type_info} {impl s : dynamic_storage}
    {val : push_arg} {fuel : Nat} (h : vector.push_back Types impl val fuel = .ok s) :
    ∃ k, s.bytes = impl.bytes * 2 ^ k := by
  obtain ⟨tag, r, bs, data, _, hr, _, _, _, hs⟩ := vector.push_back_ok h
  obtain ⟨k, hk1, _, _, _, _⟩ := grow_ok _ _ _ _ _ _ hr
  subst hs
  exact ⟨k, hk1⟩

/-- C11, amended.  On both backends `used_bytes()` is the backend's `size()`, the capacity
in bytes, whatever the offset.  An append that returns leaves it unchanged on the
fixed-capacity backend; on the growable backend `used_bytes()` afterwards is the previous
value times a power of two, the capacity the append left. -/
theorem used_bytes_is_capacity :
    (∀ self : dynamic_storage, vector.used_bytes self = self.bytes) ∧
    (∀ (bytes : Nat) (self : static_storage_base),
      static_vector.used_bytes bytes self = bytes) ∧
    (∀ (Types : List type_info) (impl s : dynamic_storage) (val : push_arg) (fuel : Nat),
      vector.push_back Types impl val fuel = .ok s →
      vector.used_bytes s = s.bytes ∧
      ∃ k, vector.used_bytes s = vector.used_bytes impl * 2 ^ k) ∧
    (∀ (Types : List type_info) (bytes memcount : Nat) (impl s : static_storage_base)
      (val : push_arg),
      static_vector.push_back Types bytes memcount impl val = .ok (.returned s) →
      static_vector.used_bytes bytes s = static_vector.used_bytes bytes impl) := by
  refine ⟨fun _ => rfl, fun _ _ => rfl, ?_, fun _ _ _ _ _ _ _ => rfl⟩
  intro Types impl s val fuel h
  exact ⟨rfl, vector.push_back_bytes h⟩

/-- C11, witness.  On `vector<bool, int, float>` holding seven `int` the eighth
`push_back(5)` doubles `used_bytes()` from 32 to 64. -/
theorem used_bytes_is_capacity_witness :
    vector.push_back trivial_types seven_ints int_5 1 = .ok eight_ints ∧
    vector.used_bytes seven_ints = 32 ∧ vector.used_bytes eight_ints = 64 ∧
    vector.used_bytes eight_ints = eight_ints.bytes ∧
    ∃ k, vector.used_bytes eight_ints = vector.used_bytes seven_ints * 2 ^ k :=
  ⟨by decide, by decide, by decide,
    used_bytes_is_capacity.2.2.1 trivial_types seven_ints eight_ints int_5 1 (by decide)⟩

/-- C11, counterexample.  A fresh `vector<bool, int, float, std::string>` has offset 0 and
`used_bytes() == 256`; after `push_back(true)` the offset is 1 and `used_bytes()` is still
256. -/
theorem used_bytes_ignores_offset :
    (dynamic_storage.ctor copyable_types).offset = 0 ∧
    vector.used_bytes (dynamic_storage.ctor copyable_types) = 256 ∧
    vector.push_back copyable_types (dynamic_storage.ctor copyable_types) true_v 0 =
      .ok (built copyable_types [true_v]) ∧
    (built copyable_types [true_v]).offset = 1 ∧
    vector.used_bytes (built copyable_types [true_v]) = 256 := by
  refine ⟨?_, ?_, ?_, ?_, ?_⟩ <;> decide

/-- The largest size of a pack is at least the size of each of its types. -/
theorem foldl_max_ge (l : List Nat) : ∀ init : Nat,
    init ≤ l.foldl max init ∧ ∀ x ∈ l, x ≤ l.foldl max init := by
  induction l with
  | nil => intro init; simp
  | cons a l ih =>
    intro init
    obtain ⟨h1, h2⟩ := ih (max init a)
    refine ⟨le_trans (le_max_left _ _) h1, ?_⟩
    intro x hx
    rcases List.mem_cons.mp hx with hx | hx
    · subst hx
      exact le_trans (le_max_right _ _) h1
    · exact h2 x hx

/-- The first capacity of the growable backend is positive for a non-empty pack of types of
positive size. -/
theorem start_size_pos (Types : List type_info) (hne : Types ≠ [])
    (hsz : ∀ T ∈ Types, 0 < T.size) : 0 < dynamic_storage.start_size Types := by
  cases Types with
  | nil => exact absurd rfl hne
  | cons T Ts =>
    have h := (foldl_max_ge ((T :: Ts).map type_info.size) 0).2 T.size (by simp)
    have hT := hsz T (by simp)
    unfold dynamic_storage.start_size meta.max_size_of
    omega

/-- Copying no elements leaves the destination as it is. -/
theorem copy_storage_zero (Types : List type_info) (meta : List storage_metadata)
    (dest src : List Nat) : copy_storage Types 0 meta dest src = .ok dest := rfl

/-- C12.  For every non-empty pack of types (each of positive size), a freshly constructed
container has `used_bytes() > 0`, `size() == 0` and is `empty()`: on the growable backend,
and on the fixed-capacity backend for every positive capacity.  When every type is copyable
the copy of the fresh container exists and has the same three properties. -/
theorem fresh_container_reports_used_bytes (Types : List type_info) (hne : Types ≠ [])
    (hsz : ∀ T ∈ Types, 0 < T.size) :
    (0 < vector.used_bytes (dynamic_storage.ctor Types) ∧
      vector.size (dynamic_storage.ctor Types) = 0 ∧
      vector.empty (dynamic_storage.ctor Types) = true) ∧
    (∀ bytes memcount : Nat, 0 < bytes →
      0 < static_vector.used_bytes bytes (static_storage_base.ctor bytes memcount) ∧
      static_vector.size (static_storage_base.ctor bytes memcount) = 0 ∧
      static_vector.empty (static_storage_base.ctor bytes memcount) = true) ∧
    (Types.all (fun T => T.copyable) = true →
      ∃ c, vector.copy_ctor Types (dynamic_storage.ctor Types) = .ok c ∧
        0 < vector.used_bytes c ∧ vector.size c = 0 ∧ vector.empty c = true) ∧
    (Types.all (fun T => T.copyable) = true → ∀ bytes memcount : Nat, 0 < bytes →
      ∃ c, static_vector.copy_ctor Types bytes (static_storage_base.ctor bytes memcount) =
          .ok c ∧
        0 < static_vector.used_bytes bytes c ∧ static_vector.size c = 0 ∧
        static_vector.empty c = true) := by
  have hpos := start_size_pos Types hne hsz
  refine ⟨⟨hpos, rfl, rfl⟩, fun bytes memcount hb => ⟨hb, rfl, rfl⟩, ?_, ?_⟩
  · intro hc
    refine ⟨{ bytes := (dynamic_storage.ctor Types).bytes, count := 0, offset := 0,
              meta := (dynamic_storage.ctor Types).meta,
              data := List.replicate (dynamic_storage.ctor Types).bytes 0 }, ?_, ?_, ?_, ?_⟩
    · unfold vector.copy_ctor dynamic_storage.copy_ctor
      rw [if_pos hc]
      show (copy_storage Types 0 _ _ _ >>= _) = _
      rw [copy_storage_zero]
      rfl
    · exact hpos
    · rfl
    · rfl
  · intro hc bytes memcount hb
    refine ⟨{ count := 0, offset := 0,
              meta := (static_storage_base.ctor bytes memcount).meta,
              data := List.replicate bytes 0 }, ?_, ?_, ?_, ?_⟩
    · unfold static_vector.copy_ctor static_storage_base.copy_ctor
      rw [if_pos hc]
      show (copy_storage Types 0 _ _ _ >>= _) = _
      rw [copy_storage_zero]
      rfl
    · exact hb
    · rfl
    · rfl

/-- C12, witness.  The fresh `vector<bool, int, float, std::string>` of the test suite
reports `used_bytes() == 256`, and so does its copy; the fresh
`static_vector<32, 8, bool, int, float>` reports 32. -/
theorem fresh_container_reports_used_bytes_witness :
    vector.used_bytes (dynamic_storage.ctor copyable_types) = 256 ∧
    static_vector.used_bytes 32 (static_storage_base.ctor 32 8) = 32 ∧
    (0 < vector.used_bytes (dynamic_storage.ctor copyable_types) ∧
      vector.size (dynamic_storage.ctor copyable_types) = 0 ∧
      vector.empty (dynamic_storage.ctor copyable_types) = true) ∧
    ∃ c, vector.copy_ctor copyable_types (dynamic_storage.ctor copyable_types) = .ok c ∧
      0 < vector.used_bytes c ∧ vector.size c = 0 ∧ vector.empty c = true :=
  ⟨by decide, by decide,
    (fresh_container_reports_used_bytes copyable_types (by decide) (by decide)).1,
    (fresh_container_reports_used_bytes copyable_types (by decide) (by decide)).2.2.1
      (by decide)⟩

/-! ### Reads -/

/-- A callback that leaves its object alone leaves the buffer alone. -/
theorem get_aligned_ptr_for_read_only {ρ : Type} (tag : Nat) (buf : List Nat) (ptr : Nat)
    (Types : List type_info) (callback : typed_callback ρ) (T : type_info)
    (hT : Types[uint8 tag]? = some T) (hcb : ∀ p obj, (callback T p obj).1 = obj)
    (buf1 : List Nat) (r : ρ)
    (h : get_aligned_ptr_for tag buf ptr Types callback = .ok (buf1, r)) : buf1 = buf := by
  unfold get_aligned_ptr_for at h
  rw [get_typed_ptr_for_eq _ _ _ _ T (by rw [uint8_uint8]; exact hT)] at h
  split at h
  · split at h
    · cases h
    · obtain ⟨tmp, htmp, h⟩ := except_bind_ok h
      obtain ⟨orig, horig, h⟩ := except_bind_ok h
      rw [htmp] at horig
      injection horig with horig
      subst horig
      split at h
      · rename_i hne
        exact absurd (hcb _ _).symm hne
      · injection h with h
        injection h with h1 _
        exact h1.symm
  · split at h
    · cases h
    · obtain ⟨obj, hobj, h⟩ := except_bind_ok h
      obtain ⟨buf2, hbuf2, h⟩ := except_bind_ok h
      injection h with h
      injection h with h1 _
      rw [hcb, write_at_read_back hobj] at hbuf2
      injection hbuf2 with hbuf2
      rw [← h1, ← hbuf2]

/-- Reads of an element `i < size()` whose record selects the declared type `T` and places
it within the buffer.  If `T` is move-only and the recorded offset is aligned
for `T`: `operator[](i)` and the dereference of an iterator at `i` yield the pointer to
the recorded offset, the read leaves the buffer as it was, and `visit_at(i)` runs its
handler on the bytes at that same offset.  If `T` is copyable, and aligned or trivially
copyable: both reads yield a copy of the bytes at the recorded offset and leave the buffer
as it was. -/
theorem read_yields_pointer_or_copy (Types : List type_info) (count : Nat)
    (meta : List storage_metadata) (data : List Nat) (i : Nat) (m : storage_metadata)
    (T : type_info) (hi : i < count) (hm : meta[i]? = some m)
    (hT : Types[uint8 m.type]? = some T) (hb : m.offset + T.size ≤ data.length) :
    (T.copyable = false → aligned_for_type T m.offset = true →
      basic_variable_vector.operator_index Types count meta data i =
        .ok (.pointer T (.in_place m.offset)) ∧
      (∀ this : Nat,
        basic_variable_iterator.operator_deref ⟨i, some this⟩
          ⟨this, count, basic_variable_vector.operator_index Types count meta data⟩ =
          .ok (.pointer T (.in_place m.offset))) ∧
      get_aligned_ptr_for m.type data m.offset Types
        (fun T ptr obj =>
          (obj, if T.copyable then value_type.value T obj else .pointer T ptr)) =
        .ok (data, .pointer T (.in_place m.offset)) ∧
      (∀ (ρ : Type) (callback : visitor ρ),
        (callback T ((data.drop m.offset).take T.size)).1.length = T.size →
        ∃ data1,
          write_at data m.offset (callback T ((data.drop m.offset).take T.size)).1 =
            .ok data1 ∧
          basic_variable_vector.visit_at Types count meta data i callback =
            .ok (data1, (callback T ((data.drop m.offset).take T.size)).2))) ∧
    (T.copyable = true →
      aligned_for_type T m.offset = true ∨ T.trivially_copyable = true →
      basic_variable_vector.operator_index Types count meta data i =
        .ok (.value T ((data.drop m.offset).take T.size)) ∧
      (∀ this : Nat,
        basic_variable_iterator.operator_deref ⟨i, some this⟩
          ⟨this, count, basic_variable_vector.operator_index Types count meta data⟩ =
          .ok (.value T ((data.drop m.offset).take T.size))) ∧
      ∃ r, get_aligned_ptr_for m.type data m.offset Types
        (fun T ptr obj =>
          (obj, if T.copyable then value_type.value T obj else .pointer T ptr)) =
        .ok (data, r)) := by
  have hread := operator_index_of_read Types count meta data i m T hi hm hT
  rw [read_at_ok hb] at hread
  have hstate : ∀ v, basic_variable_vector.operator_index Types count meta data i = .ok v →
      get_aligned_ptr_for m.type data m.offset Types
        (fun T ptr obj =>
          (obj, if T.copyable then value_type.value T obj else .pointer T ptr)) =
        .ok (data, v) := by
    intro v hv
    unfold basic_variable_vector.operator_index at hv
    rw [if_pos hi, hm] at hv
    obtain ⟨r, hr, hv⟩ := except_bind_ok hv
    injection hv with hv
    have := get_aligned_ptr_for_read_only m.type data m.offset Types _ T hT
      (fun _ _ => rfl) r.1 r.2 hr
    rw [hr, ← hv]
    congr 1
    exact Prod.ext this rfl
  constructor
  · intro hnc hal
    have hidx : basic_variable_vector.operator_index Types count meta data i =
        .ok (.pointer T (.in_place m.offset)) := by
      rw [hread]
      simp [hnc, hal, Except.map]
    refine ⟨hidx, fun this => hidx, hstate _ hidx, ?_⟩
    intro ρ callback hlen
    exact visit_at_of_write Types count meta data i callback m T hi hm hT (Or.inl hal) hb hlen
  · intro hc hal
    have hidx : basic_variable_vector.operator_index Types count meta data i =
        .ok (.value T ((data.drop m.offset).take T.size)) := by
      rw [hread]
      rcases hal with hal | hal
      · simp [hc, hal, Except.map]
      · by_cases ha : aligned_for_type T m.offset = true
        · simp [hc, ha, Except.map]
        · simp [hc, ha, hal, Except.map]
    exact ⟨hidx, fun this => hidx, _, hstate _ hidx⟩

/-- An instance of the reads above.  Element 3 of the move-only test container is the `std::unique_ptr` at
offset 24: `operator[](3)` yields the pointer to offset 24, and element 1 reads as a copy of
the `int` 1337. -/
theorem read_yields_pointer_or_copy_at_unique_ptr :
    movable_vector.meta[3]? = some ⟨4, 24⟩ ∧
    vector.operator_index movable_types movable_vector 3 =
      .ok (.pointer unique_ptr_t (.in_place 24)) ∧
    vector.operator_index movable_types movable_vector 1 =
      .ok (.value int_t [57, 5, 0, 0]) :=
  ⟨by decide,
    ((read_yields_pointer_or_copy movable_types movable_vector.count movable_vector.meta
      movable_vector.data 3 ⟨4, 24⟩ unique_ptr_t (by decide) (by decide) (by decide)
      (by decide)).1 (by decide) (by decide)).1,
    by decide⟩

/-- C16, failing input.  In `vector<bool, token>` after `push_back(true)` and
`push_back(token {9})` the move-only `token` is trivially copyable, so it was stored by
`memcpy` at offset 1 without realignment; `operator[](1)` fails the assertion that a
non-copyable element is aligned. -/
theorem misaligned_move_only_read_asserts :
    vector.push_back_all token_types 0 (dynamic_storage.ctor token_types)
      [true_v, token_9] = .ok token_vector ∧
    vector.size token_vector = 2 ∧
    token_vector.meta.take 2 = [⟨0, 0⟩, ⟨1, 1⟩] ∧
    token_t.copyable = false ∧
    aligned_for_type token_t 1 = false ∧
    vector.operator_index token_types token_vector 1 = .error .assertion := by
  refine ⟨?_, ?_, ?_, ?_, ?_, ?_⟩ <;> decide

/-! ### Appends -/

/-- C17, failing input.  `push_back("hello world")` on a fresh
`vector<bool, int, float, std::string>` returns with `count == 1` and the record `{3, 0}`;
the 32 bytes of the `std::string` were written at position 0 without padding, and yet
`offset` advanced by 12, the size of the literal. -/
theorem push_back_offset_advance_is_source_size :
    vector.push_back copyable_types (dynamic_storage.ctor copyable_types) hello_world 0 =
      .ok one_string ∧
    one_string.count = 1 ∧
    one_string.meta[0]? = some ⟨3, 0⟩ ∧
    meta.index_of_v string_t copyable_types = some 3 ∧
    basic_variable_vector.initial_data_ptr hello_world 0 - 0 = 0 ∧
    read_at one_string.data 0 32 = .ok hello_world_string ∧
    string_t.size = 32 ∧
    (dynamic_storage.ctor copyable_types).offset = 0 ∧
    one_string.offset = 12 := by
  refine ⟨?_, ?_, ?_, ?_, ?_, ?_, ?_, ?_, ?_⟩ <;> decide

/-- C18, failing input.  A `vector<bool, std::unique_ptr<double>>` holds 57 `bool` in a
buffer of 64 bytes.  `push_back(std::make_unique<double>(3.14159))` computes 7 bytes of
padding, grows the buffer to 128 bytes, and constructs the pointer at the cursor returned
by `resize`, position 57, which is not a multiple of 8; the record says offset 64, where
`operator[]` points and `visit_at` finds other bytes. -/
theorem growth_discards_realigned_cursor :
    vector.push_back_all owner_types 0 (dynamic_storage.ctor owner_types)
      (List.replicate 57 true_v) = .ok fifty_seven_bools ∧
    fifty_seven_bools.offset = 57 ∧ fifty_seven_bools.bytes = 64 ∧
    realign_for_type unique_ptr_t 57 = 64 ∧
    vector.push_back owner_types fifty_seven_bools owned_double 1 = .ok grown_with_owner ∧
    grown_with_owner.bytes = 128 ∧
    read_at grown_with_owner.data 57 8 = .ok owned_double.converted ∧
    aligned_for_type unique_ptr_t 57 = false ∧
    grown_with_owner.meta[57]? = some ⟨1, 64⟩ ∧
    grown_with_owner.offset = 72 ∧
    vector.operator_index owner_types grown_with_owner 57 =
      .ok (.pointer unique_ptr_t (.in_place 64)) ∧
    vector.visit_at owner_types grown_with_owner 57 observe =
      .ok (grown_with_owner, [0, 0, 0, 0, 0, 0, 0, 0]) := by
  refine ⟨?_, ?_, ?_, ?_, ?_, ?_, ?_, ?_, ?_, ?_, ?_, ?_⟩ <;> decide

/-! ### Order of the element records -/

/-- Writing record `count` at an offset not below the old `offset` keeps the records
increasing. -/
theorem records_increase_push {count offset : Nat} {meta : List storage_metadata}
    (h : records_increase count offset meta) (hlt : count < meta.length) (tag at_ next : Nat)
    (h1 : offset ≤ at_) (h2 : at_ < next) :
    records_increase (count + 1) next (meta.set count ⟨tag, at_⟩) := by
  obtain ⟨hb, hs⟩ := h
  have hold : ∀ i, i < count → (meta.set count ⟨tag, at_⟩)[i]? = meta[i]? := by
    intro i hi
    rw [List.getElem?_set_ne (by omega)]
  have hnew : (meta.set count ⟨tag, at_⟩)[count]? = some ⟨tag, at_⟩ := by
    rw [List.getElem?_set_self hlt]
  constructor
  · intro i m hi hm
    by_cases hic : i = count
    · subst hic
      rw [hnew] at hm
      injection hm with hm
      subst hm
      exact h2
    · rw [hold i (by omega)] at hm
      have := hb i m (by omega) hm
      omega
  · intro i j mi mj hij hj hmi hmj
    rw [hold i (by omega)] at hmi
    by_cases hjc : j = count
    · subst hjc
      rw [hnew] at hmj
      injection hmj with hmj
      subst hmj
      have := hb i mi hij hmi
      exact Nat.lt_of_lt_of_le this h1
    · rw [hold j (by omega)] at hmj
      exact hs i j mi mj hij (by omega) hmi hmj

/-- The records depend on the metadata array only through its first `count` entries. -/
theorem records_increase_congr {count offset : Nat} {meta meta1 : List storage_metadata}
    (h : records_increase count offset meta)
    (hm : ∀ i, i < count → meta1[i]? = meta[i]?) : records_increase count offset meta1 := by
  obtain ⟨hb, hs⟩ := h
  constructor
  · intro i m hi hmi
    rw [hm i hi] at hmi
    exact hb i m hi hmi
  · intro i j mi mj hij hj hmi hmj
    rw [hm i (by omega)] at hmi
    rw [hm j hj] at hmj
    exact hs i j mi mj hij hj hmi hmj

/-- The length given to the metadata array grows with the capacity. -/
theorem meta_length_mono (Types : List type_info) {a b : Nat} (h : a ≤ b) :
    dynamic_storage.meta_length Types a ≤ dynamic_storage.meta_length Types b := by
  unfold dynamic_storage.meta_length
  exact Nat.div_le_div_right (by omega)

/-- Doubling the capacity of a backend whose metadata array has the length of its capacity
keeps every record and gives the array the length of the new capacity. -/
theorem resize_double_meta {Types : List type_info} {impl : dynamic_storage}
    {r : dynamic_storage × Nat}
    (hl : impl.meta.length = dynamic_storage.meta_length Types impl.bytes)
    (h : impl.resize Types (impl.size * 2) = .ok r) :
    r.1.meta.length = dynamic_storage.meta_length Types r.1.bytes ∧
      ∀ i, i < impl.meta.length → r.1.meta[i]? = impl.meta[i]? := by
  unfold dynamic_storage.resize at h
  obtain ⟨d, _, h⟩ := except_bind_ok h
  injection h with h
  subst h
  have hge : impl.meta.length ≤ dynamic_storage.meta_length Types (impl.size * 2) := by
    rw [hl]
    exact meta_length_mono Types (by unfold dynamic_storage.size; omega)
  dsimp only
  rw [List.take_of_length_le hge]
  constructor
  · simp
    omega
  · intro i hi
    rw [List.getElem?_append_left hi]

/-- The growth loop keeps every record and the length invariant of the metadata array. -/
theorem grow_meta (Types : List type_info) (n : Nat) :
    ∀ (fuel : Nat) (impl : dynamic_storage) (p : Nat) (r : dynamic_storage × Nat),
      impl.meta.length = dynamic_storage.meta_length Types impl.bytes →
      vector.push_back.grow Types n fuel impl p = .ok r →
      r.1.meta.length = dynamic_storage.meta_length Types r.1.bytes ∧
        impl.meta.length ≤ r.1.meta.length ∧
        ∀ i, i < impl.meta.length → r.1.meta[i]? = impl.meta[i]? := by
  intro fuel
  induction fuel with
  | zero =>
    intro impl p r hl h
    unfold vector.push_back.grow at h
    split at h
    · injection h with h
      subst h
      exact ⟨hl, le_refl _, fun _ _ => rfl⟩
    · cases h
  | succ fuel ih =>
    intro impl p r hl h
    unfold vector.push_back.grow at h
    split at h
    · injection h with h
      subst h
      exact ⟨hl, le_refl _, fun _ _ => rfl⟩
    · obtain ⟨r1, hr1, h⟩ := except_bind_ok h
      obtain ⟨hl1, hk1⟩ := resize_double_meta hl hr1
      obtain ⟨hl2, hle2, hk2⟩ := ih _ _ _ hl1 h
      have hle1 : impl.meta.length ≤ r1.1.meta.length := by
        rw [hl1, hl, (resize_fields hr1).1]
        exact meta_length_mono Types (by unfold dynamic_storage.size; omega)
      refine ⟨hl2, le_trans hle1 hle2, ?_⟩
      intro i hi
      rw [hk2 i (by omega), hk1 i hi]

/-- The invariant of the growable backend behind the order of its records. -/
theorem growable_push_back_keeps_order {Types : List type_info} {impl s : dynamic_storage}
    {val : push_arg} {fuel : Nat} (hval : val.val ≠ [])
    (hl : impl.meta.length = dynamic_storage.meta_length Types impl.bytes)
    (hc : impl.count ≤ impl.meta.length)
    (hr : records_increase impl.count impl.offset impl.meta)
    (h : vector.push_back Types impl val fuel = .ok s) :
    s.meta.length = dynamic_storage.meta_length Types s.bytes ∧
      s.count ≤ s.meta.length ∧ records_increase s.count s.offset s.meta := by
  obtain ⟨tag, r, bs, data, _, hgrow, _, _, hlt, hs⟩ := vector.push_back_ok h
  obtain ⟨k, _, ho, hcount, _, _⟩ := grow_ok _ _ _ _ _ _ hgrow
  obtain ⟨hl1, hle1, hk1⟩ := grow_meta _ _ _ _ _ _ hl hgrow
  have hlen : 0 < val.val.length := List.length_pos.mpr hval
  have hr1 : records_increase r.1.count r.1.offset r.1.meta := by
    rw [hcount, ho]
    exact records_increase_congr hr (fun i hi => hk1 i (by omega))
  subst hs
  refine ⟨?_, ?_, ?_⟩
  · simpa using hl1
  · simp
    omega
  · dsimp only
    exact records_increase_push hr1 hlt _ _ _ (by omega) (by omega)

/-- An append on the growable backend leaves the records of the elements already held in
place. -/
theorem growable_push_back_keeps_records {Types : List type_info} {impl s : dynamic_storage}
    {val : push_arg} {fuel : Nat}
    (hl : impl.meta.length = dynamic_storage.meta_length Types impl.bytes)
    (hc : impl.count ≤ impl.meta.length)
    (h : vector.push_back Types impl val fuel = .ok s) :
    ∀ i, i < impl.count → s.meta[i]? = impl.meta[i]? := by
  obtain ⟨tag, r, bs, data, _, hgrow, _, _, hlt, hs⟩ := vector.push_back_ok h
  obtain ⟨k, _, ho, hcount, _, _⟩ := grow_ok _ _ _ _ _ _ hgrow
  obtain ⟨hl1, hle1, hk1⟩ := grow_meta _ _ _ _ _ _ hl hgrow
  intro i hi
  subst hs
  dsimp only
  rw [List.getElem?_set_ne (by omega)]
  exact hk1 i (by omega)

/-- Every growable vector built by appends of values of positive size keeps the
invariant. -/
theorem growable_push_back_all_keeps_order (Types : List type_info) (fuel : Nat) :
    ∀ (vals : List push_arg) (impl s : dynamic_storage), (∀ v ∈ vals, v.val ≠ []) →
      impl.meta.length = dynamic_storage.meta_length Types impl.bytes →
      impl.count ≤ impl.meta.length →
      records_increase impl.count impl.offset impl.meta →
      vector.push_back_all Types fuel impl vals = .ok s →
      s.meta.length = dynamic_storage.meta_length Types s.bytes ∧
        s.count ≤ s.meta.length ∧ records_increase s.count s.offset s.meta := by
  intro vals
  induction vals with
  | nil =>
    intro impl s _ hl hc hr h
    unfold vector.push_back_all at h
    injection h with h
    subst h
    exact ⟨hl, hc, hr⟩
  | cons v vs ih =>
    intro impl s hvals hl hc hr h
    unfold vector.push_back_all at h
    obtain ⟨s1, hs1, h⟩ := except_bind_ok h
    obtain ⟨hl1, hc1, hr1⟩ :=
      growable_push_back_keeps_order (hvals v (by simp)) hl hc hr hs1
    exact ih s1 s (fun w hw => hvals w (by simp [hw])) hl1 hc1 hr1 h

/-- A fresh growable vector satisfies the invariant. -/
theorem growable_ctor_order (Types : List type_info) :
    (dynamic_storage.ctor Types).meta.length =
        dynamic_storage.meta_length Types (dynamic_storage.ctor Types).bytes ∧
      (dynamic_storage.ctor Types).count ≤ (dynamic_storage.ctor Types).meta.length ∧
      records_increase (dynamic_storage.ctor Types).count (dynamic_storage.ctor Types).offset
        (dynamic_storage.ctor Types).meta := by
  refine ⟨by simp [dynamic_storage.ctor], by simp [dynamic_storage.ctor], ?_, ?_⟩
  · intro i m hi
    exact absurd hi (Nat.not_lt_zero i)
  · intro i j mi mj _ hj
    exact absurd hj (Nat.not_lt_zero j)

/-- A `push_back` on the fixed-capacity backend that ends by `std::bad_alloc` has changed
nothing. -/
theorem static_vector.push_back_bad_alloc {Types : List type_info} {bytes memcount : Nat}
    {impl s : static_storage_base} {val : push_arg}
    (h : static_vector.push_back Types bytes memcount impl val = .ok (.bad_alloc s)) :
    s = impl := by
  unfold static_vector.push_back at h
  split at h
  · cases h
  · dsimp only at h
    split at h
    · simp only [static_storage_base.resize] at h
      injection h with h
      injection h with h
      exact h.symm
    · obtain ⟨bs, _, h⟩ := except_bind_ok h
      obtain ⟨data, _, h⟩ := except_bind_ok h
      split at h
      · injection h with h
        cases h
      · cases h

/-- An append on the fixed-capacity backend leaves the records of the elements already held
in place. -/
theorem static_push_back_keeps_records {Types : List type_info} {bytes memcount : Nat}
    {impl : static_storage_base} {c : completion static_storage_base} {val : push_arg}
    (h : static_vector.push_back Types bytes memcount impl val = .ok c) :
    ∀ i, i < impl.count → c.state.meta[i]? = impl.meta[i]? := by
  intro i hi
  cases c with
  | returned s =>
    obtain ⟨tag, bs, data, _, _, _, _, _, hs⟩ := static_vector.push_back_returned h
    subst hs
    show (impl.meta.set impl.count _)[i]? = _
    rw [List.getElem?_set_ne (by omega)]
  | bad_alloc s =>
    have hs := static_vector.push_back_bad_alloc h
    subst hs
    rfl

/-- The invariant of the fixed-capacity backend behind the order of its records, for a
capacity the 16-bit `offset` can hold. -/
theorem static_push_back_keeps_order {Types : List type_info} {bytes memcount : Nat}
    {impl : static_storage_base} {c : completion static_storage_base} {val : push_arg}
    (hb : bytes ≤ 65536) (hval : val.val ≠ [])
    (hc : impl.count ≤ impl.offset)
    (hr : records_increase impl.count impl.offset impl.meta)
    (h : static_vector.push_back Types bytes memcount impl val = .ok c) :
    c.state.count ≤ c.state.offset ∧
      records_increase c.state.count c.state.offset c.state.meta := by
  cases c with
  | returned s =>
    obtain ⟨tag, bs, data, _, hsp, _, _, hlt, hs⟩ := static_vector.push_back_returned h
    have hlen : 0 < val.val.length := List.length_pos.mpr hval
    unfold static_storage_base.has_space at hsp
    split at hsp
    · have hsp1 := of_decide_eq_true hsp
      have h1 : uint16 (impl.offset +
          (basic_variable_vector.initial_data_ptr val impl.offset - impl.offset)) =
          impl.offset +
            (basic_variable_vector.initial_data_ptr val impl.offset - impl.offset) := by
        unfold uint16
        exact Nat.mod_eq_of_lt (by omega)
      have h2 : uint16 (impl.offset +
          (basic_variable_vector.initial_data_ptr val impl.offset - impl.offset) +
            val.val.length) =
          impl.offset +
            (basic_variable_vector.initial_data_ptr val impl.offset - impl.offset) +
              val.val.length := by
        unfold uint16
        exact Nat.mod_eq_of_lt (by omega)
      have h3 : uint16 (impl.count + 1) = impl.count + 1 := by
        unfold uint16
        exact Nat.mod_eq_of_lt (by omega)
      subst hs
      simp only [storage.completion.state, h1, h2, h3]
      refine ⟨by omega, ?_⟩
      exact records_increase_push hr hlt _ _ _ (by omega) (by omega)
    · cases hsp
  | bad_alloc s =>
    have hs := static_vector.push_back_bad_alloc h
    subst hs
    exact ⟨hc, hr⟩

/-- Every fixed-capacity vector of capacity at most 65536 built by appends of values of
positive size keeps the invariant, also when the last append ends by `std::bad_alloc`. -/
theorem static_push_back_all_keeps_order (Types : List type_info)
    (bytes memcount : Nat) (hb : bytes ≤ 65536) :
    ∀ (vals : List push_arg) (impl : static_storage_base)
      (c : completion static_storage_base), (∀ v ∈ vals, v.val ≠ []) →
      impl.count ≤ impl.offset →
      records_increase impl.count impl.offset impl.meta →
      static_vector.push_back_all Types bytes memcount impl vals = .ok c →
      c.state.count ≤ c.state.offset ∧
        records_increase c.state.count c.state.offset c.state.meta := by
  intro vals
  induction vals with
  | nil =>
    intro impl c _ hc hr h
    unfold static_vector.push_back_all at h
    injection h with h
    subst h
    exact ⟨hc, hr⟩
  | cons v vs ih =>
    intro impl c hvals hc hr h
    unfold static_vector.push_back_all at h
    split at h
    · rename_i s hs
      obtain ⟨hc1, hr1⟩ :=
        static_push_back_keeps_order hb (hvals v (by simp)) hc hr hs
      exact ih s c (fun w hw => hvals w (by simp [hw])) hc1 hr1 h
    · exact static_push_back_keeps_order hb (hvals v (by simp)) hc hr h

/-- A fresh fixed-capacity vector satisfies the invariant. -/
theorem static_ctor_order (bytes memcount : Nat) :
    records_increase (static_storage_base.ctor bytes memcount).count
      (static_storage_base.ctor bytes memcount).offset
      (static_storage_base.ctor bytes memcount).meta := by
  constructor
  · intro i m hi
    exact absurd hi (Nat.not_lt_zero i)
  · intro i j mi mj _ hj
    exact absurd hj (Nat.not_lt_zero j)

/-- Storing zero bytes into a buffer of zero bytes. -/
theorem write_at_zeros (n off k : Nat) (h : off + k ≤ n) :
    write_at (List.replicate n 0) off (List.replicate k 0) = .ok (List.replicate n 0) := by
  unfold write_at
  rw [if_pos (by simpa using h)]
  congr 1
  simp only [List.take_replicate, List.drop_replicate, List.length_replicate,
    List.append_replicate_replicate]
  congr 1
  omega

/-- Recording one more element after the records at `offs`. -/
theorem set_meta_blocks (offs : List Nat) (o : Nat) (h : offs.length < 8) :
    (offs.map (fun o => (⟨0, o⟩ : storage_metadata)) ++
        List.replicate (8 - offs.length) (⟨0, 0⟩ : storage_metadata)).set offs.length ⟨0, o⟩ =
      (offs ++ [o]).map (fun o => (⟨0, o⟩ : storage_metadata)) ++
        List.replicate (8 - (offs ++ [o]).length) ⟨0, 0⟩ := by
  rw [List.set_append_right _ _ (by simp)]
  simp only [List.length_map, Nat.sub_self, List.length_append, List.length_singleton]
  obtain ⟨k, hk⟩ : ∃ k, 8 - offs.length = k + 1 := ⟨8 - offs.length - 1, by omega⟩
  have hk1 : 8 - (offs.length + 1) = k := by omega
  rw [hk, hk1, List.replicate_succ, List.set_cons_zero, List.map_append]
  simp

/-- A step that has its value continues with it. -/
theorem except_ok_bind {ε α β : Type} (a : α) (f : α → Except ε β) :
    ((Except.ok a : Except ε α) >>= f) = f a := rfl

/-- The size of the source value `zero_block`. -/
theorem zero_block_length : zero_block.val.length = 22000 := by
  show (List.replicate 22000 0).length = 22000
  exact List.length_replicate _ _

/-- A `static_vector<70000, 8, block>` holding fewer than eight elements has space for one
more `block` while `offset + 22000 < 70000`. -/
theorem blocks_has_space (offs : List Nat) (offset : Nat) (hl : offs.length < 8)
    (ho : offset + 22000 < 70000) :
    (blocks offs offset).has_space 70000 8 (zero_block.val.length + (offset - offset)) =
      true := by
  rw [zero_block_length]
  unfold static_storage_base.has_space
  rw [if_pos (show (blocks offs offset).count < 8 from hl)]
  exact decide_eq_true (show offset + (22000 + (offset - offset)) < 70000 by omega)

/-- The bytes `push_back` stores for `zero_block`. -/
theorem zero_block_stored_bytes :
    basic_variable_vector.stored_bytes zero_block = .ok (List.replicate 22000 0) := by
  have ht : zero_block.val.take zero_block.stored_type.size = List.replicate 22000 0 := by
    show (List.replicate 22000 0).take 22000 = _
    rw [List.take_replicate, Nat.min_self]
  unfold basic_variable_vector.stored_bytes
  rw [if_pos (show zero_block.stored_type.trivially_copyable = true from rfl)]
  rw [if_pos (show zero_block.stored_type.size ≤ zero_block.val.length by
    rw [zero_block_length]; exact le_refl _)]
  rw [ht]

/-- One `push_back` of a `block` on `static_vector<70000, 8, block>`: it returns, with the
record at the old `offset` and `offset` advanced in 16-bit arithmetic. -/
theorem push_back_block (offs : List Nat) (offset : Nat) (hl : offs.length < 8)
    (ho : offset + 22000 < 70000) :
    static_vector.push_back [block_t] 70000 8 (blocks offs offset) zero_block =
      .ok (.returned (blocks (offs ++ [offset]) (uint16 (offset + 22000)))) := by
  have htag : meta.index_of_v zero_block.stored_type [block_t] = some 0 := by decide
  have hp : basic_variable_vector.initial_data_ptr zero_block offset = offset := rfl
  simp only [static_vector.push_back, htag]
  simp only [show (blocks offs offset).offset = offset from rfl, hp,
    blocks_has_space offs offset hl ho]
  simp only [static_storage_base.incr_offset, zero_block_stored_bytes, blocks, Nat.sub_self,
    Nat.add_zero]
  have hu : uint16 offset = offset := by unfold uint16; omega
  have hc : uint16 (offs.length + 1) = offs.length + 1 := by unfold uint16; omega
  simp only [hu, hc, zero_block_length]
  have hw := write_at_zeros 70000 offset 22000 (by omega)
  simp only [Bool.not_true, Bool.false_eq_true, if_false]
  rw [except_ok_bind, hw, except_ok_bind]
  simp only [List.length_append, List.length_map, List.length_replicate]
  have h8 : uint8 0 = 0 := rfl
  rw [if_pos (by omega), h8, set_meta_blocks offs offset hl]
  simp only [List.length_append, List.length_singleton]
  rfl

/-- C19, amended.  The records of a vector reached from a freshly constructed one by appends
of values of positive size lie at strictly increasing offsets, for the growable backend
always (growth included) and for the fixed-capacity backend when its capacity is at most
65536 bytes, also when the last append ended by `std::bad_alloc`; and on either backend one
more append leaves the records of the elements already held in place. -/
theorem record_offsets_increase :
    (∀ (Types : List type_info) (fuel : Nat) (vals : List push_arg) (s : dynamic_storage),
      (∀ v ∈ vals, v.val ≠ []) →
      vector.push_back_all Types fuel (dynamic_storage.ctor Types) vals = .ok s →
      (∀ i j mi mj, i < j → j < vector.size s → s.meta[i]? = some mi →
        s.meta[j]? = some mj → mi.offset < mj.offset) ∧
      ∀ (v : push_arg) (fuel1 : Nat) (s1 : dynamic_storage),
        vector.push_back Types s v fuel1 = .ok s1 →
        ∀ i, i < vector.size s → s1.meta[i]? = s.meta[i]?) ∧
    (∀ (Types : List type_info) (bytes memcount : Nat) (vals : List push_arg)
      (c : completion static_storage_base), bytes ≤ 65536 →
      (∀ v ∈ vals, v.val ≠ []) →
      static_vector.push_back_all Types bytes memcount
        (static_storage_base.ctor bytes memcount) vals = .ok c →
      ∀ i j mi mj, i < j → j < static_vector.size c.state → c.state.meta[i]? = some mi →
        c.state.meta[j]? = some mj → mi.offset < mj.offset) ∧
    (∀ (Types : List type_info) (bytes memcount : Nat) (impl : static_storage_base)
      (val : push_arg) (c : completion static_storage_base),
      static_vector.push_back Types bytes memcount impl val = .ok c →
      ∀ i, i < static_vector.size impl → c.state.meta[i]? = impl.meta[i]?) := by
  refine ⟨?_, ?_, ?_⟩
  · intro Types fuel vals s hvals h
    obtain ⟨h1, h2, h3⟩ := growable_ctor_order Types
    obtain ⟨hl, hc, hr⟩ :=
      growable_push_back_all_keeps_order Types fuel vals _ s hvals h1 h2 h3 h
    exact ⟨hr.2, fun v fuel1 s1 hs1 => growable_push_back_keeps_records hl hc hs1⟩
  · intro Types bytes memcount vals c hb hvals h
    exact (static_push_back_all_keeps_order Types bytes memcount hb vals _ c hvals
      (le_refl _) (static_ctor_order bytes memcount) h).2.2
  · intro Types bytes memcount impl val c h
    exact static_push_back_keeps_records h

/-- C19, witness.  Eight `push_back(5)` on a fresh `vector<bool, int, float>`, the last of
which doubles the buffer, and eight `push_back(true)` on a fresh
`static_vector<32, 8, bool, int, float>`: the records of both lie at increasing offsets. -/
theorem record_offsets_increase_witness :
    (∀ v ∈ List.replicate 8 int_5, v.val ≠ []) ∧
    vector.push_back_all trivial_types 1 (dynamic_storage.ctor trivial_types)
      (List.replicate 8 int_5) = .ok eight_ints ∧
    (∀ i j mi mj, i < j → j < vector.size eight_ints → eight_ints.meta[i]? = some mi →
      eight_ints.meta[j]? = some mj → mi.offset < mj.offset) ∧
    (∀ v ∈ List.replicate 8 true_v, v.val ≠ []) ∧
    static_vector.push_back_all trivial_types 32 8 (static_storage_base.ctor 32 8)
      (List.replicate 8 true_v) = .ok (.returned static_eight_bools) ∧
    (∀ i j mi mj, i < j → j < static_vector.size static_eight_bools →
      static_eight_bools.meta[i]? = some mi → static_eight_bools.meta[j]? = some mj →
      mi.offset < mj.offset) :=
  ⟨by decide, by decide,
    (record_offsets_increase.1 trivial_types 1 (List.replicate 8 int_5) eight_ints
      (by decide) (by decide)).1,
    by decide, by decide,
    record_offsets_increase.2.1 trivial_types 32 8 (List.replicate 8 true_v)
      (.returned static_eight_bools) (by decide) (by decide) (by decide)⟩

/-- C19, counterexample.  Four `push_back` of a 22000-byte `block` on a fresh
`static_vector<70000, 8, block>` all return; the 16-bit `offset` wraps from 66000 to 464
after the third, so the records lie at 0, 22000, 44000, 464 and record 2 is not below
record 3. -/
theorem static_offset_wrap_reorders_records :
    static_vector.push_back_all [block_t] 70000 8 (static_storage_base.ctor 70000 8)
        (List.replicate 4 zero_block) =
        .ok (.returned (blocks [0, 22000, 44000, 464] 22464)) ∧
      static_vector.size (blocks [0, 22000, 44000, 464] 22464) = 4 ∧
      (blocks [0, 22000, 44000, 464] 22464).meta[2]? = some ⟨0, 44000⟩ ∧
      (blocks [0, 22000, 44000, 464] 22464).meta[3]? = some ⟨0, 464⟩ ∧
      ¬ ∀ i j mi mj, i < j → j < static_vector.size (blocks [0, 22000, 44000, 464] 22464) →
        (blocks [0, 22000, 44000, 464] 22464).meta[i]? = some mi →
        (blocks [0, 22000, 44000, 464] 22464).meta[j]? = some mj → mi.offset < mj.offset := by
  refine ⟨?_, rfl, rfl, rfl, ?_⟩
  · have h0 : static_storage_base.ctor 70000 8 = blocks [] 0 := rfl
    have s1 := push_back_block [] 0 (by decide) (by decide)
    have s2 := push_back_block [0] 22000 (by decide) (by decide)
    have s3 := push_back_block [0, 22000] 44000 (by decide) (by decide)
    have s4 := push_back_block [0, 22000, 44000] 464 (by decide) (by decide)
    have u1 : uint16 (0 + 22000) = 22000 := by decide
    have u2 : uint16 (22000 + 22000) = 44000 := by decide
    have u3 : uint16 (44000 + 22000) = 464 := by decide
    have u4 : uint16 (464 + 22000) = 22464 := by decide
    rw [u1] at s1
    rw [u2] at s2
    rw [u3] at s3
    rw [u4] at s4
    show static_vector.push_back_all [block_t] 70000 8 (static_storage_base.ctor 70000 8)
      [zero_block, zero_block, zero_block, zero_block] = _
    rw [h0, static_vector.push_back_all, s1]
    show static_vector.push_back_all [block_t] 70000 8 (blocks [0] 22000) _ = _
    rw [static_vector.push_back_all, s2]
    show static_vector.push_back_all [block_t] 70000 8 (blocks [0, 22000] 44000) _ = _
    rw [static_vector.push_back_all, s3]
    show static_vector.push_back_all [block_t] 70000 8 (blocks [0, 22000, 44000] 464) _ = _
    rw [static_vector.push_back_all, s4]
    rfl
  · intro h
    have h23 := h 2 3 ⟨0, 44000⟩ ⟨0, 464⟩ (by decide) (by decide) rfl rfl
    exact absurd h23 (by decide)

/-! ### Dispatch on the tag of a record -/

/-- The index `index_of_impl` finds is the position of the needle, counted from `count`. -/
theorem index_of_impl_spec (Needle : type_info) :
    ∀ (Haystack : List type_info) (count : Nat), Needle ∈ Haystack →
      ∃ t, meta.index_of_impl count Needle Haystack = some (count + t) ∧
        t < Haystack.length ∧ Haystack[t]? = some Needle := by
  intro Haystack
  induction Haystack with
  | nil => intro count h; cases h
  | cons Other Rest ih =>
    intro count h
    unfold meta.index_of_impl
    by_cases he : Needle = Other
    · rw [if_pos he]
      exact ⟨0, rfl, by simp, by simp [he]⟩
    · rw [if_neg he]
      have hmem : Needle ∈ Rest := by
        cases h with
        | head => exact absurd rfl he
        | tail _ h => exact h
      obtain ⟨t, h1, h2, h3⟩ := ih (count + 1) hmem
      refine ⟨t + 1, ?_, by simp; omega, by simpa using h3⟩
      rw [h1]
      congr 1
      omega

/-- Whatever index `index_of_impl` yields is a position of the needle. -/
theorem index_of_impl_some (Needle : type_info) :
    ∀ (Haystack : List type_info) (count tag : Nat),
      meta.index_of_impl count Needle Haystack = some tag →
      count ≤ tag ∧ tag - count < Haystack.length ∧ Haystack[tag - count]? = some Needle := by
  intro Haystack
  induction Haystack with
  | nil => intro count tag h; cases h
  | cons Other Rest ih =>
    intro count tag h
    unfold meta.index_of_impl at h
    by_cases he : Needle = Other
    · rw [if_pos he] at h
      injection h with h
      subst h
      simp [he]
    · rw [if_neg he] at h
      obtain ⟨h1, h2, h3⟩ := ih (count + 1) tag h
      have hk : tag - count = (tag - (count + 1)) + 1 := by omega
      refine ⟨by omega, by simp; omega, ?_⟩
      rw [hk, List.getElem?_cons_succ]
      exact h3

/-- The tag `index_of_v` yields for a type is a position of that type in the pack. -/
theorem index_of_v_some {T : type_info} {Types : List type_info} {tag : Nat}
    (h : meta.index_of_v T Types = some tag) :
    tag < Types.length ∧ Types[tag]? = some T := by
  obtain ⟨_, h2, h3⟩ := index_of_impl_some T Types 0 tag h
  exact ⟨h2, h3⟩

/-- C21, amended.  The tag parameter of `get_typed_ptr_for` is held in 8 bits.  Dispatch
on a tag `t` below the number of declared types and below 256 yields the result of the
callback called with the pointer typed as the `t`-th declared type; in general dispatch
selects the declared type at index `t` modulo 256.  For a declared type `T` the index
`index_of_v<T, Types...>` exists, is a position of `T` in the pack, and when it is below
256 dispatch on it selects `T`.  When at most 256 types are declared, the record a
returning `push_back` writes on either backend is resolved to the stored type. -/
theorem dispatch_resolves_stored_type :
    (∀ (β : Type) (Types : List type_info) (t p : Nat)
        (callback : type_info → Nat → Except fault β), t < Types.length → t < 256 →
      ∃ T, Types[t]? = some T ∧ get_typed_ptr_for t p Types callback = callback T p) ∧
    (∀ (β : Type) (Types : List type_info) (t p : Nat)
        (callback : type_info → Nat → Except fault β), uint8 t < Types.length →
      ∃ T, Types[uint8 t]? = some T ∧
        get_typed_ptr_for t p Types callback = callback T p) ∧
    (∀ (β : Type) (Types : List type_info) (T : type_info) (p : Nat)
        (callback : type_info → Nat → Except fault β), T ∈ Types →
      ∃ t, meta.index_of_v T Types = some t ∧ t < Types.length ∧ Types[t]? = some T ∧
        (t < 256 → get_typed_ptr_for t p Types callback = callback T p)) ∧
    (∀ (β : Type) (Types : List type_info) (impl s : dynamic_storage) (val : push_arg)
        (fuel : Nat), Types.length ≤ 256 →
      vector.push_back Types impl val fuel = .ok s →
      ∃ m, s.meta[impl.count]? = some m ∧
        ∀ (p : Nat) (callback : type_info → Nat → Except fault β),
          get_typed_ptr_for m.type p Types callback = callback val.stored_type p) ∧
    (∀ (β : Type) (Types : List type_info) (bytes memcount : Nat)
        (impl s : static_storage_base) (val : push_arg), Types.length ≤ 256 →
      static_vector.push_back Types bytes memcount impl val = .ok (.returned s) →
      ∃ m, s.meta[impl.count]? = some m ∧
        ∀ (p : Nat) (callback : type_info → Nat → Except fault β),
          get_typed_ptr_for m.type p Types callback = callback val.stored_type p) := by
  refine ⟨?_, ?_, ?_, ?_, ?_⟩
  · intro β Types t p callback ht h8
    refine ⟨Types[t], by simp [ht], ?_⟩
    exact get_typed_ptr_for_eq t p Types callback _ (by rw [uint8_of_lt h8]; simp [ht])
  · intro β Types t p callback ht
    refine ⟨Types[uint8 t], by simp [ht], ?_⟩
    exact get_typed_ptr_for_eq t p Types callback _ (by simp [ht])
  · intro β Types T p callback hT
    obtain ⟨t, h1, h2, h3⟩ := index_of_impl_spec T Types 0 hT
    rw [Nat.zero_add] at h1
    refine ⟨t, h1, h2, h3, fun h8 => ?_⟩
    exact get_typed_ptr_for_eq t p Types callback T (by rw [uint8_of_lt h8]; exact h3)
  · intro β Types impl s val fuel hN h
    obtain ⟨tag, r, bs, data, htag, hgrow, _, _, hlt, hs⟩ := vector.push_back_ok h
    obtain ⟨k, _, _, hcount, _, _⟩ := grow_ok _ _ _ _ _ _ hgrow
    obtain ⟨ht1, ht2⟩ := index_of_v_some htag
    subst hs
    rw [← hcount]
    refine ⟨_, List.getElem?_set_self hlt, ?_⟩
    intro p callback
    have hu : uint8 tag = tag := uint8_of_lt (by omega)
    show get_typed_ptr_for (uint8 tag) p Types callback = _
    exact get_typed_ptr_for_eq _ p Types callback _ (by rw [hu, hu]; exact ht2)
  · intro β Types bytes memcount impl s val hN h
    obtain ⟨tag, bs, data, htag, _, _, _, hlt, hs⟩ := static_vector.push_back_returned h
    obtain ⟨ht1, ht2⟩ := index_of_v_some htag
    subst hs
    refine ⟨_, List.getElem?_set_self hlt, ?_⟩
    intro p callback
    have hu : uint8 tag = tag := uint8_of_lt (by omega)
    show get_typed_ptr_for (uint8 tag) p Types callback = _
    exact get_typed_ptr_for_eq _ p Types callback _ (by rw [hu, hu]; exact ht2)

/-- C21, witness.  In `vector<bool, int, float, std::string>`: the tag 3 selects
`std::string`, the tag 259 is held as 3 and selects it too, `index_of_v<std::string, ...>`
is 3, and the record written by `push_back("hello world")` on a fresh vector is resolved to
`std::string`. -/
theorem dispatch_resolves_stored_type_witness :
    (∃ T, copyable_types[3]? = some T ∧
      get_typed_ptr_for 3 0 copyable_types (fun T p => Except.ok (T, p)) = .ok (T, 0)) ∧
    (∃ T, copyable_types[uint8 259]? = some T ∧
      get_typed_ptr_for 259 0 copyable_types (fun T p => Except.ok (T, p)) = .ok (T, 0)) ∧
    (∃ t, meta.index_of_v string_t copyable_types = some t ∧ t < copyable_types.length ∧
      copyable_types[t]? = some string_t ∧
      (t < 256 → get_typed_ptr_for t 0 copyable_types (fun T p => Except.ok (T, p)) =
        .ok (string_t, 0))) ∧
    vector.push_back copyable_types (dynamic_storage.ctor copyable_types) hello_world 0 =
      .ok one_string ∧
    (∃ m, one_string.meta[(dynamic_storage.ctor copyable_types).count]? = some m ∧
      ∀ (p : Nat) (callback : type_info → Nat → Except fault (type_info × Nat)),
        get_typed_ptr_for m.type p copyable_types callback =
          callback hello_world.stored_type p) :=
  ⟨dispatch_resolves_stored_type.1 (type_info × Nat) copyable_types 3 0
      (fun T p => Except.ok (T, p)) (by decide) (by decide),
    dispatch_resolves_stored_type.2.1 (type_info × Nat) copyable_types 259 0
      (fun T p => Except.ok (T, p)) (by decide),
    dispatch_resolves_stored_type.2.2.1 (type_info × Nat) copyable_types string_t 0
      (fun T p => Except.ok (T, p)) (by decide),
    by decide,
    dispatch_resolves_stored_type.2.2.2.1 (type_info × Nat) copyable_types
      (dynamic_storage.ctor copyable_types) one_string hello_world 0 (by decide) (by decide)⟩

/-- C21, counterexample.  With the 257 types `slot<0>, ..., slot<256>` declared,
`index_of_v<slot<256>, ...>` is 256, below the number of declared types; dispatch on the
tag 256 holds it as 0 and selects `slot<0>`.  `push_back(slot<256> {1})` on a fresh vector
stores the 8-bit tag 0, and `operator[](0)` resolves the record to `slot<0>`, not to the
stored type. -/
theorem tag_wraps_beyond_256_types :
    wide_types.length = 257 ∧
    meta.index_of_v last_slot.stored_type wide_types = some 256 ∧
    wide_types[256]? = some last_slot.stored_type ∧
    get_typed_ptr_for 256 0 wide_types (fun T p => Except.ok (T, p)) =
      .ok (⟨10, 1, 1, true, true, true⟩, 0) ∧
    vector.push_back wide_types (dynamic_storage.ctor wide_types) last_slot 0 =
      .ok wide_vector ∧
    wide_vector.meta[0]? = some ⟨0, 0⟩ ∧
    vector.operator_index wide_types wide_vector 0 =
      .ok (.value ⟨10, 1, 1, true, true, true⟩ [1]) ∧
    get_typed_ptr_for 0 0 wide_types (fun T p => Except.ok (T, p)) ≠
      .ok (last_slot.stored_type, 0) := by
  refine ⟨?_, ?_, ?_, ?_, ?_, ?_, ?_, ?_⟩ <;> decide

/-! ### Destruction -/

/-- The destructor loop over `count` records with declared 8-bit tags makes one call per
record, last record first, each with the type at the record's tag and the record's
offset. -/
theorem destructor_loop_calls (Types : List type_info) (meta : List storage_metadata) :
    ∀ count : Nat, count ≤ meta.length →
      (∀ i m, i < count → meta[i]? = some m → m.type < Types.length ∧ m.type < 256) →
      ∃ calls, destructor_loop Types meta count = .ok calls ∧
        calls.map some = expected_destructor_calls Types meta count := by
  intro count
  induction count with
  | zero =>
    intro _ _
    exact ⟨[], rfl, rfl⟩
  | succ n ih =>
    intro hlen htag
    obtain ⟨calls, hc, hmap⟩ := ih (by omega) (fun i m hi hm => htag i m (by omega) hm)
    have hn : n < meta.length := by omega
    have hm : meta[n]? = some meta[n] := by simp [hn]
    obtain ⟨ht, h8⟩ := htag n meta[n] (by omega) hm
    have hT : Types[meta[n].type]? = some Types[meta[n].type] := by simp [ht]
    have hT8 : Types[uint8 meta[n].type]? = some Types[meta[n].type] := by
      rw [uint8_of_lt h8]
      exact hT
    refine ⟨⟨Types[meta[n].type], meta[n].offset⟩ :: calls, ?_, ?_⟩
    · unfold destructor_loop
      rw [hm]
      dsimp only
      rw [get_typed_ptr_for_eq _ _ Types _ _ hT8, hc]
      rfl
    · unfold expected_destructor_calls at hmap ⊢
      rw [List.range_succ, List.map_append, List.reverse_append]
      simp only [List.map_cons, List.map_nil, List.reverse_cons, List.reverse_nil,
        List.nil_append, List.singleton_append, hm, hT]
      rw [hmap]

/-- On a backend whose first `count` records exist and carry declared 8-bit tags,
destruction makes the calls the records describe, last record first, and leaves `count` at
0: so for the growable backend, and for the fixed-capacity backend when some declared type
is not trivially destructible; when every declared type is trivially destructible the
fixed-capacity backend makes no call. -/
theorem destructors_run_in_reverse_order (Types : List type_info) :
    (∀ self : dynamic_storage, self.count ≤ self.meta.length →
      (∀ i m, i < self.count → self.meta[i]? = some m →
        m.type < Types.length ∧ m.type < 256) →
      ∃ calls, dynamic_storage.dtor Types self = .ok ({ self with count := 0 }, calls) ∧
        calls.map some = expected_destructor_calls Types self.meta self.count) ∧
    (∀ self : static_storage_base, Types.all (fun T => T.trivially_destructible) = false →
      self.count ≤ self.meta.length →
      (∀ i m, i < self.count → self.meta[i]? = some m →
        m.type < Types.length ∧ m.type < 256) →
      ∃ calls, autotrivial_static_storage_base_t.dtor Types self =
          .ok ({ self with count := 0 }, calls) ∧
        calls.map some = expected_destructor_calls Types self.meta self.count) ∧
    (∀ self : static_storage_base, Types.all (fun T => T.trivially_destructible) = true →
      autotrivial_static_storage_base_t.dtor Types self = .ok (self, [])) := by
  refine ⟨?_, ?_, ?_⟩
  · intro self hlen htag
    obtain ⟨calls, hc, hmap⟩ := destructor_loop_calls Types self.meta self.count hlen htag
    refine ⟨calls, ?_, hmap⟩
    unfold dynamic_storage.dtor
    rw [hc]
    rfl
  · intro self hall hlen htag
    obtain ⟨calls, hc, hmap⟩ := destructor_loop_calls Types self.meta self.count hlen htag
    refine ⟨calls, ?_, hmap⟩
    unfold autotrivial_static_storage_base_t.dtor destructible_static_storage_base.dtor
    rw [hall, hc]
    rfl
  · intro self hall
    unfold autotrivial_static_storage_base_t.dtor
    rw [hall]
    rfl

/-- C22, failing input.  Destroying the move-only test container makes four destructor
calls, last element first.  After `auto moved = std::move(vec)` the new container owns the
buffer with the four elements but has `count == 0`, so its destructor makes no call, and the
source keeps `count == 4` with its metadata array moved away, so its destructor reads
`meta[3]` of an empty array: no element is destroyed exactly once. -/
theorem move_construction_skips_destructors :
    vector.push_back_all movable_types 0 (dynamic_storage.ctor movable_types)
        [true_v, int_1337, hello_world, owned_double] = .ok movable_vector ∧
    movable_types.all (fun T => T.trivially_destructible) = false ∧
    dynamic_storage.dtor movable_types movable_vector =
      .ok ({ movable_vector with count := 0 },
        [⟨unique_ptr_t, 24⟩, ⟨string_t, 8⟩, ⟨int_t, 1⟩, ⟨bool_t, 0⟩]) ∧
    (vector.move_ctor movable_vector).1.data = movable_vector.data ∧
    (vector.move_ctor movable_vector).1.count = 0 ∧
    dynamic_storage.dtor movable_types (vector.move_ctor movable_vector).1 =
      .ok ((vector.move_ctor movable_vector).1, []) ∧
    (vector.move_ctor movable_vector).2.count = 4 ∧
    (vector.move_ctor movable_vector).2.meta = [] ∧
    dynamic_storage.dtor movable_types (vector.move_ctor movable_vector).2 =
      .error .undefined := by
  refine ⟨?_, ?_, ?_, ?_, ?_, ?_, ?_, ?_, ?_⟩ <;> decide

/-! ### Extent of the stored elements -/

/-- When the first test of the growth loop finds space, `push_back` does not depend on the
step budget. -/
theorem vector.push_back_fuel_irrelevant (Types : List type_info) (impl : dynamic_storage)
    (val : push_arg) (fuel : Nat)
    (h : impl.has_space (val.val.length +
      (basic_variable_vector.initial_data_ptr val impl.offset - impl.offset)) = true) :
    vector.push_back Types impl val fuel = vector.push_back Types impl val 0 := by
  have hg : ∀ f p, vector.push_back.grow Types (val.val.length +
      (basic_variable_vector.initial_data_ptr val impl.offset - impl.offset)) f impl p =
      .ok (impl, p) := by
    intro f p
    cases f <;> simp [vector.push_back.grow, h]
  unfold vector.push_back
  simp only [hg]

/-- C23, failing input.  In the move-only test sequence `true, 1337, "hello world",
std::make_unique<double>(3.14159)` on `vector<bool, int, float, std::string,
std::unique_ptr<double>>` the `std::string` is written at bytes 8..40 and the
`std::unique_ptr` at bytes 24..32, inside the string.  And on a
`vector<bool, int, float, std::string>` of capacity 256 holding seven strings and one
`bool` (offset 225), `push_back("hello world")` finds space for 7 bytes of padding and the
12 bytes of the literal, and writes the 32 bytes of the string at 232, past the end of the
buffer. -/
theorem appended_elements_overlap :
    vector.push_back_all movable_types 0 (dynamic_storage.ctor movable_types)
        [true_v, int_1337, hello_world, owned_double] = .ok movable_vector ∧
    vector.size movable_vector = 4 ∧
    movable_vector.meta[2]? = some ⟨3, 8⟩ ∧ movable_types[3]? = some string_t ∧
    movable_vector.meta[3]? = some ⟨4, 24⟩ ∧ movable_types[4]? = some unique_ptr_t ∧
    8 ≤ 24 ∧ 24 < 8 + string_t.size ∧
    vector.push_back_all copyable_types 0 (dynamic_storage.ctor copyable_types)
        (List.replicate 7 hello_world_object ++ [true_v]) = .ok nearly_full ∧
    nearly_full.bytes = 256 ∧ nearly_full.offset = 225 ∧
    basic_variable_vector.initial_data_ptr hello_world nearly_full.offset = 232 ∧
    nearly_full.has_space (hello_world.val.length +
      (basic_variable_vector.initial_data_ptr hello_world nearly_full.offset -
        nearly_full.offset)) = true ∧
    232 + string_t.size > nearly_full.bytes ∧
    ∀ fuel, vector.push_back copyable_types nearly_full hello_world fuel =
      .error .undefined := by
  refine ⟨by decide, by decide, by decide, by decide, by decide, by decide, by decide,
    by decide, by decide, by decide, by decide, by decide, by decide, by decide, ?_⟩
  intro fuel
  rw [vector.push_back_fuel_irrelevant copyable_types nearly_full hello_world fuel
    (by decide)]
  decide

/-! ### Bounds of the metadata array -/

/-- C24, failing input.  A fresh `vector<std::string>` has capacity 256 and a metadata array
of `ceil(256 / 32) = 8` records.  Each `push_back("a")` advances `offset` by the padding
plus 2, the size of the literal, so after eight appends `count` is 8 and `offset` is 58;
the ninth finds space without growth and writes `meta[8]`, past the end of the array. -/
theorem record_write_past_metadata_array :
    (dynamic_storage.ctor [string_t]).bytes = 256 ∧
    (dynamic_storage.ctor [string_t]).meta.length = 8 ∧
    dynamic_storage.meta_length [string_t] 256 = 8 ∧
    vector.push_back_all [string_t] 0 (dynamic_storage.ctor [string_t])
        (List.replicate 8 letter_a) = .ok eight_strings ∧
    eight_strings.count = 8 ∧ eight_strings.offset = 58 ∧ eight_strings.bytes = 256 ∧
    eight_strings.meta.length = 8 ∧
    eight_strings.has_space (letter_a.val.length +
      (basic_variable_vector.initial_data_ptr letter_a eight_strings.offset -
        eight_strings.offset)) = true ∧
    ¬ eight_strings.count < eight_strings.meta.length ∧
    ∀ fuel, vector.push_back [string_t] eight_strings letter_a fuel = .error .undefined := by
  refine ⟨by decide, by decide, by decide, by decide, by decide, by decide, by decide,
    by decide, by decide, by decide, ?_⟩
  intro fuel
  rw [vector.push_back_fuel_irrelevant [string_t] eight_strings letter_a fuel (by decide)]
  decide

/-! ### Termination -/

/-- From capacity 0 with no elements the growth loop never finds space: doubling leaves the
capacity at 0, and every step budget runs out. -/
theorem grow_from_zero_capacity (Types : List type_info) (n : Nat) :
    ∀ (fuel : Nat) (impl : dynamic_storage) (p : Nat), impl.bytes = 0 → impl.count = 0 →
      vector.push_back.grow Types n fuel impl p = .error .exhausted := by
  intro fuel
  induction fuel with
  | zero =>
    intro impl p hb _
    unfold vector.push_back.grow
    rw [if_neg (by simp [dynamic_storage.has_space, hb])]
  | succ fuel ih =>
    intro impl p hb hc
    unfold vector.push_back.grow
    rw [if_neg (by simp [dynamic_storage.has_space, hb])]
    have hr : ∃ r, impl.resize Types (impl.size * 2) = .ok r ∧ r.1.bytes = 0 ∧
        r.1.count = 0 := by
      unfold dynamic_storage.resize move_storage
      rw [hc]
      refine ⟨_, rfl, ?_, rfl⟩
      simp [dynamic_storage.size, hb]
    obtain ⟨r, hr1, hr2, hr3⟩ := hr
    rw [hr1]
    exact ih r.1 r.2 hr2 hr3

/-- C25, failing input.  The container move-constructed from any growable vector has
capacity 0 and no elements, and `push_back` of any value of a declared type on it never
leaves its growth loop, whatever the step budget; so for the vector move-constructed from
the move-only test container and `push_back(true)`. -/
theorem push_back_after_move_ctor_never_ends :
    (∀ (Types : List type_info) (other : dynamic_storage) (val : push_arg) (fuel : Nat),
      meta.index_of_v val.stored_type Types ≠ none →
      vector.push_back Types (vector.move_ctor other).1 val fuel = .error .exhausted) ∧
    vector.push_back_all movable_types 0 (dynamic_storage.ctor movable_types)
      [true_v, int_1337, hello_world, owned_double] = .ok movable_vector ∧
    (vector.move_ctor movable_vector).1.bytes = 0 ∧
    ∀ fuel, vector.push_back movable_types (vector.move_ctor movable_vector).1 true_v fuel =
      .error .exhausted := by
  have hgen : ∀ (Types : List type_info) (other : dynamic_storage) (val : push_arg)
      (fuel : Nat), meta.index_of_v val.stored_type Types ≠ none →
      vector.push_back Types (vector.move_ctor other).1 val fuel = .error .exhausted := by
    intro Types other val fuel htag
    unfold vector.push_back
    split
    · rename_i h
      exact absurd h htag
    · dsimp only
      rw [grow_from_zero_capacity Types _ fuel (vector.move_ctor other).1 _ rfl rfl]
      rfl
  exact ⟨hgen, by decide, by decide,
    fun fuel => hgen movable_types movable_vector true_v fuel (by decide)⟩

/-- C26, failing input.  For the growable vector `v` holding the single element `true`, the
evaluation of `v == v` dereferences index 1, which is `size()`, in its first iteration and
fails the assertion of `operator[]`; with two or more elements whose second elements agree
it never returns (the evaluation of `w == w` for the test container `w`). -/
theorem operator_eq_dereferences_past_the_end :
    vector.push_back copyable_types (dynamic_storage.ctor copyable_types) true_v 0 =
      .ok (built copyable_types [true_v]) ∧
    vector.size (built copyable_types [true_v]) = 1 ∧
    vector.operator_index copyable_types (built copyable_types [true_v]) 1 =
      .error .assertion ∧
    (∀ this : Nat,
      ((basic_variable_vector.begin
          (vector.view copyable_types this (built copyable_types [true_v]))).deref_post_incr
        (vector.view copyable_types this (built copyable_types [true_v]))).1 =
        .error .assertion) ∧
    (∀ this fuel : Nat,
      basic_variable_vector.operator_eq
        (vector.view copyable_types this (built copyable_types [true_v]))
        (vector.view copyable_types this (built copyable_types [true_v])) (fuel + 1) =
        .error .assertion) ∧
    ∀ this fuel : Nat,
      basic_variable_vector.operator_eq (vector.view copyable_types this copyable_vector)
        (vector.view copyable_types this copyable_vector) fuel ≠ .ok true := by
  have hd : ∀ this : Nat,
      ((basic_variable_vector.begin
          (vector.view copyable_types this (built copyable_types [true_v]))).deref_post_incr
        (vector.view copyable_types this (built copyable_types [true_v]))).1 =
        .error .assertion := by
    intro this
    show vector.operator_index copyable_types (built copyable_types [true_v])
      (size_type (0 + 1)) = _
    decide
  refine ⟨by decide, by decide, by decide, hd, ?_, ?_⟩
  · intro this fuel
    have hne : ((basic_variable_vector.begin
          (vector.view copyable_types this (built copyable_types [true_v]))).operator_ne
        (basic_variable_vector.end_
          (vector.view copyable_types this (built copyable_types [true_v]))) &&
        (basic_variable_vector.begin
          (vector.view copyable_types this (built copyable_types [true_v]))).operator_ne
        (basic_variable_vector.end_
          (vector.view copyable_types this (built copyable_types [true_v])))) = true := by
      have hs : vector.size (built copyable_types [true_v]) = 1 := by decide
      simp [basic_variable_iterator.operator_ne, basic_variable_iterator.operator_eq,
        basic_variable_vector.begin, basic_variable_vector.end_, vector.view, hs]
    unfold basic_variable_vector.operator_eq
    rw [basic_variable_vector.operator_eq.loop]
    simp only [hne, if_true, hd this]
  · intro this fuel
    exact operator_eq_never_true _ _ (show vector.size copyable_vector ≠ 0 by decide)
      (show vector.size copyable_vector ≠ 0 by decide) fuel

/-! ### Alignment arithmetic -/

/-- Clearing the low `k` bits of a 64-bit value with the mask `~(2 ^ k - 1)` rounds it down
to a multiple of `2 ^ k`. -/
theorem and_not_low_bits (x k : Nat) (hx : x < 2 ^ 64) :
    x &&& ((2 ^ 64 - 1) ^^^ (2 ^ k - 1)) = x / 2 ^ k * 2 ^ k := by
  apply Nat.eq_of_testBit_eq
  intro i
  rw [Nat.testBit_and, Nat.testBit_xor, Nat.testBit_two_pow_sub_one, Nat.testBit_two_pow_sub_one,
    Nat.mul_comm, Nat.testBit_mul_pow_two, ← Nat.shiftRight_eq_div_pow, Nat.testBit_shiftRight]
  by_cases h5 : x.testBit i = false
  · by_cases h1 : i < k
    · simp [h1, h5]
    · have h3 : k + (i - k) = i := by omega
      rw [h3, h5]
      simp
  · have h64 : i < 64 := by
      by_contra h2
      exact h5 (Nat.testBit_lt_two_pow
        (lt_of_lt_of_le hx (Nat.pow_le_pow_right (by decide) (by omega))))
    by_cases h1 : i < k
    · simp [h1, h64]
    · have h3 : k + (i - k) = i := by omega
      have h4 : decide (i ≥ k) = true := decide_eq_true (by omega)
      rw [h3, h4, decide_eq_false h1]
      simp [h64]

/-- For a power-of-two alignment and an address that does not overflow, `realign_for_type`
rounds the address up to a multiple of the alignment. -/
theorem realign_for_type_eq (T : type_info) (k p : Nat) (ha : T.align = 2 ^ k)
    (hp : p + (T.align - 1) < 2 ^ uintptr_bits) :
    realign_for_type T p = (p + (T.align - 1)) / T.align * T.align := by
  unfold realign_for_type
  unfold uintptr_bits at hp ⊢
  rw [Nat.mod_eq_of_lt hp, Nat.mod_eq_of_lt (by omega), ha]
  rw [ha] at hp
  exact and_not_low_bits _ k hp

/-- For a power-of-two alignment `aligned_for_type` tests divisibility by the alignment. -/
theorem aligned_for_type_iff (T : type_info) (k p : Nat) (ha : T.align = 2 ^ k) :
    aligned_for_type T p = true ↔ p % T.align = 0 := by
  unfold aligned_for_type
  rw [ha, Nat.and_pow_two_sub_one_eq_mod]
  simp

/-- Rounding up to a multiple of `a`: the result is the least multiple at or above `p`. -/
theorem round_up_least (a p : Nat) (ha : 0 < a) :
    a ∣ (p + (a - 1)) / a * a ∧ p ≤ (p + (a - 1)) / a * a ∧
      (p + (a - 1)) / a * a - p < a ∧
      (∀ q, p ≤ q → a ∣ q → (p + (a - 1)) / a * a ≤ q) ∧
      ((p + (a - 1)) / a * a = p ↔ p % a = 0) := by
  have hdm := Nat.div_add_mod (p + (a - 1)) a
  have hm := Nat.mod_lt (p + (a - 1)) ha
  rw [Nat.mul_comm] at hdm
  refine ⟨Nat.dvd_mul_left _ _, by omega, by omega, ?_, ?_⟩
  · intro q hq hdvd
    obtain ⟨c, hc⟩ := hdvd
    by_contra hlt
    have hlt1 : a * c < a * ((p + (a - 1)) / a) := by
      rw [Nat.mul_comm a ((p + (a - 1)) / a), ← hc]
      omega
    have hc1 : c + 1 ≤ (p + (a - 1)) / a := Nat.lt_of_mul_lt_mul_left hlt1
    have hc2 : a * (c + 1) ≤ a * ((p + (a - 1)) / a) := Nat.mul_le_mul_left a hc1
    rw [Nat.mul_add, Nat.mul_one, Nat.mul_comm a ((p + (a - 1)) / a)] at hc2
    omega
  · constructor
    · intro h
      rw [← h]
      exact Nat.mul_mod_left _ _
    · intro h
      obtain ⟨c, hc⟩ := Nat.dvd_of_mod_eq_zero h
      have : (p + (a - 1)) / a = c := by
        rw [hc, Nat.mul_comm a c]
        rw [Nat.add_comm, Nat.add_mul_div_right _ _ ha, Nat.div_eq_of_lt (by omega)]
        omega
      rw [this, hc, Nat.mul_comm]

/-- C27.  For a type whose alignment is a power of two and an address `p` with
`p + alignof(T) - 1` below `2 ^ 64`: `realign_for_type<T>(p)` is a multiple of the
alignment, is at or above `p` and less than one alignment above it, is the least such
multiple, passes `aligned_for_type<T>`, is left unchanged by a second `realign_for_type<T>`,
and equals `p` exactly when `aligned_for_type<T>(p)` holds. -/
theorem realign_is_least_aligned_address (T : type_info) (k p : Nat) (ha : T.align = 2 ^ k)
    (hp : p + (T.align - 1) < 2 ^ uintptr_bits) :
    T.align ∣ realign_for_type T p ∧
      p ≤ realign_for_type T p ∧
      realign_for_type T p - p < T.align ∧
      (∀ q, p ≤ q → T.align ∣ q → realign_for_type T p ≤ q) ∧
      aligned_for_type T (realign_for_type T p) = true ∧
      realign_for_type T (realign_for_type T p) = realign_for_type T p ∧
      (aligned_for_type T p = true ↔ realign_for_type T p = p) := by
  have hpos : 0 < T.align := by rw [ha]; exact Nat.two_pow_pos k
  obtain ⟨h1, h2, h3, h4, h5⟩ := round_up_least T.align p hpos
  have he := realign_for_type_eq T k p ha hp
  rw [← he] at h1 h2 h3 h4 h5
  have hal : aligned_for_type T (realign_for_type T p) = true :=
    (aligned_for_type_iff T k _ ha).mpr (Nat.mod_eq_zero_of_dvd h1)
  refine ⟨h1, h2, h3, h4, hal, ?_, ?_⟩
  · have hfit : realign_for_type T p + (T.align - 1) < 2 ^ uintptr_bits := by
      obtain ⟨c, hc⟩ := h1
      have hk64 : k ≤ 64 := by
        by_contra hk
        have : 2 ^ 64 < 2 ^ k := Nat.pow_lt_pow_right (by decide) (by omega)
        unfold uintptr_bits at hp
        omega
      have hsplit : (2 : Nat) ^ 64 = 2 ^ k * 2 ^ (64 - k) := by
        rw [← Nat.pow_add]
        congr 1
        omega
      unfold uintptr_bits at hp ⊢
      rw [hsplit, ← ha]
      rw [hsplit, ← ha] at hp
      rw [hc]
      have hlt : T.align * c < T.align * 2 ^ (64 - k) := by
        rw [← hc]
        omega
      have hc1 : c + 1 ≤ 2 ^ (64 - k) := Nat.lt_of_mul_lt_mul_left hlt
      have hc2 : T.align * (c + 1) ≤ T.align * 2 ^ (64 - k) := Nat.mul_le_mul_left _ hc1
      rw [Nat.mul_add, Nat.mul_one] at hc2
      omega
    have he2 := realign_for_type_eq T k _ ha hfit
    rw [he2]
    exact (round_up_least T.align _ hpos).2.2.2.2.mpr (Nat.mod_eq_zero_of_dvd h1)
  · rw [aligned_for_type_iff T k p ha]
    exact h5.symm

/-- C27, witness.  For `std::unique_ptr<double>` (alignment 8) and the address 57:
`realign_for_type` yields 64. -/
theorem realign_is_least_aligned_address_witness :
    unique_ptr_t.align = 2 ^ 3 ∧ realign_for_type unique_ptr_t 57 = 64 ∧
      unique_ptr_t.align ∣ realign_for_type unique_ptr_t 57 ∧
      57 ≤ realign_for_type unique_ptr_t 57 ∧
      realign_for_type unique_ptr_t 57 - 57 < unique_ptr_t.align ∧
      (∀ q, 57 ≤ q → unique_ptr_t.align ∣ q → realign_for_type unique_ptr_t 57 ≤ q) ∧
      aligned_for_type unique_ptr_t (realign_for_type unique_ptr_t 57) = true ∧
      realign_for_type unique_ptr_t (realign_for_type unique_ptr_t 57) =
        realign_for_type unique_ptr_t 57 ∧
      (aligned_for_type unique_ptr_t 57 = true ↔ realign_for_type unique_ptr_t 57 = 57) :=
  ⟨by decide, by decide,
    realign_is_least_aligned_address unique_ptr_t 3 57 (by decide) (by decide)⟩

/-! ### The space test of `push_back` and `resize` -/

/-- C8, failing input.  A `static_vector<128, 8, bool, int, float, std::string>` holds three
strings and one `bool`: count 4 of 8, offset 97 of 128.  `push_back("hello world")` needs 7
bytes of padding and the 32 bytes of the `std::string`, 39 bytes with 31 left, yet the test
`has_space(12 + 7)` with the size of the literal passes: the append is not left by
`std::bad_alloc` and constructs the string at 104, past the end of the buffer. -/
theorem static_append_overruns_without_bad_alloc :
    static_vector.push_back_all copyable_types 128 8 (static_storage_base.ctor 128 8)
        (List.replicate 3 hello_world_object ++ [true_v]) =
      .ok (.returned static_nearly_full) ∧
    static_nearly_full.count = 4 ∧ static_nearly_full.offset = 97 ∧
    basic_variable_vector.initial_data_ptr hello_world static_nearly_full.offset = 104 ∧
    (104 - static_nearly_full.offset) + hello_world.stored_type.size = 39 ∧
    128 - static_nearly_full.offset = 31 ∧
    hello_world.val.length = 12 ∧
    static_nearly_full.has_space 128 8 (hello_world.val.length +
      (basic_variable_vector.initial_data_ptr hello_world static_nearly_full.offset -
        static_nearly_full.offset)) = true ∧
    static_vector.push_back copyable_types 128 8 static_nearly_full hello_world =
      .error .undefined ∧
    static_vector.push_back copyable_types 128 8 static_nearly_full hello_world ≠
      .ok (.bad_alloc static_nearly_full) := by
  refine ⟨?_, ?_, ?_, ?_, ?_, ?_, ?_, ?_, ?_, ?_⟩ <;> decide

/-- C9, failing input.  The test of the growth loop takes the size of the source value for
the bytes of the value.  On a `vector<bool, int, float, std::string>` of capacity 256 at
offset 225, `push_back("hello world")` needs 7 bytes of padding and 32 bytes for the
`std::string`, 39 with 31 left, and yet does not grow: it constructs the string past the
end of the buffer.  On a fresh vector of capacity 256 the `std::string` made from a literal
of 300 bytes needs 32 bytes, and yet the capacity doubles to 512. -/
theorem growth_test_takes_source_size :
    vector.push_back_all copyable_types 0 (dynamic_storage.ctor copyable_types)
        (List.replicate 7 hello_world_object ++ [true_v]) = .ok nearly_full ∧
    nearly_full.bytes = 256 ∧ nearly_full.offset = 225 ∧
    basic_variable_vector.initial_data_ptr hello_world nearly_full.offset = 232 ∧
    (232 - nearly_full.offset) + hello_world.stored_type.size = 39 ∧
    nearly_full.bytes - nearly_full.offset = 31 ∧
    nearly_full.has_space (hello_world.val.length +
      (basic_variable_vector.initial_data_ptr hello_world nearly_full.offset -
        nearly_full.offset)) = true ∧
    (∀ fuel, vector.push_back copyable_types nearly_full hello_world fuel =
      .error .undefined) ∧
    (dynamic_storage.ctor copyable_types).bytes = 256 ∧
    (dynamic_storage.ctor copyable_types).offset = 0 ∧
    basic_variable_vector.initial_data_ptr long_literal 0 = 0 ∧
    long_literal.stored_type.size = 32 ∧ long_literal.val.length = 300 ∧
    vector.push_back copyable_types (dynamic_storage.ctor copyable_types) long_literal 1 =
      .ok grown_for_literal ∧
    grown_for_literal.bytes = 512 ∧
    read_at grown_for_literal.data 0 32 = .ok long_literal.converted := by
  refine ⟨by decide, by decide, by decide, by decide, by decide, by decide, by decide, ?_,
    by decide, by decide, by decide, by decide, by decide, by decide, by decide, by decide⟩
  intro fuel
  rw [vector.push_back_fuel_irrelevant copyable_types nearly_full hello_world fuel
    (by decide)]
  decide

/-- A growth loop whose first `resize` fails, fails. -/
theorem grow_resize_fault {Types : List type_info} {n fuel : Nat} {impl : dynamic_storage}
    {p : Nat} {e : fault} (hs : impl.has_space n = false)
    (hr : impl.resize Types (impl.size * 2) = .error e) :
    vector.push_back.grow Types n (fuel + 1) impl p = .error e := by
  rw [vector.push_back.grow, if_neg (by simp [hs]), hr]
  rfl

/-- C20, failing input.  On the container `v` of the test case `container properties`
(records at 0, 1, 5, 16, offset 28, capacity 256) `resize(512)` keeps `count`, `offset`,
the records and every element.  After `auto moved = std::move(v)` the source `v` keeps
`count == 4` and `offset == 28` while its metadata array and buffer were moved away;
`v.push_back` of a literal of 300 bytes finds no space in 256 bytes and calls
`resize(512)`, with 512 at least the offset, and `move_storage` reads `meta[0]` of the
empty array. -/
theorem resize_on_moved_from_source_faults :
    vector.push_back_all copyable_types 0 (dynamic_storage.ctor copyable_types)
        [true_v, int_5, float_3_5, hello_world] = .ok copyable_vector ∧
    copyable_vector.meta.take 4 = [⟨0, 0⟩, ⟨1, 1⟩, ⟨2, 5⟩, ⟨3, 16⟩] ∧
    dynamic_storage.resize copyable_types copyable_vector 512 =
      .ok (copyable_vector_resized, 28) ∧
    copyable_vector_resized.count = copyable_vector.count ∧
    copyable_vector_resized.offset = copyable_vector.offset ∧
    copyable_vector_resized.bytes = 512 ∧
    copyable_vector_resized.meta.take 4 = copyable_vector.meta.take 4 ∧
    (∀ i, i < 4 → vector.operator_index copyable_types copyable_vector_resized i =
      vector.operator_index copyable_types copyable_vector i) ∧
    (vector.move_ctor copyable_vector).2.count = 4 ∧
    (vector.move_ctor copyable_vector).2.offset = 28 ∧
    (vector.move_ctor copyable_vector).2.bytes = 256 ∧
    (vector.move_ctor copyable_vector).2.meta = [] ∧
    (vector.move_ctor copyable_vector).2.has_space (long_literal.val.length +
      (basic_variable_vector.initial_data_ptr long_literal
        (vector.move_ctor copyable_vector).2.offset -
          (vector.move_ctor copyable_vector).2.offset)) = false ∧
    (vector.move_ctor copyable_vector).2.size * 2 = 512 ∧
    dynamic_storage.resize copyable_types (vector.move_ctor copyable_vector).2 512 =
      .error .undefined ∧
    ∀ fuel, vector.push_back copyable_types (vector.move_ctor copyable_vector).2
      long_literal (fuel + 1) = .error .undefined := by
  refine ⟨by decide, by decide, by decide, by decide, by decide, by decide, by decide,
    by decide, by decide, by decide, by decide, by decide, by decide, by decide, by decide,
    ?_⟩
  intro fuel
  have htag : meta.index_of_v long_literal.stored_type copyable_types = some 3 := by decide
  have hr : dynamic_storage.resize copyable_types (vector.move_ctor copyable_vector).2
      ((vector.move_ctor copyable_vector).2.size * 2) = .error .undefined := by decide
  unfold vector.push_back
  simp only [htag]
  rw [grow_resize_fault (by decide) hr]
  rfl

end varvec
